import Mathlib

/-!
# Beam wallet UI view-models: a shallow embedding

The view-models of `ui/viewmodel` (SendViewModel, SettingsViewModel,
SwapCoinSettingsItem with its ElectrumPhraseItem, UtxoItem, ShieldedCoinItem,
QMLGlobals) are embedded as pure functions over explicit state records.
Mutating member functions become functions from state to state; emitted Qt
signals and asynchronous engine requests are appended, in program order, to an
`effects` trace kept inside the state.  The external wallet engine and the
helper headers that are not part of the embedded source files are parameters of
the model.

Part I holds the definitions, Part II the theorems.
-/

namespace BeamUI

/-! ## Part I. Definitions -/

/-! ### Basic types -/

/-- A `QString`, as the sequence of its characters. -/
abbrev QString := List Char

/-- Number of values of `beam::Amount` (`uint64_t`). -/
def AMOUNT_RANGE : Nat := 2 ^ 64

/-- Number of values of `unsigned int` / `uint` / `beam::Asset::ID` (32 bits). -/
def UINT_RANGE : Nat := 2 ^ 32

/-- Addition of two `beam::Amount` values (unsigned, 64 bits). -/
def amountAdd (a b : Nat) : Nat := (a + b) % AMOUNT_RANGE

/-- Subtraction of two `beam::Amount` values (unsigned, 64 bits, wraps below zero). -/
def amountSub (a b : Nat) : Nat := (a + (AMOUNT_RANGE - b % AMOUNT_RANGE)) % AMOUNT_RANGE

/-- Implicit conversion of an amount to `unsigned int` (argument of `setFeeGrothes`). -/
def toUInt (a : Nat) : Nat := a % UINT_RANGE

/-- The asset id of Beam itself, `beam::Asset::s_BeamID`. -/
def s_BeamID : Nat := 0

/-- The wallet currencies of `currencies.h` (`WalletCurrency::Currency`). -/
inductive Currency
  | CurrBeam
  | CurrBitcoin
  | CurrLitecoin
  | CurrQtum
  | CurrBitcoinCash
  | CurrDash
  | CurrDogecoin
  | CurrEnd
  deriving DecidableEq, Repr

/-! ### Transaction parameters (engine interface) -/

/-- The keys of `beam::wallet::TxParameterID` that the view-models read or write. -/
inductive TxParameterID
  | Amount
  | Fee
  | AssetID
  | Message
  | TransactionType
  | Voucher
  | MaxPrivacyMinAnonimitySet
  | PeerOwnID
  | OriginalToken
  | PeerID
  | PeerWalletIdentity
  | IsPermanentPeerID
  | ShieldedVoucherList
  | PublicAddreessGen
  deriving DecidableEq, Repr

/-- The transaction types of `beam::wallet::TxType` the view-models distinguish. -/
inductive TxType
  | Simple
  | PushTransaction
  | Other
  deriving DecidableEq, Repr

/-- A typed parameter value; the engine stores a serialised buffer per key and
`GetParameter<T>` succeeds when the buffer deserialises at type `T`. -/
inductive TxValue
  | amount (a : Nat)
  | assetId (a : Nat)
  | bytes (b : List Nat)
  | txType (t : TxType)
  | flag (b : Bool)
  | walletID (w : Nat)
  | peerID (p : Nat)
  | vouchers (v : List Nat)
  | voucher (v : Nat)
  | publicGen (g : Nat)
  | u8 (n : Nat)
  | str (s : List Nat)
  deriving DecidableEq, Repr

/-- The parameter set `beam::wallet::TxParameters`: at most one value per key. -/
abbrev TxParameters := List (TxParameterID × TxValue)

/-- `TxParameters::GetParameter(id, buf)`: the raw value stored under a key. -/
def TxParameters.GetParameter (p : TxParameters) (id : TxParameterID) : Option TxValue :=
  (p.find? (fun e => e.1 == id)).map (fun e => e.2)

/-- `TxParameters::SetParameter(id, value)`: stores the value, replacing an older one. -/
def TxParameters.SetParameter (p : TxParameters) (id : TxParameterID) (v : TxValue) :
    TxParameters :=
  (id, v) :: p.filter (fun e => e.1 != id)

/-- `CopyParameter` of send_view.cpp: copies one key from `input` to `dest` when present. -/
def CopyParameter (paramID : TxParameterID) (input dest : TxParameters) : TxParameters :=
  match input.GetParameter paramID with
  | some buf => dest.SetParameter paramID buf
  | none => dest

/-- `GetParameter<beam::Amount>`. -/
def TxParameters.getAmount (p : TxParameters) (id : TxParameterID) : Option Nat :=
  match p.GetParameter id with
  | some (.amount a) => some a
  | _ => none

/-- `GetParameter<WalletID>`. -/
def TxParameters.getWalletID (p : TxParameters) (id : TxParameterID) : Option Nat :=
  match p.GetParameter id with
  | some (.walletID w) => some w
  | _ => none

/-- `GetParameter<beam::PeerID>`. -/
def TxParameters.getPeerID (p : TxParameters) (id : TxParameterID) : Option Nat :=
  match p.GetParameter id with
  | some (.peerID w) => some w
  | _ => none

/-- `GetParameter<bool>`. -/
def TxParameters.getBool (p : TxParameters) (id : TxParameterID) : Option Bool :=
  match p.GetParameter id with
  | some (.flag b) => some b
  | _ => none

/-- `GetParameter<TxType>`. -/
def TxParameters.getTxType (p : TxParameters) (id : TxParameterID) : Option TxType :=
  match p.GetParameter id with
  | some (.txType t) => some t
  | _ => none

/-- `GetParameter<ShieldedVoucherList>`. -/
def TxParameters.getVouchers (p : TxParameters) (id : TxParameterID) : Option (List Nat) :=
  match p.GetParameter id with
  | some (.vouchers v) => some v
  | _ => none

/-- `GetParameter<ShieldedTxo::PublicGen>`. -/
def TxParameters.getPublicGen (p : TxParameters) (id : TxParameterID) : Option Nat :=
  match p.GetParameter id with
  | some (.publicGen g) => some g
  | _ => none

/-- `GetParameter<ByteBuffer>`. -/
def TxParameters.getBytes (p : TxParameters) (id : TxParameterID) : Option (List Nat) :=
  match p.GetParameter id with
  | some (.bytes b) => some b
  | _ => none

/-- `GetParameter(id, voucher)` for a `ShieldedTxo::Voucher`: whether one is stored. -/
def TxParameters.hasVoucher (p : TxParameters) (id : TxParameterID) : Bool :=
  match p.GetParameter id with
  | some (.voucher _) => true
  | _ => false

/-- `QString::toStdString()`: the UTF-8 bytes of the text. -/
def toStdString (s : QString) : List Nat :=
  s.flatMap (fun c => (String.utf8EncodeChar c).map (fun b => b.toNat))

/-- `QChar::isSpace()`: the code points U+0009 to U+000D, U+0085 and the
Unicode separator characters. -/
def isSpace (c : Char) : Bool :=
  let n := c.toNat
  decide (9 ≤ n ∧ n ≤ 13) || n == 0x20 || n == 0x85 || n == 0xA0 || n == 0x1680
    || decide (0x2000 ≤ n ∧ n ≤ 0x200A) || n == 0x2028 || n == 0x2029 || n == 0x202F
    || n == 0x205F || n == 0x3000

/-- `QString::trimmed()`: the text without leading and trailing white space. -/
def trimmed (s : QString) : QString :=
  ((s.dropWhile isSpace).reverse.dropWhile isSpace).reverse

/-- The record `beam::wallet::WalletAddress`, as far as the view-models fill it. -/
structure WalletAddress where
  m_walletID : Nat
  m_createTime : Nat
  m_Identity : Nat
  m_label : List Nat
  m_duration : Nat
  m_Address : List Nat
  deriving DecidableEq, Repr

/-- `WalletAddress::AddressExpirationNever`. -/
def AddressExpirationNever : Nat := 0

/-- The result `beam::wallet::ShieldedCoinsSelectionInfo` of the engine's
shielded coin selection. -/
structure ShieldedCoinsSelectionInfo where
  requestedSum : Nat
  selectedSumBeam : Nat
  requestedFee : Nat
  selectedFee : Nat
  minimalFee : Nat
  shieldedInputsFee : Nat
  changeBeam : Nat
  changeAsset : Nat
  assetID : Nat
  isEnought : Bool
  deriving DecidableEq, Repr

/-! ### Collaborators of the view-models -/

/-- Modelled from the spec: the fee helpers of `fee_helpers.h` (`minFeeBeam`,
`minimalFee`, `isFeeOK`) are called by the view-models but are not part of the
embedded source files.  The spec's words on them are "fee must be nonzero to enable
send": the fee check for a Beam transaction never accepts the zero fee.
Everything else about them is left open. -/
structure FeeHelpers where
  minFeeBeam : Bool → Nat
  minimalFee : Currency → Bool → Nat
  isFeeOK : Nat → Currency → Bool → Bool
  isFeeOK_zero : ∀ (isShielded : Bool), isFeeOK 0 Currency.CurrBeam isShielded = false

/-- The amount/text conversions of `ui_helpers.h`, which are not part of the
embedded source files: `beamui::AmountToUIString` and `beamui::UIStringToAmount`. -/
structure UiHelpers where
  AmountToUIString : Nat → QString
  UIStringToAmount : QString → Nat

/-- The wallet engine as seen from SendViewModel: the validation predicates and
parsers of `beam::wallet`, the balance queries of the wallet model facade, and
the clock. -/
structure Engine where
  /-- `beam::wallet::SwapOfferToken::isValid`. -/
  isSwapTokenValid : QString → Bool
  /-- `beam::wallet::CheckReceiverAddress`. -/
  CheckReceiverAddress : QString → Bool
  /-- `beam::wallet::ParseParameters`. -/
  ParseParameters : QString → Option TxParameters
  /-- `WalletModel::getAvailable`. -/
  getAvailable : Nat → Nat
  /-- `WalletModel::hasShielded`. -/
  hasShielded : Nat → Bool
  /-- `CreateSimpleTransactionParameters()`. -/
  CreateSimpleTransactionParameters : TxParameters
  /-- `LoadReceiverParams(receiverParams, params)`. -/
  LoadReceiverParams : TxParameters → TxParameters → TxParameters
  /-- `getTimestamp()`. -/
  getTimestamp : Nat
  /-- `std::to_string(WalletID)`. -/
  walletIDToString : Nat → QString
  /-- Message set by the callback of `ProcessLibraryVersion`, when it is invoked. -/
  ProcessLibraryVersion : TxParameters → Option QString
  /-- Message set by the callback of `ProcessClientVersion`, when it is invoked. -/
  ProcessClientVersion : TxParameters → Option QString

/-! ### QMLGlobals: validation predicates -/

namespace QMLGlobals

/-- `QMLGlobals::isAddress`. -/
def isAddress (e : Engine) (text : QString) : Bool :=
  e.CheckReceiverAddress text

/-- `QMLGlobals::isTransactionToken`. -/
def isTransactionToken (e : Engine) (text : QString) : Bool :=
  if text.isEmpty then false
  else
    match e.ParseParameters text with
    | some params => (params.getTxType .TransactionType).isSome
    | none => false

/-- `QMLGlobals::isTAValid`. -/
def isTAValid (e : Engine) (text : QString) : Bool :=
  isTransactionToken e text || isAddress e text

/-- `QMLGlobals::isSwapToken`. -/
def isSwapToken (e : Engine) (text : QString) : Bool :=
  e.isSwapTokenValid text

end QMLGlobals

/-! ### SendViewModel -/

/-- The notification signals of SendViewModel. -/
inductive Signal
  | feeGrothesChanged
  | minFeeChanged
  | canSendChanged
  | sendAmountChanged
  | commentChanged
  | receiverTAChanged
  | isShieldedTxChanged
  | isPermanentAddressChanged
  | offlinePaymentsChanged
  | isOfflineChanged
  | isMaxPrivacyChanged
  | isPublicOfflineChanged
  | availableChanged
  | isEnoughChanged
  | isNeedExtractShieldedCoinsChanged
  | tokenChanged
  | hasAddressChanged
  | receiverAddressChanged
  | receiverIdentityChanged
  | selectedAssetChanged
  | assetsListChanged
  deriving DecidableEq, Repr

/-- The asynchronous requests SendViewModel sends to the wallet engine
(`_walletModel.getAsync()->...`). -/
inductive AsyncCall
  | calcShieldedCoinSelectionInfo (amount fee assetId : Nat) (isShielded : Bool)
  | calcChange (amount fee assetId : Nat)
  | saveAddress (address : WalletAddress) (isOwn : Bool)
  | saveVouchers (vouchers : List Nat) (walletID : Nat)
  | getAddressByID (walletID : Nat)
  | getAddressByToken (token : List Nat)
  | startTransaction (params : TxParameters)
  deriving DecidableEq, Repr

/-- An observable effect of a member function: a signal or an engine request. -/
inductive Effect
  | signal (s : Signal)
  | request (c : AsyncCall)
  deriving DecidableEq, Repr

/-- Everything SendViewModel calls that is not defined in the embedded source files. -/
structure Env where
  fees : FeeHelpers
  ui : UiHelpers
  engine : Engine
  /-- `QString::fromStdString` (UTF-8 decoding, Qt). -/
  fromStdString : List Nat → QString

/-- The data members of SendViewModel, and the trace of effects produced so far. -/
structure SendViewModel where
  _fee : Nat
  _minFee : Nat
  _sendAmount : Nat
  _changeBeam : Nat
  _changeAsset : Nat
  _shieldedFee : Nat
  _maxWhatCanSelect : Nat
  _selectedAssetId : Nat
  _comment : QString
  _receiverTA : QString
  _receiverAddress : QString
  _newTokenMsg : QString
  _receiverWalletID : Nat
  _receiverIdentity : Nat
  _receiverWalletAddress : Option WalletAddress
  _txParameters : TxParameters
  _offlinePayments : Int
  _isShielded : Bool
  _isPermanentAddress : Bool
  _isOffline : Bool
  _isMaxPrivacy : Bool
  _isPublicOffline : Bool
  _isToken : Bool
  _isNeedExtractShieldedCoins : Bool
  _maxAvailable : Bool
  _feeChangedByUi : Bool
  effects : List Effect
  deriving DecidableEq, Repr

namespace SendViewModel

/-- `emit sig()`. -/
def emit (s : SendViewModel) (sig : Signal) : SendViewModel :=
  { s with effects := s.effects ++ [Effect.signal sig] }

/-- A request `_walletModel.getAsync()->c`. -/
def async (s : SendViewModel) (c : AsyncCall) : SendViewModel :=
  { s with effects := s.effects ++ [Effect.request c] }

/-- The constructor `SendViewModel::SendViewModel()`.  The in-class member
initialisers of send_view.h are not part of the embedded source files; the members
the constructor does not mention start at zero, false, empty. -/
def init (env : Env) : SendViewModel :=
  { _fee := env.fees.minimalFee Currency.CurrBeam false
    _minFee := env.fees.minFeeBeam false
    _sendAmount := 0
    _changeBeam := 0
    _changeAsset := 0
    _shieldedFee := 0
    _maxWhatCanSelect := 0
    _selectedAssetId := s_BeamID
    _comment := []
    _receiverTA := []
    _receiverAddress := []
    _newTokenMsg := []
    _receiverWalletID := 0
    _receiverIdentity := 0
    _receiverWalletAddress := none
    _txParameters := []
    _offlinePayments := 0
    _isShielded := false
    _isPermanentAddress := false
    _isOffline := false
    _isMaxPrivacy := false
    _isPublicOffline := false
    _isToken := false
    _isNeedExtractShieldedCoins := false
    _maxAvailable := false
    _feeChangedByUi := false
    effects := [] }

/-- `SendViewModel::getFeeGrothes`. -/
def getFeeGrothes (s : SendViewModel) : Nat := toUInt s._fee

/-- `SendViewModel::getRreceiverTAValid`. -/
def getRreceiverTAValid (env : Env) (s : SendViewModel) : Bool :=
  QMLGlobals.isTAValid env.engine s._receiverTA

/-- `SendViewModel::isShieldedTx`. -/
def isShieldedTx (s : SendViewModel) : Bool := s._isShielded

/-- `SendViewModel::isOffline`. -/
def isOffline (s : SendViewModel) : Bool := s._isOffline

/-- `SendViewModel::isMaxPrivacy`. -/
def isMaxPrivacy (s : SendViewModel) : Bool := s._isMaxPrivacy

/-- `SendViewModel::isToken`. -/
def isToken (s : SendViewModel) : Bool := s._isToken

/-- `SendViewModel::getOfflinePayments`. -/
def getOfflinePayments (s : SendViewModel) : Int := s._offlinePayments

/-- `SendViewModel::getComment`. -/
def getComment (s : SendViewModel) : QString := s._comment

/-- `SendViewModel::isPermanentAddress`. -/
def isPermanentAddress (s : SendViewModel) : Bool := s._isPermanentAddress

/-- `SendViewModel::isPublicOffline`. -/
def isPublicOffline (s : SendViewModel) : Bool := s._isPublicOffline

/-- `SendViewModel::getAssetAvailable`. -/
def getAssetAvailable (env : Env) (s : SendViewModel) : QString :=
  let amount := amountAdd s._sendAmount (if s._selectedAssetId == s_BeamID then s._fee else 0)
  let available := env.engine.getAvailable s._selectedAssetId
  if amount < available then env.ui.AmountToUIString (amountSub available amount)
  else ['0']

/-- `SendViewModel::getBeamAvailable`. -/
def getBeamAvailable (env : Env) (s : SendViewModel) : QString :=
  if s._selectedAssetId == s_BeamID then getAssetAvailable env s
  else
    let amount := s._fee
    let available := env.engine.getAvailable s_BeamID
    if amount < available then env.ui.AmountToUIString (amountSub available amount)
    else ['0']

/-- `SendViewModel::getAssetMissing`. -/
def getAssetMissing (env : Env) (s : SendViewModel) : QString :=
  let amount := amountAdd s._sendAmount (if s._selectedAssetId == s_BeamID then s._fee else 0)
  let available := env.engine.getAvailable s._selectedAssetId
  if amount > available then
    let missing := amountSub amount available
    env.ui.AmountToUIString missing
  else ['0']

/-- `SendViewModel::getBeamMissing`. -/
def getBeamMissing (env : Env) (s : SendViewModel) : QString :=
  let amount := amountAdd s._fee (if s._selectedAssetId == s_BeamID then s._sendAmount else 0)
  let available := env.engine.getAvailable s_BeamID
  if amount > available then
    let missing := amountSub amount available
    env.ui.AmountToUIString missing
  else ['0']

/-- `SendViewModel::isEnough` (the two log lines have no effect on the state). -/
def isEnough (env : Env) (s : SendViewModel) : Bool :=
  getAssetMissing env s == ['0'] && getBeamMissing env s == ['0']

/-- `SendViewModel::canSend`. -/
def canSend (env : Env) (s : SendViewModel) : Bool :=
  !QMLGlobals.isSwapToken env.engine s._receiverTA && getRreceiverTAValid env s
    && decide (s._sendAmount > 0) && isEnough env s
    && env.fees.isFeeOK s._fee Currency.CurrBeam (s.isShieldedTx || s._isNeedExtractShieldedCoins)
    && (!s.isShieldedTx || !s.isOffline || decide (s.getOfflinePayments > 0))

/-- `SendViewModel::canSendByOneTransaction`. -/
def canSendByOneTransaction (s : SendViewModel) : Bool :=
  s._maxWhatCanSelect == 0 || decide (s._maxWhatCanSelect ≥ s._sendAmount)

/-- `SendViewModel::resetMinimalFee`. -/
def resetMinimalFee (env : Env) (s : SendViewModel) : SendViewModel :=
  let s := { s with _shieldedFee := 0 }
  let s := { s with _minFee := env.fees.minFeeBeam s._isShielded }
  s.emit Signal.minFeeChanged

/-- `SendViewModel::onChangeCalculated`. -/
def onChangeCalculated (s : SendViewModel) (changeAsset changeBeam assetId : Nat) :
    SendViewModel :=
  if s._selectedAssetId != assetId then s
  else
    let s := { s with _changeAsset := changeAsset }
    let s := { s with _changeBeam := changeBeam }
    let s := s.emit Signal.availableChanged
    let s := s.emit Signal.canSendChanged
    s.emit Signal.isEnoughChanged

/-- `SendViewModel::setFeeGrothes`; `value` is an `unsigned int`. -/
def setFeeGrothes (env : Env) (s : SendViewModel) (value : Nat) : SendViewModel :=
  if value != s._fee then
    let s := { s with _fee := value }
    let s := { s with _feeChangedByUi := true }
    let s := s.emit Signal.feeGrothesChanged
    let s := resetMinimalFee env s
    if s._sendAmount == 0 || s._fee == 0 then s
    else
      let s :=
        if env.engine.hasShielded s._selectedAssetId then
          s.async (AsyncCall.calcShieldedCoinSelectionInfo s._sendAmount s._fee
            s._selectedAssetId s._isShielded)
        else
          let s := s.async (AsyncCall.calcChange s._sendAmount s._fee s._selectedAssetId)
          { s with _feeChangedByUi := false }
      s.emit Signal.canSendChanged
  else s

/-- `SendViewModel::setComment`. -/
def setComment (s : SendViewModel) (value : QString) : SendViewModel :=
  if s._comment != value then
    let s := { s with _comment := value }
    s.emit Signal.commentChanged
  else s

/-- `SendViewModel::setSendAmount`. -/
def setSendAmount (env : Env) (s : SendViewModel) (value : QString) : SendViewModel :=
  let amount := env.ui.UIStringToAmount value
  if amount != s._sendAmount || s._maxAvailable then
    if amount == 0 then
      let s := { s with _sendAmount := amount }
      let s := s.emit Signal.sendAmountChanged
      let s := resetMinimalFee env s
      let s := onChangeCalculated s 0 0 s._selectedAssetId
      let s := { s with _fee := s._minFee }
      s.emit Signal.feeGrothesChanged
    else if env.engine.hasShielded s._selectedAssetId then
      let s :=
        if decide (amount < s._sendAmount) || s._maxAvailable then
          let s := resetMinimalFee env s
          let s := onChangeCalculated s 0 0 s._selectedAssetId
          let s := { s with _fee := s._minFee }
          s.emit Signal.feeGrothesChanged
        else s
      let s := { s with _sendAmount := amount }
      let s := s.emit Signal.sendAmountChanged
      s.async (AsyncCall.calcShieldedCoinSelectionInfo s._sendAmount s._fee
        s._selectedAssetId s._isShielded)
    else
      let amount :=
        if s._maxAvailable && s._selectedAssetId == s_BeamID then
          (if amount < s._fee then 0 else amountSub amount s._fee)
        else amount
      let s := { s with _sendAmount := amount }
      let s := s.emit Signal.sendAmountChanged
      let s := s.async (AsyncCall.calcChange s._sendAmount s._fee s._selectedAssetId)
      let s := s.emit Signal.canSendChanged
      { s with _maxAvailable := false }
  else s

/-- `SendViewModel::setMaxAvailableAmount`. -/
def setMaxAvailableAmount (env : Env) (s : SendViewModel) : SendViewModel :=
  let s := { s with _maxAvailable := true }
  let amount := env.engine.getAvailable s._selectedAssetId
  setSendAmount env s (env.ui.AmountToUIString amount)

/-- `SendViewModel::setIsShieldedTx`. -/
def setIsShieldedTx (env : Env) (s : SendViewModel) (value : Bool) : SendViewModel :=
  if s._isShielded != value then
    let s := { s with _isShielded := value }
    let s := s.emit Signal.isShieldedTxChanged
    let s := resetMinimalFee env s
    let avail := env.engine.getAvailable s._selectedAssetId
    let isBeam := s._selectedAssetId == s_BeamID
    if env.engine.hasShielded s._selectedAssetId && s._sendAmount != 0 then
      if avail < amountAdd s._sendAmount (if isBeam then s._fee else 0) then
        setMaxAvailableAmount env s
      else
        s.async (AsyncCall.calcShieldedCoinSelectionInfo s._sendAmount s._minFee
          s._selectedAssetId s._isShielded)
    else
      let s :=
        if isBeam then
          if amountSub (amountSub avail s._sendAmount) s._fee == 0 then
            let s :=
              if s._sendAmount ≥ s._minFee then
                { s with _sendAmount := amountSub s._sendAmount s._minFee }
              else s
            s.emit Signal.sendAmountChanged
          else s
        else s
      setFeeGrothes env s (toUInt s._minFee)
  else s

/-- `SendViewModel::setIsPermanentAddress`. -/
def setIsPermanentAddress (s : SendViewModel) (value : Bool) : SendViewModel :=
  if s._isPermanentAddress != value then
    let s := { s with _isPermanentAddress := value }
    s.emit Signal.isPermanentAddressChanged
  else s

/-- `SendViewModel::setOfflinePayments`. -/
def setOfflinePayments (s : SendViewModel) (value : Int) : SendViewModel :=
  if s._offlinePayments != value then
    let s := { s with _offlinePayments := value }
    let s := s.emit Signal.offlinePaymentsChanged
    s.emit Signal.canSendChanged
  else s

/-- `SendViewModel::setIsOffline`. -/
def setIsOffline (s : SendViewModel) (value : Bool) : SendViewModel :=
  if s._isOffline != value then
    let s := { s with _isOffline := value }
    s.emit Signal.isOfflineChanged
  else s

/-- `SendViewModel::setIsMaxPrivacy`. -/
def setIsMaxPrivacy (s : SendViewModel) (value : Bool) : SendViewModel :=
  if s._isMaxPrivacy != value then
    let s := { s with _isMaxPrivacy := value }
    s.emit Signal.isMaxPrivacyChanged
  else s

/-- `SendViewModel::setIsPublicOffline`. -/
def setIsPublicOffline (s : SendViewModel) (value : Bool) : SendViewModel :=
  if s._isPublicOffline != value then
    let s := { s with _isPublicOffline := value }
    s.emit Signal.isPublicOfflineChanged
  else s

/-- `SendViewModel::setIsToken`. -/
def setIsToken (s : SendViewModel) (value : Bool) : SendViewModel :=
  if s._isToken != value then
    let s := { s with _isToken := value }
    s.emit Signal.tokenChanged
  else s

/-- `SendViewModel::setWalletAddress`. -/
def setWalletAddress (s : SendViewModel) (value : Option WalletAddress) : SendViewModel :=
  if s._receiverWalletAddress != value then
    let s := { s with _receiverWalletAddress := value }
    s.emit Signal.hasAddressChanged
  else s

/-- `SendViewModel::setSelectedAssetId`; `value` is an `int`. -/
def setSelectedAssetId (s : SendViewModel) (value : Int) : SendViewModel :=
  let valueId := if value < 0 then s_BeamID else value.toNat % UINT_RANGE
  if s._selectedAssetId != valueId then
    let s := { s with _selectedAssetId := valueId }
    let s := s.emit Signal.selectedAssetChanged
    s.emit Signal.availableChanged
  else s

/-- `SendViewModel::onShieldedCoinsSelectionCalculated`. -/
def onShieldedCoinsSelectionCalculated (s : SendViewModel)
    (selectionRes : ShieldedCoinsSelectionInfo) : SendViewModel :=
  let s :=
    if !selectionRes.isEnought then
      let left := amountSub selectionRes.selectedSumBeam selectionRes.selectedFee
      let s := { s with _maxWhatCanSelect := left }
      s.emit Signal.sendAmountChanged
    else s
  let s := { s with _shieldedFee := selectionRes.shieldedInputsFee }
  let s :=
    if selectionRes.assetID == s_BeamID then
      if decide (selectionRes.selectedSumBeam
            < amountAdd selectionRes.requestedSum selectionRes.requestedFee)
          && s._maxAvailable then
        let left := amountSub selectionRes.selectedSumBeam selectionRes.selectedFee
        let s := { s with _sendAmount := left }
        let s := s.emit Signal.sendAmountChanged
        { s with _maxAvailable := false }
      else s
    else s
  let s := { s with _minFee := max s._minFee selectionRes.minimalFee }
  let s := s.emit Signal.minFeeChanged
  let s :=
    if !s._feeChangedByUi then
      let s := { s with _fee := selectionRes.selectedFee }
      s.emit Signal.feeGrothesChanged
    else s
  let s := { s with _feeChangedByUi := false }
  onChangeCalculated s selectionRes.changeAsset selectionRes.changeBeam selectionRes.assetID

/-- `SendViewModel::onNeedExtractShieldedCoins`. -/
def onNeedExtractShieldedCoins (s : SendViewModel) (val : Bool) : SendViewModel :=
  if s._isNeedExtractShieldedCoins != val then
    let s := { s with _isNeedExtractShieldedCoins := val }
    s.emit Signal.isNeedExtractShieldedCoinsChanged
  else s

/-- `SendViewModel::onGetAddressReturned`. -/
def onGetAddressReturned (env : Env) (s : SendViewModel) (address : Option WalletAddress)
    (offlinePayments : Int) : SendViewModel :=
  let s :=
    match address with
    | some a => setComment s (env.fromStdString a.m_label)
    | none => setComment s []
  let s := setWalletAddress s address
  setOfflinePayments s offlinePayments

/-- `SendViewModel::resetAddress`. -/
def resetAddress (env : Env) (s : SendViewModel) : SendViewModel :=
  let s := setIsToken s false
  let s := setIsShieldedTx env s false
  let s := setIsOffline s false
  let s := setIsMaxPrivacy s false
  let s := setIsPublicOffline s false
  let s := setIsPermanentAddress s false
  let s := onNeedExtractShieldedCoins s false
  let s := setWalletAddress s none
  let s := setOfflinePayments s 0
  let s := { s with _receiverAddress := [] }
  let s := { s with _receiverWalletID := 0 }
  let s := { s with _receiverIdentity := 0 }
  let s := s.emit Signal.receiverAddressChanged
  s.emit Signal.receiverIdentityChanged

/-- `SendViewModel::saveReceiverAddress`. -/
def saveReceiverAddress (env : Env) (s : SendViewModel) (name : QString) : SendViewModel :=
  let address : WalletAddress :=
    { m_walletID := s._receiverWalletID
      m_createTime := env.engine.getTimestamp
      m_Identity := s._receiverIdentity
      m_label := toStdString (trimmed name)
      m_duration := AddressExpirationNever
      m_Address := toStdString s._receiverTA }
  s.async (AsyncCall.saveAddress address false)

/-- `SendViewModel::extractParameters`. -/
def extractParameters (env : Env) (s : SendViewModel) : SendViewModel :=
  match env.engine.ParseParameters s._receiverTA with
  | none => s
  | some txParameters =>
    let s := { s with _txParameters := txParameters }
    let s := resetAddress env s
    let s :=
      match s._txParameters.getWalletID TxParameterID.PeerID with
      | some peerID =>
        let s := { s with _receiverWalletID := peerID }
        let s := { s with _receiverAddress := env.engine.walletIDToString peerID }
        let s := setIsToken s (s._receiverTA != s._receiverAddress)
        s.emit Signal.receiverAddressChanged
      | none =>
        let s := { s with _receiverWalletID := 0 }
        let s := { s with _receiverAddress := [] }
        let s := setIsToken s true
        s.emit Signal.receiverAddressChanged
    let s :=
      match s._txParameters.getPeerID TxParameterID.PeerWalletIdentity with
      | some peerIdentity =>
        let s := { s with _receiverIdentity := peerIdentity }
        s.emit Signal.receiverIdentityChanged
      | none => s
    let s :=
      match s._txParameters.getBool TxParameterID.IsPermanentPeerID with
      | some isPermanent => setIsPermanentAddress s isPermanent
      | none => s
    let s :=
      match s._txParameters.getTxType TxParameterID.TransactionType with
      | some TxType.PushTransaction =>
        let s := setIsShieldedTx env s true
        let s :=
          match s._txParameters.getVouchers TxParameterID.ShieldedVoucherList with
          | some (v :: vs) =>
            let s :=
              if s._receiverWalletID != 0 then
                s.async (AsyncCall.saveVouchers (v :: vs) s._receiverWalletID)
              else s
            setIsOffline s true
          | _ =>
            match s._txParameters.getPublicGen TxParameterID.PublicAddreessGen with
            | some _ => setIsPublicOffline s true
            | none => s
        setIsMaxPrivacy s
          (s._txParameters.hasVoucher TxParameterID.Voucher && s._receiverIdentity != 0)
      | _ => s
    let s :=
      match s._txParameters.getAmount TxParameterID.Amount with
      | some amount =>
        if amount > 0 then setSendAmount env s (env.ui.AmountToUIString amount) else s
      | none => s
    let s :=
      match s._txParameters.getAmount TxParameterID.Fee with
      | some fee => setFeeGrothes env s (toUInt fee)
      | none => s
    let s :=
      match s._txParameters.getBytes TxParameterID.Message with
      | some comment => setComment s (env.fromStdString comment)
      | none => s
    let s :=
      if s._receiverWalletID != 0 then s.async (AsyncCall.getAddressByID s._receiverWalletID)
      else s.async (AsyncCall.getAddressByToken (toStdString s._receiverTA))
    let s := { s with _newTokenMsg := [] }
    let s :=
      match env.engine.ProcessLibraryVersion s._txParameters with
      | some msg =>
        let s := { s with _newTokenMsg := msg }
        s.emit Signal.tokenChanged
      | none => s
    match env.engine.ProcessClientVersion s._txParameters with
    | some msg =>
      let s := { s with _newTokenMsg := msg }
      s.emit Signal.tokenChanged
    | none => s

/-- `SendViewModel::setReceiverTA`. -/
def setReceiverTA (env : Env) (s : SendViewModel) (value : QString) : SendViewModel :=
  if s._receiverTA != value then
    let s := { s with _newTokenMsg := [] }
    let s := { s with _receiverTA := value }
    let s := s.emit Signal.receiverTAChanged
    if QMLGlobals.isSwapToken env.engine value then s
    else
      let s :=
        if getRreceiverTAValid env s then extractParameters env s
        else
          let s := resetAddress env s
          setComment s []
      s.emit Signal.canSendChanged
  else s

/-- The parameters `SendViewModel::sendMoney` hands to `startTransaction`. -/
def sendMoneyParams (env : Env) (s : SendViewModel) : TxParameters :=
  let messageString := toStdString s._comment
  let params := env.engine.CreateSimpleTransactionParameters
  let params := env.engine.LoadReceiverParams s._txParameters params
  let params := params.SetParameter TxParameterID.Amount (TxValue.amount s._sendAmount)
  let params := params.SetParameter TxParameterID.Fee
    (TxValue.amount (if s._shieldedFee != 0 then amountSub s._fee s._shieldedFee else s._fee))
  let params := params.SetParameter TxParameterID.AssetID (TxValue.assetId s._selectedAssetId)
  let params := params.SetParameter TxParameterID.Message (TxValue.bytes messageString)
  let params :=
    if s.isShieldedTx then
      params.SetParameter TxParameterID.TransactionType (TxValue.txType TxType.PushTransaction)
    else params
  let params :=
    if s.isMaxPrivacy then
      let params := CopyParameter TxParameterID.Voucher s._txParameters params
      params.SetParameter TxParameterID.MaxPrivacyMinAnonimitySet (TxValue.u8 64)
    else params
  let params :=
    if s.isShieldedTx then CopyParameter TxParameterID.PeerOwnID s._txParameters params
    else params
  if s.isToken then
    params.SetParameter TxParameterID.OriginalToken (TxValue.str (toStdString s._receiverTA))
  else params

/-- `SendViewModel::sendMoney`.  The leading `assert(canSend())` stops a debug
build when `canSend()` is false; either way nothing is requested in that case. -/
def sendMoney (env : Env) (s : SendViewModel) : SendViewModel :=
  if canSend env s then
    let s := saveReceiverAddress env s s._comment
    s.async (AsyncCall.startTransaction (sendMoneyParams env s))
  else s

/-- The `startTransaction` requests in an effect trace, in order. -/
def startedTransactions : List Effect → List TxParameters
  | [] => []
  | Effect.request (AsyncCall.startTransaction p) :: rest => p :: startedTransactions rest
  | _ :: rest => startedTransactions rest

end SendViewModel

/-! ### Qt text helpers used by settings_view.cpp -/

/-- `QString::indexOf(c)` and `QStringList::indexOf(s)`: position of the first
occurrence, `-1` when there is none. -/
def indexOf {α : Type} [DecidableEq α] : List α → α → Int
  | [], _ => -1
  | x :: xs, c =>
    if x == c then 0
    else
      let r := indexOf xs c
      if r < 0 then -1 else r + 1

/-- Value of a decimal digit character. -/
def digitValue (c : Char) : Option Nat :=
  if c.isDigit then some (c.toNat - 48) else none

/-- Reads a run of decimal digits, most significant first, continuing from `acc`. -/
def parseDigits : List Char → Nat → Option Nat
  | [], acc => some acc
  | c :: cs, acc =>
    match digitValue c with
    | some d => parseDigits cs (acc * 10 + d)
    | none => none

/-- `QString::toInt()`: the decimal value of the text (optional sign, surrounding
white space ignored); `0` when the text is not a number or does not fit an `int`. -/
def toInt (s : QString) : Int :=
  match trimmed s with
  | [] => 0
  | c :: ds =>
    if c = '-' then
      if ds.isEmpty then 0
      else
        match parseDigits ds 0 with
        | some n => if n ≤ 2 ^ 31 then -(n : Int) else 0
        | none => 0
    else if c = '+' then
      if ds.isEmpty then 0
      else
        match parseDigits ds 0 with
        | some n => if n < 2 ^ 31 then (n : Int) else 0
        | none => 0
    else
      match parseDigits (c :: ds) 0 with
      | some n => if n < 2 ^ 31 then (n : Int) else 0
      | none => 0

/-- Conversion of an `int` to `uint` (`static_cast<uint>`, or passing it to a
`uint` parameter): the value modulo 2^32. -/
def intToUInt (i : Int) : Nat := (i % (UINT_RANGE : Int)).toNat

/-- `QString("%1").arg(n)` for an unsigned number: its decimal digits. -/
def argNumber (n : Nat) : QString := Nat.toDigits 10 n

/-- What the scanner of `QString::arg` has read of a place marker so far:
nothing, the `%`, the `%L`, or a marker with one digit (its number and text). -/
inductive ArgScan
  | text
  | percent
  | percentL
  | digit (n : Nat) (src : List Char)
  deriving DecidableEq, Repr

/-- A piece of a text as `QString::arg` reads it: a plain character, or a place
marker (`%` or `%L` followed by one or two decimal digits) with its number and
its own text. -/
inductive ArgPiece
  | char (c : Char)
  | marker (n : Nat) (src : List Char)
  deriving DecidableEq, Repr

/-- The scan of `QString::arg` for place markers (`findArgEscapes` of Qt): a `%`
or `%L` that no decimal digit follows is plain text, and the scan goes on at
the character after it. -/
def argPieces : ArgScan → List Char → List ArgPiece
  | ArgScan.text, [] => []
  | ArgScan.percent, [] => [ArgPiece.char '%']
  | ArgScan.percentL, [] => [ArgPiece.char '%', ArgPiece.char 'L']
  | ArgScan.digit n src, [] => [ArgPiece.marker n src]
  | ArgScan.text, c :: cs =>
    if c = '%' then argPieces ArgScan.percent cs
    else ArgPiece.char c :: argPieces ArgScan.text cs
  | ArgScan.percent, c :: cs =>
    if c = 'L' then argPieces ArgScan.percentL cs
    else
      match digitValue c with
      | some d => argPieces (ArgScan.digit d ['%', c]) cs
      | none =>
        if c = '%' then ArgPiece.char '%' :: argPieces ArgScan.percent cs
        else ArgPiece.char '%' :: ArgPiece.char c :: argPieces ArgScan.text cs
  | ArgScan.percentL, c :: cs =>
    match digitValue c with
    | some d => argPieces (ArgScan.digit d ['%', 'L', c]) cs
    | none =>
      if c = '%' then ArgPiece.char '%' :: ArgPiece.char 'L' :: argPieces ArgScan.percent cs
      else
        ArgPiece.char '%' :: ArgPiece.char 'L' :: ArgPiece.char c :: argPieces ArgScan.text cs
  | ArgScan.digit n src, c :: cs =>
    match digitValue c with
    | some d => ArgPiece.marker (10 * n + d) (src ++ [c]) :: argPieces ArgScan.text cs
    | none =>
      if c = '%' then ArgPiece.marker n src :: argPieces ArgScan.percent cs
      else ArgPiece.marker n src :: ArgPiece.char c :: argPieces ArgScan.text cs

/-- The lowest place marker number among the pieces, if there is a marker. -/
def argMinEscape : List ArgPiece → Option Nat
  | [] => none
  | ArgPiece.char _ :: ps => argMinEscape ps
  | ArgPiece.marker n _ :: ps =>
    match argMinEscape ps with
    | none => some n
    | some m => some (min n m)

/-- The text of the pieces with every marker of number `m` replaced by `a`. -/
def argReplace (m : Nat) (a : QString) : List ArgPiece → QString
  | [] => []
  | ArgPiece.char c :: ps => c :: argReplace m a ps
  | ArgPiece.marker n src :: ps =>
    (if n = m then a else src) ++ argReplace m a ps

/-- `QString::arg(a)` of Qt: every occurrence of the lowest-numbered place
marker of the text is replaced by `a`; a text without place marker is returned
as it is. -/
def arg (s a : QString) : QString :=
  let pieces := argPieces ArgScan.text s
  match argMinEscape pieces with
  | none => s
  | some m => argReplace m a pieces

/-- `formatAddress` of settings_view.cpp: `QString("%1:%2").arg(address).arg(port)`.
The second `arg` scans the text the first one returned, the address included. -/
def formatAddress (address port : QString) : QString :=
  arg (arg ['%', '1', ':', '%', '2'] address) port

/-- `formatPort` of settings_view.cpp; its parameter is a `uint16_t`, so the
argument is first reduced to 16 bits. -/
def formatPort (port : Nat) : QString :=
  let port := port % 2 ^ 16
  if port > 0 then argNumber port else []

/-- `UnpackedAddress` of settings_view.cpp. -/
structure UnpackedAddress where
  address : QString
  port : QString
  deriving DecidableEq, Repr

/-- `parseAddress` of settings_view.cpp. -/
def parseAddress (address : QString) : UnpackedAddress :=
  let separator := indexOf address ':'
  if separator > -1 then
    { address := address.take separator.toNat
      port := address.drop (separator.toNat + 1) }
  else
    { address := address
      port := [] }

/-- The test `unpackedAddress.port > 0` of settings_view.cpp: the `QString` is
compared with the null pointer constant, that is with the null string, so the
test holds exactly when the port text is not empty. -/
def portGreaterZero (port : QString) : Bool := !port.isEmpty

/-! ### SettingsViewModel -/

/-- Modelled from the spec: the class `WalletSettings` (model/settings.h) is
used by SettingsViewModel but is not among the embedded source files.  The spec
calls it "engine-held configuration" of which the view-model is "a local cache
... written back on explicit apply": a store whose getters return what the
setters stored.  `getLocalNodePort` returns a `uint`. -/
structure WalletSettings where
  nodeAddress : QString
  runLocalNode : Bool
  localNodePort : Nat
  localNodePeers : List QString
  lockTimeout : Int
  passwordReqiredToSpendMoney : Bool
  allowedBeamMWLinks : Bool
  languageName : QString
  secondCurrency : QString
  deriving DecidableEq, Repr

/-- The node part of the stored settings. -/
def WalletSettings.node (w : WalletSettings) : QString × Bool × Nat × List QString :=
  (w.nodeAddress, w.runLocalNode, w.localNodePort, w.localNodePeers)

/-- Signals, timer operations and engine requests of SettingsViewModel. -/
inductive SettingsEffect
  | nodeAddressChanged
  | nodeSettingsChanged
  | localNodeRunChanged
  | localNodePortChanged
  | remoteNodePortChanged
  | localNodePeersChanged
  | validNodeAddressChanged
  | lockTimeoutChanged
  | passwordReqiredToSpendMoneyChanged
  | currentLanguageIndexChanged
  | secondCurrencyChanged
  | publicAddressChanged
  | startTimer
  | killTimer
  | checkAddress (address : List Nat)
  | settingsApplyChanges
  deriving DecidableEq, Repr

/-- The data members of SettingsViewModel; `m_settings` is the stored
configuration the view-model refers to. -/
structure SettingsViewModel where
  m_settings : WalletSettings
  m_nodeAddress : QString
  m_localNodeRun : Bool
  m_localNodePort : QString
  m_remoteNodePort : QString
  m_localNodePeers : List QString
  m_publicAddress : QString
  m_lockTimeout : Int
  m_isPasswordReqiredToSpendMoney : Bool
  m_isAllowedBeamMWLinks : Bool
  m_isValidNodeAddress : Bool
  m_isNeedToCheckAddress : Bool
  m_isNeedToApplyChanges : Bool
  m_supportedLanguages : List QString
  m_currentLanguageIndex : Int
  m_secondCurrency : QString
  effects : List SettingsEffect
  deriving DecidableEq, Repr

namespace SettingsViewModel

/-- `emit sig()`, or a recorded timer operation or engine request. -/
def emit (s : SettingsViewModel) (e : SettingsEffect) : SettingsViewModel :=
  { s with effects := s.effects ++ [e] }

/-- `SettingsViewModel::setNodeAddress`. -/
def setNodeAddress (s : SettingsViewModel) (value : QString) : SettingsViewModel :=
  if value != s.m_nodeAddress then
    let s := { s with m_nodeAddress := value }
    let s :=
      if !s.m_isNeedToCheckAddress then
        let s := { s with m_isNeedToCheckAddress := true }
        s.emit SettingsEffect.startTimer
      else s
    let s := s.emit SettingsEffect.nodeAddressChanged
    s.emit SettingsEffect.nodeSettingsChanged
  else s

/-- `SettingsViewModel::setLocalNodeRun`. -/
def setLocalNodeRun (s : SettingsViewModel) (value : Bool) : SettingsViewModel :=
  if value != s.m_localNodeRun then
    let s := { s with m_localNodeRun := value }
    let s :=
      if !s.m_localNodeRun && !s.m_isNeedToCheckAddress then
        let s := { s with m_isNeedToCheckAddress := true }
        s.emit SettingsEffect.startTimer
      else s
    let s := s.emit SettingsEffect.localNodeRunChanged
    s.emit SettingsEffect.nodeSettingsChanged
  else s

/-- `SettingsViewModel::setLocalNodePort`. -/
def setLocalNodePort (s : SettingsViewModel) (value : QString) : SettingsViewModel :=
  if value != s.m_localNodePort then
    let s := { s with m_localNodePort := value }
    let s := s.emit SettingsEffect.localNodePortChanged
    s.emit SettingsEffect.nodeSettingsChanged
  else s

/-- `SettingsViewModel::setRemoteNodePort`. -/
def setRemoteNodePort (s : SettingsViewModel) (value : QString) : SettingsViewModel :=
  if value != s.m_remoteNodePort then
    let s := { s with m_remoteNodePort := value }
    let s := s.emit SettingsEffect.remoteNodePortChanged
    s.emit SettingsEffect.nodeSettingsChanged
  else s

/-- `SettingsViewModel::setLockTimeout`. -/
def setLockTimeout (s : SettingsViewModel) (value : Int) : SettingsViewModel :=
  if value != s.m_lockTimeout then
    let s := { s with m_lockTimeout := value }
    let s := { s with m_settings := { s.m_settings with lockTimeout := s.m_lockTimeout } }
    s.emit SettingsEffect.lockTimeoutChanged
  else s

/-- `SettingsViewModel::setPasswordReqiredToSpendMoney`. -/
def setPasswordReqiredToSpendMoney (s : SettingsViewModel) (value : Bool) :
    SettingsViewModel :=
  if value != s.m_isPasswordReqiredToSpendMoney then
    let s := { s with m_isPasswordReqiredToSpendMoney := value }
    let s := { s with m_settings :=
      { s.m_settings with passwordReqiredToSpendMoney := s.m_isPasswordReqiredToSpendMoney } }
    s.emit SettingsEffect.passwordReqiredToSpendMoneyChanged
  else s

/-- `SettingsViewModel::setSecondCurrency`. -/
def setSecondCurrency (s : SettingsViewModel) (value : QString) : SettingsViewModel :=
  let s := { s with m_secondCurrency := value }
  let s := { s with m_settings := { s.m_settings with secondCurrency := value } }
  s.emit SettingsEffect.secondCurrencyChanged

/-- `SettingsViewModel::addLocalNodePeer`. -/
def addLocalNodePeer (s : SettingsViewModel) (localNodePeer : QString) : SettingsViewModel :=
  let s := { s with m_localNodePeers := s.m_localNodePeers ++ [localNodePeer] }
  let s := s.emit SettingsEffect.localNodePeersChanged
  s.emit SettingsEffect.nodeSettingsChanged

/-- `SettingsViewModel::deleteLocalNodePeer`; `QList::removeAt` ignores an index
outside the list. -/
def deleteLocalNodePeer (s : SettingsViewModel) (index : Int) : SettingsViewModel :=
  let peers :=
    if 0 ≤ index ∧ index < s.m_localNodePeers.length then
      s.m_localNodePeers.eraseIdx index.toNat
    else s.m_localNodePeers
  let s := { s with m_localNodePeers := peers }
  let s := s.emit SettingsEffect.localNodePeersChanged
  s.emit SettingsEffect.nodeSettingsChanged

/-- `SettingsViewModel::setLocalNodePeers`. -/
def setLocalNodePeers (s : SettingsViewModel) (localNodePeers : List QString) :
    SettingsViewModel :=
  let s := { s with m_localNodePeers := localNodePeers }
  let s := s.emit SettingsEffect.localNodePeersChanged
  s.emit SettingsEffect.nodeSettingsChanged

/-- `SettingsViewModel::isNodeChanged`. -/
def isNodeChanged (s : SettingsViewModel) : Bool :=
  formatAddress s.m_nodeAddress s.m_remoteNodePort != s.m_settings.nodeAddress
    || s.m_localNodeRun != s.m_settings.runLocalNode
    || intToUInt (toInt s.m_localNodePort) != s.m_settings.localNodePort
    || s.m_localNodePeers != s.m_settings.localNodePeers

/-- `SettingsViewModel::applyChanges`. -/
def applyChanges (s : SettingsViewModel) : SettingsViewModel :=
  if !s.m_localNodeRun && s.m_isNeedToCheckAddress then
    { s with m_isNeedToApplyChanges := true }
  else
    let s := { s with m_settings :=
      { s.m_settings with nodeAddress := formatAddress s.m_nodeAddress s.m_remoteNodePort } }
    let s := { s with m_settings := { s.m_settings with runLocalNode := s.m_localNodeRun } }
    let s := { s with m_settings :=
      { s.m_settings with localNodePort := intToUInt (toInt s.m_localNodePort) } }
    let s := { s with m_settings := { s.m_settings with localNodePeers := s.m_localNodePeers } }
    let s := s.emit SettingsEffect.settingsApplyChanges
    s.emit SettingsEffect.nodeSettingsChanged

/-- `SettingsViewModel::undoChanges`. -/
def undoChanges (s : SettingsViewModel) : SettingsViewModel :=
  let unpackedAddress := parseAddress s.m_settings.nodeAddress
  let s := setNodeAddress s unpackedAddress.address
  let s :=
    if portGreaterZero unpackedAddress.port then setRemoteNodePort s unpackedAddress.port
    else s
  let s := setLocalNodeRun s s.m_settings.runLocalNode
  let s := setLocalNodePort s (formatPort s.m_settings.localNodePort)
  setLocalNodePeers s s.m_settings.localNodePeers

/-- `SettingsViewModel::onAddressChecked`. -/
def onAddressChecked (s : SettingsViewModel) (addr : QString) (isValid : Bool) :
    SettingsViewModel :=
  if s.m_nodeAddress == addr && s.m_isValidNodeAddress != isValid then
    let s := { s with m_isValidNodeAddress := isValid }
    let s := s.emit SettingsEffect.validNodeAddressChanged
    if s.m_isNeedToApplyChanges then
      let s := if s.m_isValidNodeAddress then applyChanges s else s
      { s with m_isNeedToApplyChanges := false }
    else s
  else s

/-- `SettingsViewModel::timerEvent`. -/
def timerEvent (s : SettingsViewModel) : SettingsViewModel :=
  if s.m_isNeedToCheckAddress && !s.m_localNodeRun then
    let s := { s with m_isNeedToCheckAddress := false }
    let s := s.emit (SettingsEffect.checkAddress (toStdString s.m_nodeAddress))
    s.emit SettingsEffect.killTimer
  else s

/-- The constructor `SettingsViewModel::SettingsViewModel()`, for the stored
settings and the list of supported languages; members the constructor does not
mention start empty or false. -/
def init (settings : WalletSettings) (supportedLanguages : List QString) : SettingsViewModel :=
  let s : SettingsViewModel :=
    { m_settings := settings
      m_nodeAddress := []
      m_localNodeRun := false
      m_localNodePort := []
      m_remoteNodePort := []
      m_localNodePeers := []
      m_publicAddress := []
      m_lockTimeout := 0
      m_isPasswordReqiredToSpendMoney := false
      m_isAllowedBeamMWLinks := false
      m_isValidNodeAddress := true
      m_isNeedToCheckAddress := false
      m_isNeedToApplyChanges := false
      m_supportedLanguages := supportedLanguages
      m_currentLanguageIndex := 0
      m_secondCurrency := []
      effects := [] }
  let s := undoChanges s
  let s := { s with m_lockTimeout := s.m_settings.lockTimeout }
  let s := { s with m_isPasswordReqiredToSpendMoney := s.m_settings.passwordReqiredToSpendMoney }
  let s := { s with m_isAllowedBeamMWLinks := s.m_settings.allowedBeamMWLinks }
  let index := indexOf s.m_supportedLanguages s.m_settings.languageName
  let s := { s with m_currentLanguageIndex := index }
  let s := { s with m_secondCurrency := s.m_settings.secondCurrency }
  s.emit SettingsEffect.startTimer

/-- The node-settings setters of SettingsViewModel, with their arguments. -/
inductive NodeSetter
  | setNodeAddress (value : QString)
  | setLocalNodeRun (value : Bool)
  | setLocalNodePort (value : QString)
  | setRemoteNodePort (value : QString)
  | setLocalNodePeers (peers : List QString)
  | addLocalNodePeer (peer : QString)
  | deleteLocalNodePeer (index : Int)
  deriving DecidableEq, Repr

/-- Calls one node-settings setter. -/
def NodeSetter.run (op : NodeSetter) (s : SettingsViewModel) : SettingsViewModel :=
  match op with
  | NodeSetter.setNodeAddress v => SettingsViewModel.setNodeAddress s v
  | NodeSetter.setLocalNodeRun v => SettingsViewModel.setLocalNodeRun s v
  | NodeSetter.setLocalNodePort v => SettingsViewModel.setLocalNodePort s v
  | NodeSetter.setRemoteNodePort v => SettingsViewModel.setRemoteNodePort s v
  | NodeSetter.setLocalNodePeers v => SettingsViewModel.setLocalNodePeers s v
  | NodeSetter.addLocalNodePeer v => SettingsViewModel.addLocalNodePeer s v
  | NodeSetter.deleteLocalNodePeer i => SettingsViewModel.deleteLocalNodePeer s i

end SettingsViewModel

/-! ### SwapCoinSettingsItem -/

/-- The connection errors `beam::bitcoin::IBridge::ErrorType`.  The enumeration
belongs to the engine; the three enumerators named in settings_view.cpp are
kept and every further one is `other n`. -/
inductive ErrorType
  | InvalidCredentials
  | IOError
  | InvalidGenesisBlock
  | other (code : Nat)
  deriving DecidableEq, Repr

namespace SwapCoinSettingsItem

/-- `SwapCoinSettingsItem::getConnectionErrorMsg`, for the error reported by
`m_coinClient.lock()->getConnectionError()`; `qtTrId` looks a message id up in
the loaded translation. -/
def getConnectionErrorMsg (qtTrId : String → QString) (connectionError : ErrorType) : QString :=
  match connectionError with
  | ErrorType.InvalidCredentials => qtTrId "swap-invalid-credentials-error"
  | ErrorType.IOError => qtTrId "swap-connection-error"
  | ErrorType.InvalidGenesisBlock => qtTrId "swap-invalid-genesis-block-error"
  | _ => []

end SwapCoinSettingsItem

/-! ### Swap coin clients -/

/-- The connection states `beam::bitcoin::Client::Status`.  The enumeration
belongs to the engine; the six enumerators named in settings_view.cpp are kept
and every further value is `other n`. -/
inductive ClientStatus
  | Uninitialized
  | Initialized
  | Connecting
  | Connected
  | Failed
  | Unknown
  | other (code : Nat)
  deriving DecidableEq, Repr

namespace SwapCoinSettingsItem

/-- `SwapCoinSettingsItem::getConnectionStatus`, for the status reported by
`m_coinClient.lock()->getStatus()`. -/
def getConnectionStatus (status : ClientStatus) : QString :=
  match status with
  | ClientStatus.Uninitialized => "uninitialized".toList
  | ClientStatus.Initialized => "disconnected".toList
  | ClientStatus.Connecting => "disconnected".toList
  | ClientStatus.Connected => "connected".toList
  | ClientStatus.Failed => "error".toList
  | ClientStatus.Unknown => "error".toList
  | _ => "error".toList

end SwapCoinSettingsItem

/-- The swap coins `beam::wallet::AtomicSwapCoin` named in currencies.cpp. -/
inductive AtomicSwapCoin
  | Bitcoin
  | Litecoin
  | Qtum
  | Bitcoin_Cash
  | Dash
  | Dogecoin
  | Unknown
  deriving DecidableEq, Repr

/-- `convertCurrencyToSwapCoin` of currencies.cpp. -/
def convertCurrencyToSwapCoin (currency : Currency) : AtomicSwapCoin :=
  match currency with
  | Currency.CurrBitcoin => AtomicSwapCoin.Bitcoin
  | Currency.CurrLitecoin => AtomicSwapCoin.Litecoin
  | Currency.CurrQtum => AtomicSwapCoin.Qtum
  | Currency.CurrBitcoinCash => AtomicSwapCoin.Bitcoin_Cash
  | Currency.CurrDash => AtomicSwapCoin.Dash
  | Currency.CurrDogecoin => AtomicSwapCoin.Dogecoin
  | _ => AtomicSwapCoin.Unknown

/-- `convertSwapCoinToCurrency` of currencies.cpp. -/
def convertSwapCoinToCurrency (swapCoin : AtomicSwapCoin) : Currency :=
  match swapCoin with
  | AtomicSwapCoin.Bitcoin => Currency.CurrBitcoin
  | AtomicSwapCoin.Litecoin => Currency.CurrLitecoin
  | AtomicSwapCoin.Qtum => Currency.CurrQtum
  | AtomicSwapCoin.Bitcoin_Cash => Currency.CurrBitcoinCash
  | AtomicSwapCoin.Dash => Currency.CurrDash
  | AtomicSwapCoin.Dogecoin => Currency.CurrDogecoin
  | _ => Currency.CurrEnd

/-- What QMLGlobals reads from a swap coin client: `GetSettings().IsActivated()`
and `getStatus()`. -/
structure SwapCoinClient where
  IsActivated : Bool
  status : ClientStatus
  deriving DecidableEq, Repr

/-- The clients `AppModel::getInstance().getSwapCoinClient(swapCoin)` hands out. -/
abbrev SwapCoinClients := AtomicSwapCoin → SwapCoinClient

namespace QMLGlobals

/-- `QMLGlobals::haveSwapClient`. -/
def haveSwapClient (clients : SwapCoinClients) (currency : Currency) : Bool :=
  let swapCoin := convertCurrencyToSwapCoin currency
  (clients swapCoin).IsActivated

/-- `QMLGlobals::canSwap`. -/
def canSwap (clients : SwapCoinClients) : Bool :=
  haveSwapClient clients Currency.CurrBitcoin || haveSwapClient clients Currency.CurrLitecoin
    || haveSwapClient clients Currency.CurrQtum
    || haveSwapClient clients Currency.CurrBitcoinCash || haveSwapClient clients Currency.CurrDash
    || haveSwapClient clients Currency.CurrDogecoin

/-- `QMLGlobals::canReceive`. -/
def canReceive (clients : SwapCoinClients) (currency : Currency) : Bool :=
  if Currency.CurrBeam = currency then true
  else
    let swapCoin := convertCurrencyToSwapCoin currency
    let client := clients swapCoin
    client.IsActivated && client.status == ClientStatus.Connected

end QMLGlobals

/-! ### UTXO display records -/

/-- The coin states the status switches of utxo_item.cpp name.  `Coin::Status`
and `ShieldedCoin::Status` belong to the engine; every state the switches do
not name is `other n`. -/
inductive CoinStatus
  | Available
  | Maturing
  | Unavailable
  | Outgoing
  | Incoming
  | Spent
  | other (code : Nat)
  deriving DecidableEq, Repr

/-- The view states `UtxoViewStatus::EnStatus` used in utxo_item.cpp. -/
inductive UtxoViewStatus
  | Undefined
  | Available
  | Maturing
  | MaturingMP
  | Unavailable
  | Outgoing
  | Incoming
  | Spent
  deriving DecidableEq, Repr

namespace UtxoItem

/-- `UtxoItem::status`, for the state `_coin.m_status`; the `default` branch
fails an assertion in a debug build and otherwise falls through to `Undefined`. -/
def status (m_status : CoinStatus) : UtxoViewStatus :=
  match m_status with
  | CoinStatus.Available => UtxoViewStatus.Available
  | CoinStatus.Maturing => UtxoViewStatus.Maturing
  | CoinStatus.Unavailable => UtxoViewStatus.Unavailable
  | CoinStatus.Outgoing => UtxoViewStatus.Outgoing
  | CoinStatus.Incoming => UtxoViewStatus.Incoming
  | CoinStatus.Spent => UtxoViewStatus.Spent
  | _ => UtxoViewStatus.Undefined

/-- `UtxoItem::rawMaturityTimeLeft`, for the wallet's current height and the
coin's maturity `_coin.get_Maturity()` (both `beam::Height`, 64 bits); the
quotient is returned as a `uint16_t`. -/
def rawMaturityTimeLeft (currentHeight maturity : Nat) : Nat :=
  if currentHeight < maturity then
    let blocksLeft := amountSub maturity currentHeight
    (blocksLeft / 60) % 2 ^ 16
  else 0

end UtxoItem

namespace ShieldedCoinItem

/-- `ShieldedCoinItem::status`, for the state `_coin.m_Status`. -/
def status (m_Status : CoinStatus) : UtxoViewStatus :=
  match m_Status with
  | CoinStatus.Available => UtxoViewStatus.Available
  | CoinStatus.Maturing => UtxoViewStatus.MaturingMP
  | CoinStatus.Unavailable => UtxoViewStatus.Unavailable
  | CoinStatus.Outgoing => UtxoViewStatus.Outgoing
  | CoinStatus.Incoming => UtxoViewStatus.Incoming
  | CoinStatus.Spent => UtxoViewStatus.Spent
  | _ => UtxoViewStatus.Undefined

end ShieldedCoinItem

/-! ### QMLGlobals: decimal texts -/

/-- Reading loop of `string_helpers::split`: `cur` holds, reversed, the
characters of the item being read. -/
def splitAux (delim : Char) : List Char → List Char → List (List Char)
  | [], cur => if cur.isEmpty then [] else [cur.reverse]
  | c :: cs, cur =>
    if c == delim then cur.reverse :: splitAux delim cs []
    else splitAux delim cs (c :: cur)

/-- `string_helpers::split(s, delim)` of the engine's utility library: the items
`std::getline` reads from the text up to each delimiter.  A text that ends with
the delimiter has no empty last item, and the empty text has no item at all. -/
def split (s : List Char) (delim : Char) : List (List Char) :=
  splitAux delim s []

/-- `char_is<C>` of qml_globals.cpp. -/
def char_is (C : Char) (c : Char) : Bool := c == C

/-- `boost::algorithm::trim_right_if`: removes the trailing characters that
satisfy the predicate. -/
def trim_right_if (s : List Char) (p : Char → Bool) : List Char :=
  s.rdropWhile p

/-- The decimal floating-point numbers `boost::multiprecision::cpp_dec_float_50`
as qml_globals.cpp uses them.  The library is external; its numbers and
operations are parameters. -/
structure DecFloat where
  /-- The numbers. -/
  Num : Type
  /-- Construction from a text; `none` when the constructor throws. -/
  ofText : List Char → Option Num
  /-- The product. -/
  mul : Num → Num → Num
  /-- The quotient. -/
  div : Num → Num → Num
  /-- The text written to a stream with `std::fixed` and the given precision. -/
  fixed : Num → Nat → List Char
  /-- Construction from an `int`. -/
  ofInt : Int → Num
  /-- `pow(x, n)` for an `int` exponent. -/
  pow : Num → Int → Num
  /-- `ceil(x)`. -/
  ceil : Num → Num
  /-- `x.str(digits, std::ios_base::fixed)`. -/
  str : Num → Int → List Char

/-- `std::numeric_limits<cpp_dec_float_50>::digits10`. -/
def digits10 : Nat := 50

/-- `kBTCDecimalPlaces` of qml_globals.cpp (`libbitcoin::btc_decimal_places`). -/
def kBTCDecimalPlaces : Nat := 8

/-- `kUSDDecimalPlaces` of qml_globals.cpp. -/
def kUSDDecimalPlaces : Nat := 2

/-- `roundWithPrecision` of qml_globals.cpp.  The result is `none` when the
decimal constructor throws or when `parts[0]` is read from an empty vector. -/
def roundWithPrecision (lib : DecFloat) (number : QString) (precision : Nat) :
    Option QString :=
  let delimeter := '.'
  let parts := split number delimeter
  match parts with
  | [parts0, parts1] =>
    match lib.ofText (['0', '.'] ++ parts1) with
    | none => none
    | some afterPoint =>
      let afterPointOss := lib.fixed afterPoint precision
      let afterPointParts := split afterPointOss delimeter
      let fraction :=
        match afterPointParts with
        | _ :: afterPointParts1 :: _ => afterPointParts1
        | _ => ['0']
      let result := parts0 ++ [delimeter] ++ fraction
      let result := trim_right_if result (char_is '0')
      let result := trim_right_if result (char_is '.')
      some result
  | [] => none
  | parts0 :: _ => some parts0

/-- `multiplyWithPrecision` of qml_globals.cpp. -/
def multiplyWithPrecision (lib : DecFloat) (first second : QString) (precision : Nat) :
    Option QString :=
  match lib.ofText first, lib.ofText second with
  | some dec_first, some dec_second =>
    let product := lib.mul dec_first dec_second
    let result := lib.fixed product digits10
    roundWithPrecision lib result precision
  | _, _ => none

/-- One line of the macro table `CURRENCY_MAP(MACRO)`:
`(name, label, slabel, subunit, feeLabel, dec)`. -/
structure CurrencyEntry where
  name : String
  label : QString
  slabel : QString
  subunit : QString
  feeLabel : QString
  dec : Nat
  deriving DecidableEq, Repr

/-- Conversion of an `int` to `beam::Amount` (argument of `AmountToUIString`). -/
def intToAmount (i : Int) : Nat := (i % (AMOUNT_RANGE : Int)).toNat

namespace QMLGlobals

/-- `QMLGlobals::roundWithPrecision8`. -/
def roundWithPrecision8 (lib : DecFloat) (number : QString) : Option QString :=
  roundWithPrecision lib number kBTCDecimalPlaces

/-- `QMLGlobals::multiplyWithPrecision8`. -/
def multiplyWithPrecision8 (lib : DecFloat) (first second : QString) : Option QString :=
  multiplyWithPrecision lib first second kBTCDecimalPlaces

/-- `QMLGlobals::divideWithPrecision8`. -/
def divideWithPrecision8 (lib : DecFloat) (dividend divider : QString) : Option QString :=
  match lib.ofText dividend, lib.ofText divider with
  | some dec_dividend, some dec_divider =>
    let quotient := lib.div dec_dividend dec_divider
    let result := lib.fixed quotient digits10
    roundWithPrecision8 lib result
  | _, _ => none

/-- `QMLGlobals::calcAmountInSecondCurrency`; `CURRENCY_MAP` is the macro table,
whose lines are tried in order. -/
def calcAmountInSecondCurrency (lib : DecFloat) (CURRENCY_MAP : List CurrencyEntry)
    (amount exchangeRate secondCurrLabel : QString) : Option QString :=
  if exchangeRate.isEmpty || exchangeRate == ['0'] then some []
  else
    match CURRENCY_MAP.find? (fun e => e.slabel == secondCurrLabel) with
    | some e => multiplyWithPrecision lib amount exchangeRate e.dec
    | none => some []

/-- `QMLGlobals::calcFeeInSecondCurrency`; `fee` is an `int`. -/
def calcFeeInSecondCurrency (ui : UiHelpers) (lib : DecFloat)
    (CURRENCY_MAP : List CurrencyEntry) (fee : Int)
    (exchangeRate secondCurrencyUnitName : QString) : Option QString :=
  let feeInOriginalCurrency := ui.AmountToUIString (intToAmount fee)
  calcAmountInSecondCurrency lib CURRENCY_MAP feeInOriginalCurrency exchangeRate
    secondCurrencyUnitName

end QMLGlobals

/-! ### ElectrumPhraseItem -/

/-- The notification signals of ElectrumPhraseItem. -/
inductive PhraseSignal
  | valueChanged
  | isModifiedChanged
  | isAllowedChanged
  deriving DecidableEq, Repr

/-- The data members of ElectrumPhraseItem, and the signals it has emitted so far. -/
structure ElectrumPhraseItem where
  m_index : Int
  m_phrase : QString
  m_userInput : QString
  effects : List PhraseSignal
  deriving DecidableEq, Repr

namespace ElectrumPhraseItem

/-- The constructor `ElectrumPhraseItem::ElectrumPhraseItem(index, phrase)`. -/
def init (index : Int) (phrase : QString) : ElectrumPhraseItem :=
  { m_index := index
    m_phrase := phrase
    m_userInput := phrase
    effects := [] }

/-- `emit sig()`. -/
def emit (s : ElectrumPhraseItem) (sig : PhraseSignal) : ElectrumPhraseItem :=
  { s with effects := s.effects ++ [sig] }

/-- `ElectrumPhraseItem::isModified`. -/
def isModified (s : ElectrumPhraseItem) : Bool := s.m_userInput != s.m_phrase

/-- `ElectrumPhraseItem::getValue`. -/
def getValue (s : ElectrumPhraseItem) : QString := s.m_userInput

/-- `ElectrumPhraseItem::setValue`. -/
def setValue (s : ElectrumPhraseItem) (value : QString) : ElectrumPhraseItem :=
  if s.m_userInput != value then
    let s := { s with m_userInput := value }
    let s := s.emit PhraseSignal.valueChanged
    let s := s.emit PhraseSignal.isModifiedChanged
    s.emit PhraseSignal.isAllowedChanged
  else s

/-- `ElectrumPhraseItem::getPhrase`. -/
def getPhrase (s : ElectrumPhraseItem) : QString := s.m_phrase

/-- `ElectrumPhraseItem::getIndex`. -/
def getIndex (s : ElectrumPhraseItem) : Int := s.m_index

/-- `ElectrumPhraseItem::applyChanges`. -/
def applyChanges (s : ElectrumPhraseItem) : ElectrumPhraseItem :=
  { s with m_phrase := s.m_userInput }

/-- `ElectrumPhraseItem::revertChanges`. -/
def revertChanges (s : ElectrumPhraseItem) : ElectrumPhraseItem :=
  s.setValue s.m_phrase

end ElectrumPhraseItem

/-! ### SwapCoinSettingsItem: the electrum seed phrase -/

/-- The electrum connection options `beam::bitcoin::ElectrumSettings` of the
engine, as far as `applyElectrumSettings` writes them. -/
structure ElectrumSettings where
  m_address : List Nat
  m_secretWords : List (List Nat)
  m_automaticChooseAddress : Bool
  deriving DecidableEq, Repr

/-- What the seed phrase functions of SwapCoinSettingsItem take from outside the
embedded source files. -/
structure SeedEnv where
  /-- The constant `WORD_COUNT` of the engine's mnemonic.h; it fits an `int`. -/
  WORD_COUNT : Nat
  /-- `QString::fromStdString` (UTF-8 decoding, Qt). -/
  fromStdString : List Nat → QString
  /-- `bitcoin::validateElectrumMnemonic(words, isSegwit)`. -/
  validateElectrumMnemonic : List (List Nat) → Bool → Bool

/-- The notification signals of SwapCoinSettingsItem that the seed phrase
functions emit. -/
inductive SeedSignal
  | isCurrentSeedValidChanged
  | isCurrentSeedSegwitChanged
  | electrumSeedPhrasesChanged
  deriving DecidableEq, Repr

/-- The data members of SwapCoinSettingsItem that the electrum functions read or
write.  `m_settings` stands for the electrum options inside `*m_settings`, and
`coinClient` for the electrum options inside the settings held by the coin
client (`m_coinClient.lock()->GetSettings()` / `SetSettings`); both belong to the
engine and are taken to return what was stored. -/
structure SwapCoinSettingsItem where
  m_seedPhraseItems : List ElectrumPhraseItem
  m_nodeAddressElectrum : QString
  m_nodePortElectrum : QString
  m_selectServerAutomatically : Bool
  m_isCurrentSeedValid : Bool
  m_isCurrentSeedSegwit : Bool
  m_settings : ElectrumSettings
  coinClient : ElectrumSettings
  effects : List SeedSignal
  deriving DecidableEq, Repr

namespace SwapCoinSettingsItem

/-- `emit sig()`. -/
def emit (s : SwapCoinSettingsItem) (sig : SeedSignal) : SwapCoinSettingsItem :=
  { s with effects := s.effects ++ [sig] }

/-- `SwapCoinSettingsItem::setIsCurrentSeedValid`. -/
def setIsCurrentSeedValid (s : SwapCoinSettingsItem) (value : Bool) : SwapCoinSettingsItem :=
  if s.m_isCurrentSeedValid != value then
    let s := { s with m_isCurrentSeedValid := value }
    s.emit SeedSignal.isCurrentSeedValidChanged
  else s

/-- `SwapCoinSettingsItem::setIsCurrentSeedSegwit`. -/
def setIsCurrentSeedSegwit (s : SwapCoinSettingsItem) (value : Bool) : SwapCoinSettingsItem :=
  if s.m_isCurrentSeedSegwit != value then
    let s := { s with m_isCurrentSeedSegwit := value }
    s.emit SeedSignal.isCurrentSeedSegwitChanged
  else s

/-- The loop `for (auto& word : seedElectrum) push_back(new ElectrumPhraseItem(index++, ...))`
of `SetSeedElectrum`, started at `index` with the items pushed so far. -/
def pushSeedWords (env : SeedEnv) :
    List (List Nat) → Int → List ElectrumPhraseItem → List ElectrumPhraseItem
  | [], _, items => items
  | word :: rest, index, items =>
    pushSeedWords env rest (index + 1)
      (items ++ [ElectrumPhraseItem.init index (env.fromStdString word)])

/-- The loop `for (int index = 0; index < WORD_COUNT; ++index) push_back(...)` of
`SetSeedElectrum`: `count` rounds are left, the next one at `index`. -/
def pushEmptyWords : Nat → Int → List ElectrumPhraseItem → List ElectrumPhraseItem
  | 0, _, items => items
  | count + 1, index, items =>
    pushEmptyWords count (index + 1) (items ++ [ElectrumPhraseItem.init index []])

/-- `SwapCoinSettingsItem::SetSeedElectrum`; `none` when the assertion
`seedElectrum.size() == WORD_COUNT` fails. -/
def SetSeedElectrum (env : SeedEnv) (s : SwapCoinSettingsItem)
    (seedElectrum : List (List Nat)) : Option SwapCoinSettingsItem :=
  let s := if !s.m_seedPhraseItems.isEmpty then { s with m_seedPhraseItems := [] } else s
  let filled : Option SwapCoinSettingsItem :=
    if seedElectrum.isEmpty then
      some { s with m_seedPhraseItems := pushEmptyWords env.WORD_COUNT 0 s.m_seedPhraseItems }
    else if seedElectrum.length = env.WORD_COUNT then
      some { s with m_seedPhraseItems := pushSeedWords env seedElectrum 0 s.m_seedPhraseItems }
    else none
  match filled with
  | none => none
  | some s =>
    let s := setIsCurrentSeedValid s (env.validateElectrumMnemonic seedElectrum false)
    let s := setIsCurrentSeedSegwit s (env.validateElectrumMnemonic seedElectrum true)
    some (s.emit SeedSignal.electrumSeedPhrasesChanged)

/-- The loop of `GetSeedPhraseFromSeedItems` over the items, with the words
collected so far. -/
def collectSeedWords : List ElectrumPhraseItem → List (List Nat) → List (List Nat)
  | [], seedElectrum => seedElectrum
  | item :: rest, seedElectrum =>
    let word := toStdString item.getPhrase
    if !word.isEmpty then collectSeedWords rest (seedElectrum ++ [word])
    else collectSeedWords rest seedElectrum

/-- `SwapCoinSettingsItem::GetSeedPhraseFromSeedItems`; `none` when the assertion
`m_seedPhraseItems.size() == WORD_COUNT` fails. -/
def GetSeedPhraseFromSeedItems (env : SeedEnv) (s : SwapCoinSettingsItem) :
    Option (List (List Nat)) :=
  if s.m_seedPhraseItems.length = env.WORD_COUNT then
    some (collectSeedWords s.m_seedPhraseItems [])
  else none

/-- `SwapCoinSettingsItem::applyElectrumSettings`. -/
def applyElectrumSettings (env : SeedEnv) (s : SwapCoinSettingsItem) :
    Option SwapCoinSettingsItem :=
  let electrumSettings := s.coinClient
  let electrumSettings :=
    if !s.m_selectServerAutomatically && !s.m_nodeAddressElectrum.isEmpty then
      let address := toStdString (formatAddress s.m_nodeAddressElectrum s.m_nodePortElectrum)
      { electrumSettings with m_address := address }
    else electrumSettings
  let electrumSettings :=
    { electrumSettings with m_automaticChooseAddress := s.m_selectServerAutomatically }
  match GetSeedPhraseFromSeedItems env s with
  | none => none
  | some words =>
    let electrumSettings := { electrumSettings with m_secretWords := words }
    let s := { s with m_settings := electrumSettings }
    some { s with coinClient := s.m_settings }

/-- A member function `f` called on the seed phrase item at position `i`; the UI
holds the items of `getElectrumSeedPhrases()` by pointer and calls them in place. -/
def onSeedItem (s : SwapCoinSettingsItem) (i : Nat)
    (f : ElectrumPhraseItem → ElectrumPhraseItem) : SwapCoinSettingsItem :=
  { s with m_seedPhraseItems := s.m_seedPhraseItems.modify f i }

end SwapCoinSettingsItem

/-! ### SettingsViewModel: the current language -/

namespace SettingsViewModel

/-- `SettingsViewModel::getCurrentLanguageIndex`. -/
def getCurrentLanguageIndex (s : SettingsViewModel) : Int := s.m_currentLanguageIndex

/-- `m_supportedLanguages[i]` (`QList::operator[]`): `none` when `i` is outside
the list, where the access fails an assertion of Qt and is otherwise undefined. -/
def languageAt (s : SettingsViewModel) (i : Int) : Option QString :=
  if 0 ≤ i ∧ i < s.m_supportedLanguages.length then s.m_supportedLanguages.get? i.toNat
  else none

/-- `SettingsViewModel::setCurrentLanguageIndex`; `none` when the list access is
out of range.  `setLocaleByLanguageName` stores the language in the settings. -/
def setCurrentLanguageIndex (s : SettingsViewModel) (value : Int) : Option SettingsViewModel :=
  let s := { s with m_currentLanguageIndex := value }
  match s.languageAt s.m_currentLanguageIndex with
  | none => none
  | some name =>
    let s := { s with m_settings := { s.m_settings with languageName := name } }
    some (s.emit SettingsEffect.currentLanguageIndexChanged)

/-- `SettingsViewModel::getCurrentLanguage`; `none` when the list access is out
of range. -/
def getCurrentLanguage (s : SettingsViewModel) : Option QString :=
  s.languageAt s.m_currentLanguageIndex

/-- `SettingsViewModel::setCurrentLanguage`. -/
def setCurrentLanguage (s : SettingsViewModel) (value : QString) : Option SettingsViewModel :=
  let index := indexOf s.m_supportedLanguages value
  if index != -1 then setCurrentLanguageIndex s index
  else some s

/-- The two language setters of SettingsViewModel, with their arguments. -/
inductive LanguageCall
  | setCurrentLanguage (value : QString)
  | setCurrentLanguageIndex (value : Int)
  deriving DecidableEq, Repr

/-- Calls one language setter. -/
def LanguageCall.run (op : LanguageCall) (s : SettingsViewModel) : Option SettingsViewModel :=
  match op with
  | LanguageCall.setCurrentLanguage v => SettingsViewModel.setCurrentLanguage s v
  | LanguageCall.setCurrentLanguageIndex v => SettingsViewModel.setCurrentLanguageIndex s v

/-- Calls the language setters of a list one after the other; `none` as soon as
one of them fails. -/
def runLanguageCalls : List LanguageCall → SettingsViewModel → Option SettingsViewModel
  | [], s => some s
  | op :: rest, s =>
    match op.run s with
    | none => none
    | some s => runLanguageCalls rest s

end SettingsViewModel

/-! ### ShieldedCoinItem: hours left -/

/-- The `double` arithmetic of the C++ implementation as
`ShieldedCoinItem::rawMaturityTimeLeft` uses it.  The numbers and operations
are parameters. -/
structure DoubleArith where
  /-- The values of `double`. -/
  Num : Type
  /-- Conversion of an unsigned integer to `double`. -/
  ofNat : Nat → Num
  /-- The quotient. -/
  div : Num → Num → Num
  /-- The product. -/
  mul : Num → Num → Num
  /-- The comparison `x > 1`. -/
  gtOne : Num → Bool
  /-- `floor`. -/
  floor : Num → Num
  /-- `ceil`. -/
  ceil : Num → Num
  /-- `static_cast<uint16_t>(x)`. -/
  toUInt16 : Num → Nat
  /-- A `uint16_t` is below 2^16. -/
  toUInt16_lt : ∀ x, toUInt16 x < 2 ^ 16

/-- What `ShieldedCoinItem::rawMaturityTimeLeft` reads: from the wallet model the
lock time limit, the current height and the shielded outputs per 24 hours; from
the coin its confirmation height, its position `m_TxoID` and the anonymity set
of its packed message; the number of shielded outputs; and the consensus
constant `Rules::get().Shielded.MaxWindowBacklog`.  Heights and output counts are
64-bit, `MaxWindowBacklog` is 32-bit. -/
structure MaturityInputs where
  timeLimit : Nat
  currentHeight : Nat
  shieldedPer24h : Nat
  m_confirmHeight : Nat
  m_TxoID : Nat
  shieldedCount : Nat
  mpAnonymitySet : Nat
  MaxWindowBacklog : Nat
  deriving DecidableEq, Repr

namespace ShieldedCoinItem

/-- `ShieldedCoinItem::rawMaturityTimeLeft`; the result is a `uint16_t`. -/
def rawMaturityTimeLeft (fp : DoubleArith) (c : MaturityInputs) : Nat :=
  let timeLimit := c.timeLimit
  let hoursLeftByBlocksU : Nat :=
    if timeLimit != 0 then
      let blocks := amountSub (amountAdd c.m_confirmHeight (timeLimit * 60)) c.currentHeight
      let hoursLeftByBlocks := fp.div (fp.ofNat blocks) (fp.ofNat 60)
      fp.toUInt16
        (if fp.gtOne hoursLeftByBlocks then fp.floor hoursLeftByBlocks
         else fp.ceil hoursLeftByBlocks)
    else 0
  let shieldedPer24h := c.shieldedPer24h
  if shieldedPer24h != 0 then
    let outputsAddedAfterMyCoin := amountSub c.shieldedCount c.m_TxoID
    let mpAnonymitySet := c.mpAnonymitySet
    let maxWindowBacklog :=
      if mpAnonymitySet != 0 then toUInt (c.MaxWindowBacklog * mpAnonymitySet) / 64
      else c.MaxWindowBacklog
    let outputsLeftForMP := amountSub maxWindowBacklog outputsAddedAfterMyCoin
    let hoursLeft :=
      fp.mul (fp.div (fp.ofNat outputsLeftForMP) (fp.ofNat shieldedPer24h)) (fp.ofNat 24)
    let hoursLeftU := fp.toUInt16 (if fp.gtOne hoursLeft then fp.floor hoursLeft
      else fp.ceil hoursLeft)
    let hoursLeftU := if timeLimit != 0 then min hoursLeftU hoursLeftByBlocksU else hoursLeftU
    hoursLeftU
  else
    if timeLimit != 0 then hoursLeftByBlocksU else 65535

/-- The hours `rawMaturityTimeLeft` keeps of a `double`: rounded down above one
hour and up otherwise, as a `uint16_t`. -/
def hoursAsUInt16 (fp : DoubleArith) (x : fp.Num) : Nat :=
  fp.toUInt16 (if fp.gtOne x then fp.floor x else fp.ceil x)

/-- The blocks left until the lock time limit ends, by the formula of the
statement about `rawMaturityTimeLeft`, confirmHeight + timeLimit*60 -
currentHeight, as an integer: it is negative once the limit has passed. -/
def blocksLeft (c : MaturityInputs) : Int :=
  (c.m_confirmHeight : Int) + (c.timeLimit : Int) * 60 - (c.currentHeight : Int)

/-- The block-based estimate of the hours left, in the words of the statement
about `rawMaturityTimeLeft`: (confirmHeight + timeLimit*60 - currentHeight) / 60,
as whole hours in a `uint16_t`; no blocks are left when the difference is
negative. -/
def blockEstimate (fp : DoubleArith) (c : MaturityInputs) : Nat :=
  hoursAsUInt16 fp (fp.div (fp.ofNat (blocksLeft c).toNat) (fp.ofNat 60))

/-- The number of outputs the window of the coin holds:
`MaxWindowBacklog * mpAnonymitySet / 64`, or `MaxWindowBacklog` when the coin
names no anonymity set. -/
def windowBacklog (c : MaturityInputs) : Nat :=
  if c.mpAnonymitySet = 0 then c.MaxWindowBacklog
  else c.MaxWindowBacklog * c.mpAnonymitySet / 64

/-- The outputs left before the coin leaves its window, as an integer: the
window less the outputs added after the coin; it is negative once the coin
has left the window. -/
def outputsLeft (c : MaturityInputs) : Int :=
  (windowBacklog c : Int) - ((c.shieldedCount : Int) - (c.m_TxoID : Int))

/-- The anonymity-set estimate of the hours left, in the words of the statement
about `rawMaturityTimeLeft`: outputs left / shieldedPer24h * 24, as whole hours
in a `uint16_t`; no outputs are left when the difference is negative. -/
def anonymitySetEstimate (fp : DoubleArith) (c : MaturityInputs) : Nat :=
  hoursAsUInt16 fp
    (fp.mul (fp.div (fp.ofNat (outputsLeft c).toNat) (fp.ofNat c.shieldedPer24h))
      (fp.ofNat 24))

end ShieldedCoinItem

/-! ### Sample collaborators

Concrete collaborators on which the statements of Part II are exercised. -/

/-- A fee table: 100 groth for a plain transaction, 1000000 for a shielded one;
a fee is accepted when it reaches the minimum. -/
def sampleFees : FeeHelpers :=
  { minFeeBeam := fun isShielded => if isShielded then 1000000 else 100
    minimalFee := fun _ isShielded => if isShielded then 1000000 else 100
    isFeeOK := fun fee _ isShielded => decide ((if isShielded then 1000000 else 100) ≤ fee)
    isFeeOK_zero := by intro isShielded; cases isShielded <;> decide }

/-- Amount conversions that print and read an amount as its number of groth. -/
def sampleUi : UiHelpers :=
  { AmountToUIString := fun a => Nat.toDigits 10 a
    UIStringToAmount := fun t => ((parseDigits t 0).getD 0) % AMOUNT_RANGE }

/-- The address text accepted by the sample engine. -/
def sampleAddress : QString := ['b', 'e', 'a', 'm', '1']

/-- An engine that knows one receiver address (wallet id 7), no swap tokens,
and a wallet holding `available` groth of every asset. -/
def sampleEngine (shielded : Bool) (available : Nat) : Engine :=
  { isSwapTokenValid := fun _ => false
    CheckReceiverAddress := fun t => t == sampleAddress
    ParseParameters := fun t =>
      if t == sampleAddress then some [(TxParameterID.PeerID, TxValue.walletID 7)] else none
    getAvailable := fun _ => available
    hasShielded := fun _ => shielded
    CreateSimpleTransactionParameters :=
      [(TxParameterID.TransactionType, TxValue.txType TxType.Simple)]
    LoadReceiverParams := fun receiver params => CopyParameter TxParameterID.PeerID receiver params
    getTimestamp := 0
    walletIDToString := fun _ => sampleAddress
    ProcessLibraryVersion := fun _ => none
    ProcessClientVersion := fun _ => none }

/-- The sample environment. -/
def sampleEnv (shielded : Bool) (available : Nat) : Env :=
  { fees := sampleFees
    ui := sampleUi
    engine := sampleEngine shielded available
    fromStdString := fun b => b.map Char.ofNat }

/-- A freshly constructed view-model after the user entered the sample address
and the amount 5000, on a wallet without shielded coins holding 10^9 groth. -/
def sampleReady : SendViewModel :=
  let env := sampleEnv false 1000000000
  let s := SendViewModel.init env
  let s := SendViewModel.setReceiverTA env s sampleAddress
  SendViewModel.setSendAmount env s ['5', '0', '0', '0']

/-- The text "18446744073709551516", that is 2^64 - 100. -/
def hugeAmountText : QString :=
  ['1', '8', '4', '4', '6', '7', '4', '4', '0', '7', '3', '7', '0', '9', '5', '5', '1', '5',
   '1', '6']

/-- A freshly constructed view-model on an empty wallet without shielded coins,
after the user typed the amount 2^64 - 100 (the fee is the initial 100). -/
def wrapState : SendViewModel :=
  SendViewModel.setSendAmount (sampleEnv false 0) (SendViewModel.init (sampleEnv false 0))
    hugeAmountText

/-- A selection result of the engine for a request of 5000 groth: the chosen
shielded inputs cost 3000000 groth in fees, the whole fee is 3100000. -/
def sampleSelection (requestedFee : Nat) : ShieldedCoinsSelectionInfo :=
  { requestedSum := 5000
    selectedSumBeam := 4000000
    requestedFee := requestedFee
    selectedFee := 3100000
    minimalFee := 3100000
    shieldedInputsFee := 3000000
    changeBeam := 895000
    changeAsset := 0
    assetID := s_BeamID
    isEnought := true }

/-- The user enters the sample address and the amount 5000 on a wallet with
shielded coins; the engine reports that shielded coins have to be extracted and
answers with `sampleSelection`; the user lowers the fee to 1200000; the engine
answers the new request. -/
def shieldedFeeTrace : SendViewModel :=
  let env := sampleEnv true 1000000000
  let s := SendViewModel.init env
  let s := SendViewModel.setReceiverTA env s sampleAddress
  let s := SendViewModel.setSendAmount env s ['5', '0', '0', '0']
  let s := SendViewModel.onNeedExtractShieldedCoins s true
  let s := SendViewModel.onShieldedCoinsSelectionCalculated s (sampleSelection 100)
  let s := SendViewModel.setFeeGrothes env s 1200000
  SendViewModel.onShieldedCoinsSelectionCalculated s (sampleSelection 1200000)

/-- Stored settings with the given node address and local node port. -/
def sampleSettings (nodeAddress : QString) (localNodePort : Nat) : WalletSettings :=
  { nodeAddress := nodeAddress
    runLocalNode := false
    localNodePort := localNodePort
    localNodePeers := []
    lockTimeout := 0
    passwordReqiredToSpendMoney := false
    allowedBeamMWLinks := false
    languageName := []
    secondCurrency := [] }

/-- The node address "localhost", without a port part. -/
def hostOnly : QString := ['l', 'o', 'c', 'a', 'l', 'h', 'o', 's', 't']

/-- The node address "localhost:8101". -/
def hostAndPort : QString :=
  ['l', 'o', 'c', 'a', 'l', 'h', 'o', 's', 't', ':', '8', '1', '0', '1']

/-- The node address "%1:8101", whose address part is a place marker. -/
def markerHostAndPort : QString := ['%', '1', ':', '8', '1', '0', '1']

/-- A freshly constructed view-model with the local node switched on, in which
the user typed the node address "%1" and the remote port "8101". -/
def markerAddressModel : SettingsViewModel :=
  (((SettingsViewModel.init (sampleSettings hostOnly 10005) []).setLocalNodeRun
    true).setNodeAddress ['%', '1']).setRemoteNodePort ['8', '1', '0', '1']

/-- The ten decimal digit characters. -/
def decimalChars : List Char := ['0', '1', '2', '3', '4', '5', '6', '7', '8', '9']

/-- The quotient `n / d` rounded to the nearest integer, ties to the even one. -/
def roundHalfEven (n d : Nat) : Nat :=
  let q := n / d
  let r := n % d
  if 2 * r > d ∨ (2 * r = d ∧ q % 2 = 1) then q + 1 else q

/-- The last `p` decimal digits of `v`, most significant first. -/
def fracDigits : Nat → Nat → List Char
  | 0, _ => []
  | p + 1, v => fracDigits p (v / 10) ++ [Nat.digitChar (v % 10)]

/-- Reads a plain decimal text (digits with at most one point) as a pair
(m, k) standing for m / 10^k. -/
def parseDecimal (t : List Char) : Option (Nat × Nat) :=
  let point := indexOf t '.'
  if point < 0 then
    if t.isEmpty then none else (parseDigits t 0).map (fun n => (n, 0))
  else
    let whole := t.take point.toNat
    let fraction := t.drop (point.toNat + 1)
    if (whole ++ fraction).isEmpty then none
    else (parseDigits (whole ++ fraction) 0).map (fun n => (n, fraction.length))

/-- Prints m / 10^k with `p` digits after the point, rounded to nearest. -/
def printFixed (x : Nat × Nat) (p : Nat) : List Char :=
  let r := roundHalfEven (x.1 * 10 ^ p) (10 ^ x.2)
  Nat.toDigits 10 (r / 10 ^ p) ++ '.' :: fracDigits p (r % 10 ^ p)

/-- A sample decimal library: exact arithmetic on non-negative decimal
fractions m / 10^k; quotients are cut after 60 further digits, and `str` with
no digits asked for prints all the digits the number has. -/
def exactDecimal : DecFloat :=
  { Num := Nat × Nat
    ofText := parseDecimal
    mul := fun a b => (a.1 * b.1, a.2 + b.2)
    div := fun a b => ((a.1 * 10 ^ (b.2 + 60)) / b.1, a.2 + 60)
    fixed := printFixed
    ofInt := fun i => (i.toNat, 0)
    pow := fun a n =>
      if 0 ≤ n then (a.1 ^ n.toNat, a.2 * n.toNat)
      else (10 ^ (a.2 * n.natAbs + 60) / a.1 ^ n.natAbs, 60)
    ceil := fun a => ((a.1 + 10 ^ a.2 - 1) / 10 ^ a.2, 0)
    str := fun a digits => if 0 < digits then printFixed a digits.toNat else printFixed a a.2 }

/-- A sample currency table. -/
def sampleCurrencies : List CurrencyEntry :=
  [ { name := "Beam", label := "BEAM".toList, slabel := "BEAM".toList,
      subunit := "GROTH".toList, feeLabel := [], dec := 8 },
    { name := "Bitcoin", label := "Bitcoin".toList, slabel := "BTC".toList,
      subunit := "satoshi".toList, feeLabel := "sat/kB".toList, dec := 8 },
    { name := "Usd", label := "USD".toList, slabel := "USD".toList,
      subunit := "cent".toList, feeLabel := [], dec := 2 } ]

/-- Swap clients of which only the Bitcoin client is activated and connected. -/
def sampleClients : SwapCoinClients := fun coin =>
  match coin with
  | AtomicSwapCoin.Bitcoin => { IsActivated := true, status := ClientStatus.Connected }
  | _ => { IsActivated := false, status := ClientStatus.Uninitialized }

/-- The node address "node.example". -/
def otherHost : QString := "node.example".toList

/-- A freshly constructed view-model whose stored address "localhost:8101" has
been checked and found valid; the user then types a new node address, presses
apply while the check of the new address is pending, the timer requests the
check, and the engine reports the new address as valid. -/
def pendingApplyTrace : SettingsViewModel :=
  let s := SettingsViewModel.init (sampleSettings hostAndPort 10005) []
  let s := s.timerEvent
  let s := s.onAddressChecked hostOnly true
  let s := s.setNodeAddress otherHost
  let s := s.applyChanges
  let s := s.timerEvent
  s.onAddressChecked otherHost true

/-- The same steps as `pendingApplyTrace`, but the check of the stored address
had found it invalid. -/
def pendingApplyTraceInvalidBefore : SettingsViewModel :=
  let s := SettingsViewModel.init (sampleSettings hostAndPort 10005) []
  let s := s.timerEvent
  let s := s.onAddressChecked hostOnly false
  let s := s.setNodeAddress otherHost
  let s := s.applyChanges
  let s := s.timerEvent
  s.onAddressChecked otherHost true

/-- Two supported languages. -/
def sampleLanguages : List QString := ["English".toList, "Deutsch".toList]

/-- Stored settings whose language is "English". -/
def sampleLanguageSettings : WalletSettings :=
  { sampleSettings hostAndPort 10005 with languageName := "English".toList }

/-- A seed environment with twelve words per phrase; byte strings are read as
Latin-1 text and every phrase counts as a valid mnemonic. -/
def sampleSeedEnv : SeedEnv :=
  { WORD_COUNT := 12
    fromStdString := fun b => b.map Char.ofNat
    validateElectrumMnemonic := fun _ _ => true }

/-- Twelve seed words. -/
def sampleSeed : List (List Nat) :=
  ["abandon", "ability", "able", "about", "above", "absent", "absorb", "abstract", "absurd",
    "abuse", "access", "accident"].map (fun w => toStdString w.toList)

/-- A settings item before its seed phrase items are created. -/
def sampleSwapItem : SwapCoinSettingsItem :=
  { m_seedPhraseItems := []
    m_nodeAddressElectrum := []
    m_nodePortElectrum := []
    m_selectServerAutomatically := true
    m_isCurrentSeedValid := false
    m_isCurrentSeedSegwit := false
    m_settings := { m_address := [], m_secretWords := [], m_automaticChooseAddress := true }
    coinClient := { m_address := [], m_secretWords := [], m_automaticChooseAddress := true }
    effects := [] }

/-- The settings item holding the twelve words of `sampleSeed`. -/
def sampleSeededItem : SwapCoinSettingsItem :=
  (SwapCoinSettingsItem.SetSeedElectrum sampleSeedEnv sampleSwapItem sampleSeed).getD
    sampleSwapItem

/-- The value of a plain decimal text (digits with at most one point). -/
def decimalValue (t : List Char) : Option ℚ :=
  (parseDecimal t).map (fun x => (x.1 : ℚ) / (10 : ℚ) ^ x.2)

/-- A sample arithmetic for the hours left: exact non-negative fractions
(numerator, denominator); the conversion to `uint16_t` keeps the low 16 bits of
the whole part. -/
def exactHours : DoubleArith :=
  { Num := Nat × Nat
    ofNat := fun n => (n, 1)
    div := fun a b => (a.1 * b.2, a.2 * b.1)
    mul := fun a b => (a.1 * b.1, a.2 * b.2)
    gtOne := fun a => decide (a.1 > a.2)
    floor := fun a => (a.1 / a.2, 1)
    ceil := fun a => ((a.1 + a.2 - 1) / a.2, 1)
    toUInt16 := fun a => (a.1 / a.2) % 2 ^ 16
    toUInt16_lt := fun _ => Nat.mod_lt _ (by decide) }

/-- A shielded coin confirmed at height 1000 seen at height 1030, with a lock
time limit of 72 hours; 40000 of the 65536 outputs of the window were added
after the coin, and `shieldedPer24h` outputs are added per day. -/
def sampleMaturity (timeLimit shieldedPer24h : Nat) : MaturityInputs :=
  { timeLimit := timeLimit
    currentHeight := 1030
    shieldedPer24h := shieldedPer24h
    m_confirmHeight := 1000
    m_TxoID := 500000
    shieldedCount := 540000
    mpAnonymitySet := 64
    MaxWindowBacklog := 65536 }

/-- A shielded coin without a lock time limit that is the newest output of the
pool (all 65536 outputs of the window are left), while one shielded output is
added per 24 hours. -/
def slowPoolMaturity : MaturityInputs :=
  { timeLimit := 0
    currentHeight := 1030
    shieldedPer24h := 1
    m_confirmHeight := 1000
    m_TxoID := 540000
    shieldedCount := 540000
    mpAnonymitySet := 64
    MaxWindowBacklog := 65536 }

/-- A shielded coin confirmed at height 1000 with a lock time limit of one hour,
seen at height 2000, 940 blocks after the limit has passed. -/
def expiredMaturity : MaturityInputs :=
  { timeLimit := 1
    currentHeight := 2000
    shieldedPer24h := 0
    m_confirmHeight := 1000
    m_TxoID := 540000
    shieldedCount := 540000
    mpAnonymitySet := 64
    MaxWindowBacklog := 65536 }

/-! ## Part II. Theorems -/

open SendViewModel SettingsViewModel

/-! ### Decimal texts -/

theorem digitValue_digitChar {d : Nat} (hd : d < 10) :
    digitValue (Nat.digitChar d) = some d := by
  interval_cases d <;> rfl

theorem digitChar_mem_decimalChars {d : Nat} (hd : d < 10) :
    Nat.digitChar d ∈ decimalChars := by
  interval_cases d <;> decide

theorem parseDigits_toDigitsCore (fuel : Nat) :
    ∀ n, n < fuel → ∃ k, ∀ (ds : List Char) (acc : Nat),
      parseDigits (Nat.toDigitsCore 10 fuel n ds) acc = parseDigits ds (acc * 10 ^ k + n) := by
  induction fuel with
  | zero => intro n hn; omega
  | succ fuel ih =>
    intro n hn
    have hd : n % 10 < 10 := Nat.mod_lt _ (by decide)
    by_cases h0 : n / 10 = 0
    · refine ⟨1, fun ds acc => ?_⟩
      have hn10 : n % 10 = n := by omega
      have hlt : n < 10 := by omega
      simp only [Nat.toDigitsCore, h0, if_true, parseDigits, hn10, digitValue_digitChar hlt,
        pow_one]
    · obtain ⟨k, hk⟩ := ih (n / 10) (by omega)
      refine ⟨k + 1, fun ds acc => ?_⟩
      simp only [Nat.toDigitsCore, h0, if_false]
      rw [hk, parseDigits]
      simp only [digitValue_digitChar hd]
      congr 1
      rw [pow_succ]
      have := Nat.div_add_mod n 10
      nlinarith [this]

theorem parseDigits_toDigits (n : Nat) : parseDigits (Nat.toDigits 10 n) 0 = some n := by
  obtain ⟨k, hk⟩ := parseDigits_toDigitsCore (n + 1) n (Nat.lt_succ_self n)
  have := hk [] 0
  simpa [Nat.toDigits, parseDigits] using this

theorem toDigitsCore_mem (fuel : Nat) :
    ∀ (n : Nat) (ds : List Char) (c : Char),
      c ∈ Nat.toDigitsCore 10 fuel n ds → c ∈ ds ∨ c ∈ decimalChars := by
  induction fuel with
  | zero => intro n ds c h; left; simpa [Nat.toDigitsCore] using h
  | succ fuel ih =>
    intro n ds c h
    have hd : n % 10 < 10 := Nat.mod_lt _ (by decide)
    simp only [Nat.toDigitsCore] at h
    split at h
    · rcases List.mem_cons.mp h with h | h
      · right; rw [h]; exact digitChar_mem_decimalChars hd
      · left; exact h
    · rcases ih _ _ _ h with h | h
      · rcases List.mem_cons.mp h with h | h
        · right; rw [h]; exact digitChar_mem_decimalChars hd
        · left; exact h
      · right; exact h

theorem toDigits_mem (n : Nat) (c : Char) (h : c ∈ Nat.toDigits 10 n) : c ∈ decimalChars := by
  rcases toDigitsCore_mem _ _ _ _ h with h | h
  · simp at h
  · exact h

theorem dropWhile_eq_self {p : Char → Bool} (l : List Char) (h : ∀ c ∈ l, p c = false) :
    l.dropWhile p = l := by
  cases l with
  | nil => rfl
  | cons a t => simp [List.dropWhile, h a (List.mem_cons_self a t)]

theorem trimmed_decimal (l : List Char) (h : ∀ c ∈ l, c ∈ decimalChars) : trimmed l = l := by
  have hws : ∀ c ∈ decimalChars, isSpace c = false := by decide
  unfold trimmed
  rw [dropWhile_eq_self l (fun c hc => hws c (h c hc))]
  rw [dropWhile_eq_self l.reverse (fun c hc => hws c (h c (List.mem_reverse.mp hc)))]
  exact List.reverse_reverse l

/-- Reading back a printed port number. -/
theorem toInt_argNumber {n : Nat} (hn : n < 2 ^ 31) : toInt (argNumber n) = (n : Int) := by
  have hmem := toDigits_mem n
  have hparse := parseDigits_toDigits n
  unfold argNumber toInt
  rw [trimmed_decimal _ hmem]
  cases hl : Nat.toDigits 10 n with
  | nil =>
    rw [hl] at hparse
    simp [parseDigits] at hparse
    simp [← hparse]
  | cons c ds =>
    rw [hl] at hparse hmem
    have hc : c ∈ decimalChars := hmem c (List.mem_cons_self c ds)
    have hsign : ∀ c ∈ decimalChars, c ≠ '-' ∧ c ≠ '+' := by decide
    obtain ⟨h1, h2⟩ := hsign c hc
    simp only [h1, h2, if_false, hparse, hn, if_true]

theorem formatPort_toInt {p : Nat} (hp : p < 2 ^ 16) :
    intToUInt (toInt (formatPort p)) = p := by
  unfold formatPort
  simp only [Nat.mod_eq_of_lt hp]
  by_cases h0 : p > 0
  · simp only [h0, if_true]
    rw [toInt_argNumber (by omega)]
    unfold intToUInt UINT_RANGE
    omega
  · have : p = 0 := by omega
    subst this
    decide

theorem sampleUi_text_ne_zero (m : Nat) (hm : 0 < m) : sampleUi.AmountToUIString m ≠ ['0'] := by
  intro h
  have hp := parseDigits_toDigits m
  simp only [sampleUi] at h
  rw [h] at hp
  have : parseDigits ['0'] 0 = some 0 := by decide
  rw [this] at hp
  simp at hp
  omega

theorem sampleUi_roundtrip (a : Nat) (ha : a < AMOUNT_RANGE) :
    sampleUi.UIStringToAmount (sampleUi.AmountToUIString a) = a := by
  simp only [sampleUi, parseDigits_toDigits, Option.getD_some]
  exact Nat.mod_eq_of_lt ha

/-! ### Amount arithmetic -/

theorem amountSub_of_le {a b : Nat} (hba : b ≤ a) (ha : a < AMOUNT_RANGE) :
    amountSub a b = a - b := by
  unfold amountSub AMOUNT_RANGE at *
  omega

theorem amountAdd_zero {a : Nat} (ha : a < AMOUNT_RANGE) : amountAdd a 0 = a := by
  unfold amountAdd AMOUNT_RANGE at *
  omega

theorem amountAdd_comm (a b : Nat) : amountAdd a b = amountAdd b a := by
  unfold amountAdd
  rw [Nat.add_comm]

theorem amountAdd_lt (a b : Nat) : amountAdd a b < AMOUNT_RANGE := by
  unfold amountAdd AMOUNT_RANGE
  omega

/-- The text of a missing amount is "0" exactly when nothing is missing. -/
theorem missing_text_zero_iff (ui : UiHelpers)
    (hfmt : ∀ m, 0 < m → m < AMOUNT_RANGE → ui.AmountToUIString m ≠ ['0'])
    (amount available : Nat) (ha : amount < AMOUNT_RANGE) :
    ((if amount > available then ui.AmountToUIString (amountSub amount available)
      else ['0']) == ['0']) = true ↔ amount ≤ available := by
  by_cases h : amount > available
  · have hsub : amountSub amount available = amount - available :=
      amountSub_of_le (Nat.le_of_lt h) ha
    have hne := hfmt (amount - available) (by omega) (by omega)
    simp [h, hsub, hne, Nat.not_le.mpr h]
  · simp [h, Nat.not_lt.mp h]

/-! ### SendViewModel: when sending is enabled -/

/-- Claim C1.  In every state of SendViewModel in which `canSend()` returns true
the fee `_fee` is not zero: a zero fee never enables send. -/
theorem canSend_fee_nonzero (env : Env) (s : SendViewModel)
    (h : s.canSend env = true) : s._fee ≠ 0 := by
  intro hz
  have hf := env.fees.isFeeOK_zero (s.isShieldedTx || s._isNeedExtractShieldedCoins)
  simp only [canSend, hz, hf, Bool.and_eq_true] at h
  simp at h

/-- Witness for C1: the view-model that is ready to send has `canSend()` true
and a fee different from zero. -/
theorem canSend_fee_nonzero_witness :
    sampleReady.canSend (sampleEnv false 1000000000) = true ∧ sampleReady._fee ≠ 0 :=
  ⟨by decide, canSend_fee_nonzero (sampleEnv false 1000000000) sampleReady (by decide)⟩

/-- Claim C2.  `canSend()` returns false whenever the recipient text is a swap
token, or it is neither a valid transaction token nor a valid address, or the
send amount is 0, or `isEnough()` is false, or the transaction is shielded and
offline with no offline payments left. -/
theorem canSend_false_of_blocker (env : Env) (s : SendViewModel)
    (h : QMLGlobals.isSwapToken env.engine s._receiverTA = true
      ∨ QMLGlobals.isTAValid env.engine s._receiverTA = false
      ∨ s._sendAmount = 0
      ∨ s.isEnough env = false
      ∨ (s.isShieldedTx = true ∧ s.isOffline = true ∧ s.getOfflinePayments ≤ 0)) :
    s.canSend env = false := by
  rcases h with h | h | h | h | ⟨h1, h2, h3⟩
  · simp [canSend, h]
  · simp [canSend, getRreceiverTAValid, h]
  · simp [canSend, h]
  · simp [canSend, h]
  · have : ¬ (0 < s.getOfflinePayments) := not_lt.mpr h3
    simp [canSend, h1, h2, this]

/-- Witness for C2: a freshly constructed view-model has send amount 0 and
`canSend()` false. -/
theorem canSend_false_of_blocker_witness :
    (SendViewModel.init (sampleEnv false 1000000000))._sendAmount = 0
      ∧ (SendViewModel.init (sampleEnv false 1000000000)).canSend (sampleEnv false 1000000000)
          = false :=
  ⟨by decide, canSend_false_of_blocker (sampleEnv false 1000000000)
    (SendViewModel.init (sampleEnv false 1000000000)) (Or.inr (Or.inr (Or.inl (by decide))))⟩

/-! ### SendViewModel: balance check -/

/-- Counterexample to C3 as stated: with Beam selected, the send amount
2^64 - 100 and the fee 100 on an empty wallet, `isEnough()` is true although
send amount + fee = 2^64 exceeds the available balance 0; the 64-bit sum wraps
to 0. -/
theorem isEnough_wrap_counterexample :
    wrapState._selectedAssetId = s_BeamID
      ∧ wrapState._sendAmount = 2 ^ 64 - 100
      ∧ wrapState._fee = 100
      ∧ (sampleEnv false 0).engine.getAvailable s_BeamID = 0
      ∧ wrapState.isEnough (sampleEnv false 0) = true
      ∧ ¬ (wrapState._sendAmount + wrapState._fee
            ≤ (sampleEnv false 0).engine.getAvailable s_BeamID) := by
  decide

/-- Claim C3, amended.  Provided the amount texts of missing amounts are "0"
only for the amount zero, `isEnough()` is true exactly when: with Beam selected,
(send amount + fee) mod 2^64 <= available Beam; with another asset selected,
send amount <= available amount of that asset and fee <= available Beam.
Whenever send amount + fee < 2^64 the modulus disappears and the Beam case
reads send amount + fee <= available Beam. -/
theorem isEnough_iff_covered (env : Env) (s : SendViewModel)
    (hfmt : ∀ m, 0 < m → m < AMOUNT_RANGE → env.ui.AmountToUIString m ≠ ['0'])
    (hs : s._sendAmount < AMOUNT_RANGE) (hf : s._fee < AMOUNT_RANGE) :
    (s.isEnough env = true ↔
      if s._selectedAssetId = s_BeamID then
        (s._sendAmount + s._fee) % AMOUNT_RANGE ≤ env.engine.getAvailable s_BeamID
      else
        s._sendAmount ≤ env.engine.getAvailable s._selectedAssetId
          ∧ s._fee ≤ env.engine.getAvailable s_BeamID)
    ∧ (s._sendAmount + s._fee < AMOUNT_RANGE →
        (s.isEnough env = true ↔
          if s._selectedAssetId = s_BeamID then
            s._sendAmount + s._fee ≤ env.engine.getAvailable s_BeamID
          else
            s._sendAmount ≤ env.engine.getAvailable s._selectedAssetId
              ∧ s._fee ≤ env.engine.getAvailable s_BeamID)) := by
  have key : s.isEnough env = true ↔
      if s._selectedAssetId = s_BeamID then
        (s._sendAmount + s._fee) % AMOUNT_RANGE ≤ env.engine.getAvailable s_BeamID
      else
        s._sendAmount ≤ env.engine.getAvailable s._selectedAssetId
          ∧ s._fee ≤ env.engine.getAvailable s_BeamID := by
    unfold isEnough getAssetMissing getBeamMissing
    rw [Bool.and_eq_true]
    by_cases hb : s._selectedAssetId = s_BeamID
    · have h1 := missing_text_zero_iff env.ui hfmt (amountAdd s._sendAmount s._fee)
        (env.engine.getAvailable s_BeamID) (amountAdd_lt _ _)
      simp only [hb, beq_self_eq_true, if_true]
      rw [amountAdd_comm s._fee s._sendAmount]
      simp only [h1, and_self]
      rfl
    · have hbeq : (s._selectedAssetId == s_BeamID) = false := by simpa using hb
      have h1 := missing_text_zero_iff env.ui hfmt s._sendAmount
        (env.engine.getAvailable s._selectedAssetId) hs
      have h2 := missing_text_zero_iff env.ui hfmt s._fee
        (env.engine.getAvailable s_BeamID) hf
      simp only [hbeq, Bool.false_eq_true, if_false, hb, amountAdd_zero hs, amountAdd_zero hf]
      rw [h1, h2]
  refine ⟨key, fun hsum => ?_⟩
  rw [key, Nat.mod_eq_of_lt hsum]

/-- Witness for C3: on the view-model that is ready to send, with the sample
amount texts, `isEnough()` is true. -/
theorem isEnough_iff_covered_witness :
    sampleReady.isEnough (sampleEnv false 1000000000) = true :=
  (isEnough_iff_covered (sampleEnv false 1000000000) sampleReady
    (fun m hm _ => sampleUi_text_ne_zero m hm) (by decide) (by decide)).1.mpr (by decide)

/-! ### SendViewModel: submitting the transaction -/

theorem getParameter_setParameter_same (p : TxParameters) (k : TxParameterID) (v : TxValue) :
    (p.SetParameter k v).GetParameter k = some v := by
  simp [TxParameters.SetParameter, TxParameters.GetParameter]

theorem find_filter_ne (p : TxParameters) {k k2 : TxParameterID} (h : k2 ≠ k) :
    (p.filter (fun e => e.1 != k)).find? (fun e => e.1 == k2)
      = p.find? (fun e => e.1 == k2) := by
  induction p with
  | nil => rfl
  | cons a t ih =>
    by_cases ha : a.1 = k
    · have h2 : (a.1 == k2) = false := by
        rw [beq_eq_false_iff_ne]
        exact fun h3 => h (h3.symm.trans ha)
      have h1 : (a.1 != k) = false := by simp [ha]
      rw [List.filter_cons, List.find?_cons, h2, h1]
      simpa using ih
    · have h1 : (a.1 != k) = true := by simp [ha]
      rw [List.filter_cons, h1, if_pos rfl, List.find?_cons, List.find?_cons, ih]

theorem getParameter_setParameter_ne (p : TxParameters) {k k2 : TxParameterID} (v : TxValue)
    (h : k2 ≠ k) : (p.SetParameter k v).GetParameter k2 = p.GetParameter k2 := by
  have hk : (k == k2) = false := by
    rw [beq_eq_false_iff_ne]
    exact fun h3 => h h3.symm
  unfold TxParameters.SetParameter TxParameters.GetParameter
  rw [List.find?_cons]
  simp only [hk]
  rw [find_filter_ne p h]

theorem getParameter_copyParameter_ne (input dest : TxParameters) {k k2 : TxParameterID}
    (h : k2 ≠ k) : (CopyParameter k input dest).GetParameter k2 = dest.GetParameter k2 := by
  unfold CopyParameter
  split
  · exact getParameter_setParameter_ne dest _ h
  · rfl

theorem startedTransactions_append (a b : List Effect) :
    startedTransactions (a ++ b) = startedTransactions a ++ startedTransactions b := by
  induction a with
  | nil => rfl
  | cons e t ih =>
    cases e with
    | signal s => simpa [startedTransactions] using ih
    | request c =>
      cases c <;> simpa [startedTransactions] using ih

/-- Reading a key of the submitted parameters that the later, conditional
writes of `sendMoney` do not touch. -/
theorem sendMoneyParams_get (env : Env) (s : SendViewModel) :
    (sendMoneyParams env s).GetParameter TxParameterID.Amount
        = some (TxValue.amount s._sendAmount)
      ∧ (sendMoneyParams env s).GetParameter TxParameterID.AssetID
        = some (TxValue.assetId s._selectedAssetId)
      ∧ (sendMoneyParams env s).GetParameter TxParameterID.Message
        = some (TxValue.bytes (toStdString s._comment))
      ∧ (sendMoneyParams env s).GetParameter TxParameterID.Fee
        = some (TxValue.amount
            (if s._shieldedFee != 0 then amountSub s._fee s._shieldedFee else s._fee)) := by
  unfold sendMoneyParams
  refine ⟨?_, ?_, ?_, ?_⟩ <;>
  · simp only []
    split_ifs <;>
    simp only [getParameter_setParameter_same, getParameter_copyParameter_ne,
      getParameter_setParameter_ne, ne_eq, reduceCtorEq, not_false_eq_true]

/-- Claim C4.  `sendMoney()` adds exactly one `startTransaction` request when
`canSend()` holds and none when it does not; the submitted parameters carry
Amount = the send amount, AssetID = the selected asset id and Message = the
bytes of the comment. -/
theorem sendMoney_submits_once (env : Env) (s : SendViewModel) :
    startedTransactions (s.sendMoney env).effects
        = startedTransactions s.effects
          ++ (if s.canSend env = true then [sendMoneyParams env s] else [])
      ∧ (sendMoneyParams env s).GetParameter TxParameterID.Amount
        = some (TxValue.amount s._sendAmount)
      ∧ (sendMoneyParams env s).GetParameter TxParameterID.AssetID
        = some (TxValue.assetId s._selectedAssetId)
      ∧ (sendMoneyParams env s).GetParameter TxParameterID.Message
        = some (TxValue.bytes (toStdString s._comment)) := by
  obtain ⟨h1, h2, h3, _⟩ := sendMoneyParams_get env s
  refine ⟨?_, h1, h2, h3⟩
  unfold sendMoney
  by_cases hc : s.canSend env = true
  · simp only [hc, if_true, SendViewModel.async, saveReceiverAddress,
      startedTransactions_append, startedTransactions, List.append_nil, List.append_assoc]
    rfl
  · simp [hc]

/-- Claim C5, evaluated on the code.  After the operations of
`shieldedFeeTrace` (address, amount, a selection result, the user lowering the
fee to 1200000, the next selection result) `canSend()` holds while the fee
1200000 is below the shielded-inputs fee 3000000, and `sendMoney()` submits
Fee = 1200000 - 3000000 wrapped to 2^64 - 1800000. -/
theorem sendMoney_fee_wraps :
    shieldedFeeTrace.canSend (sampleEnv true 1000000000) = true
      ∧ shieldedFeeTrace._fee = 1200000
      ∧ shieldedFeeTrace._shieldedFee = 3000000
      ∧ (sendMoneyParams (sampleEnv true 1000000000) shieldedFeeTrace).GetParameter
          TxParameterID.Fee = some (TxValue.amount (2 ^ 64 - 1800000))
      ∧ startedTransactions
          (shieldedFeeTrace.sendMoney (sampleEnv true 1000000000)).effects
          = [sendMoneyParams (sampleEnv true 1000000000) shieldedFeeTrace] := by
  decide

/-! ### SendViewModel: sending everything -/

/-- What `setMaxAvailableAmount` leaves behind on a wallet without shielded
coins when Beam is selected and the parsed balance is not zero. -/
theorem setMaxAvailableAmount_fields (env : Env) (s : SendViewModel)
    (hbeam : s._selectedAssetId = s_BeamID)
    (hns : env.engine.hasShielded s_BeamID = false)
    (hround : env.ui.UIStringToAmount
        (env.ui.AmountToUIString (env.engine.getAvailable s_BeamID))
      = env.engine.getAvailable s_BeamID)
    (hpos : 0 < env.engine.getAvailable s_BeamID) :
    (s.setMaxAvailableAmount env)._sendAmount
        = (if env.engine.getAvailable s_BeamID < s._fee then 0
           else amountSub (env.engine.getAvailable s_BeamID) s._fee)
      ∧ (s.setMaxAvailableAmount env)._fee = s._fee
      ∧ (s.setMaxAvailableAmount env)._selectedAssetId = s_BeamID
      ∧ (s.setMaxAvailableAmount env)._maxAvailable = false := by
  have hne : (env.engine.getAvailable s_BeamID == 0) = false := by
    rw [beq_eq_false_iff_ne]; omega
  unfold setMaxAvailableAmount setSendAmount
  simp only [hbeam, hround, hns, hne, Bool.or_true, if_true, Bool.false_eq_true, if_false,
    beq_self_eq_true, Bool.and_self, SendViewModel.emit, SendViewModel.async]
  exact ⟨trivial, trivial, trivial, trivial⟩

/-- Claim C6.  With Beam selected and no shielded coins in the wallet,
`setMaxAvailableAmount()` on a wallet whose available balance A is positive and
at least the current fee F (and whose amount text reads back as A) leaves the
send amount A - F, so that send amount + fee = A, `getAssetMissing()` is "0"
and the fee is unchanged. -/
theorem setMaxAvailableAmount_beam (env : Env) (s : SendViewModel)
    (hbeam : s._selectedAssetId = s_BeamID)
    (hns : env.engine.hasShielded s_BeamID = false)
    (hround : env.ui.UIStringToAmount
        (env.ui.AmountToUIString (env.engine.getAvailable s_BeamID))
      = env.engine.getAvailable s_BeamID)
    (hpos : 0 < env.engine.getAvailable s_BeamID)
    (hfee : s._fee ≤ env.engine.getAvailable s_BeamID)
    (hrange : env.engine.getAvailable s_BeamID < AMOUNT_RANGE) :
    (s.setMaxAvailableAmount env)._sendAmount = env.engine.getAvailable s_BeamID - s._fee
      ∧ (s.setMaxAvailableAmount env)._sendAmount + (s.setMaxAvailableAmount env)._fee
          = env.engine.getAvailable s_BeamID
      ∧ (s.setMaxAvailableAmount env).getAssetMissing env = ['0']
      ∧ (s.setMaxAvailableAmount env)._fee = s._fee := by
  obtain ⟨h1, h2, h3, _⟩ := setMaxAvailableAmount_fields env s hbeam hns hround hpos
  have hsend : (s.setMaxAvailableAmount env)._sendAmount
      = env.engine.getAvailable s_BeamID - s._fee := by
    rw [h1, if_neg (Nat.not_lt.mpr hfee), amountSub_of_le hfee hrange]
  refine ⟨hsend, ?_, ?_, h2⟩
  · rw [hsend, h2]; omega
  · unfold getAssetMissing
    simp only [h3, hsend, h2, beq_self_eq_true, if_true]
    have hsum : amountAdd (env.engine.getAvailable s_BeamID - s._fee) s._fee
        = env.engine.getAvailable s_BeamID := by
      unfold amountAdd
      rw [Nat.sub_add_cancel hfee]
      exact Nat.mod_eq_of_lt hrange
    simp [hsum]

/-- Witness for C6: a freshly constructed view-model (fee 100) on a wallet
holding 5000 groth is left with the send amount 4900. -/
theorem setMaxAvailableAmount_beam_witness :
    ((SendViewModel.init (sampleEnv false 5000)).setMaxAvailableAmount
        (sampleEnv false 5000))._sendAmount = 5000 - 100 :=
  (setMaxAvailableAmount_beam (sampleEnv false 5000) (SendViewModel.init (sampleEnv false 5000))
    rfl rfl (sampleUi_roundtrip 5000 (by decide)) (by decide) (by decide) (by decide)).1

/-! ### SettingsViewModel: the stored node settings -/

theorem emit_m_settings (s : SettingsViewModel) (e : SettingsEffect) :
    (s.emit e).m_settings = s.m_settings := rfl

theorem setNodeAddress_m_settings (s : SettingsViewModel) (v : QString) :
    (s.setNodeAddress v).m_settings = s.m_settings := by
  unfold setNodeAddress
  dsimp only []
  split_ifs <;> rfl

theorem setLocalNodeRun_m_settings (s : SettingsViewModel) (v : Bool) :
    (s.setLocalNodeRun v).m_settings = s.m_settings := by
  unfold setLocalNodeRun
  dsimp only []
  split_ifs <;> rfl

theorem setLocalNodePort_m_settings (s : SettingsViewModel) (v : QString) :
    (s.setLocalNodePort v).m_settings = s.m_settings := by
  unfold setLocalNodePort
  split_ifs <;> rfl

theorem setRemoteNodePort_m_settings (s : SettingsViewModel) (v : QString) :
    (s.setRemoteNodePort v).m_settings = s.m_settings := by
  unfold setRemoteNodePort
  split_ifs <;> rfl

theorem setLocalNodePeers_m_settings (s : SettingsViewModel) (v : List QString) :
    (s.setLocalNodePeers v).m_settings = s.m_settings := rfl

theorem undoChanges_m_settings (s : SettingsViewModel) :
    (s.undoChanges).m_settings = s.m_settings := by
  unfold undoChanges
  simp only [setLocalNodePeers_m_settings, setLocalNodePort_m_settings,
    setLocalNodeRun_m_settings]
  split_ifs <;>
  simp only [setRemoteNodePort_m_settings, setNodeAddress_m_settings]

theorem applyChanges_deferred (s : SettingsViewModel)
    (h : (!s.m_localNodeRun && s.m_isNeedToCheckAddress) = true) :
    s.applyChanges = { s with m_isNeedToApplyChanges := true } := by
  unfold applyChanges
  rw [if_pos h]

/-- Claim C7.  The node-settings setters of SettingsViewModel leave the stored
settings unchanged; so do `undoChanges()` and `timerEvent()`; the setters that
do write through (lock timeout, password requirement, second currency) leave
the node part of the stored settings unchanged; and `onAddressChecked` leaves
the stored settings either unchanged or as `applyChanges()` writes them. -/
theorem node_setters_keep_stored_settings (s : SettingsViewModel) :
    (∀ op : NodeSetter, (op.run s).m_settings = s.m_settings)
      ∧ (s.undoChanges).m_settings = s.m_settings
      ∧ (s.timerEvent).m_settings = s.m_settings
      ∧ (∀ v, (s.setLockTimeout v).m_settings.node = s.m_settings.node)
      ∧ (∀ v, (s.setPasswordReqiredToSpendMoney v).m_settings.node = s.m_settings.node)
      ∧ (∀ v, (s.setSecondCurrency v).m_settings.node = s.m_settings.node)
      ∧ (∀ addr isValid,
          (s.onAddressChecked addr isValid).m_settings = s.m_settings
            ∨ (s.onAddressChecked addr isValid).m_settings = (s.applyChanges).m_settings) := by
  refine ⟨?_, undoChanges_m_settings s, ?_, ?_, ?_, ?_, ?_⟩
  · intro op
    cases op with
    | setNodeAddress v => exact setNodeAddress_m_settings s v
    | setLocalNodeRun v => exact setLocalNodeRun_m_settings s v
    | setLocalNodePort v => exact setLocalNodePort_m_settings s v
    | setRemoteNodePort v => exact setRemoteNodePort_m_settings s v
    | setLocalNodePeers v => rfl
    | addLocalNodePeer v => rfl
    | deleteLocalNodePeer i => rfl
  · unfold timerEvent
    split_ifs <;> rfl
  · intro v
    unfold setLockTimeout
    split_ifs <;> rfl
  · intro v
    unfold setPasswordReqiredToSpendMoney
    split_ifs <;> rfl
  · intro v
    rfl
  · intro addr isValid
    unfold onAddressChecked
    dsimp only []
    split_ifs with h1 h2 h3
    · right
      unfold applyChanges
      dsimp only [SettingsViewModel.emit]
      split_ifs <;> rfl
    · left; rfl
    · left; rfl
    · left; rfl

/-! ### Place markers in the formatted node address -/

/-- A text without '%' is copied by the scan for place markers. -/
theorem argPieces_no_percent (s t : List Char) (h : '%' ∉ s) :
    argPieces ArgScan.text (s ++ t) = s.map ArgPiece.char ++ argPieces ArgScan.text t := by
  induction s with
  | nil => rfl
  | cons c cs ih =>
    have hc : c ≠ '%' := fun e => h (by simp [e])
    have hcs : '%' ∉ cs := fun e => h (List.mem_cons_of_mem c e)
    simp [argPieces, hc, ih hcs]

theorem argMinEscape_chars (s : List Char) (ps : List ArgPiece) :
    argMinEscape (s.map ArgPiece.char ++ ps) = argMinEscape ps := by
  induction s with
  | nil => rfl
  | cons c cs ih => simpa [argMinEscape] using ih

theorem argReplace_chars (m : Nat) (a : QString) (s : List Char) (ps : List ArgPiece) :
    argReplace m a (s.map ArgPiece.char ++ ps) = s ++ argReplace m a ps := by
  induction s with
  | nil => rfl
  | cons c cs ih => simp [argReplace, ih]

/-- The first `arg` of `formatAddress` puts the address in the place of `%1`. -/
theorem arg_template (address : QString) :
    arg ['%', '1', ':', '%', '2'] address = address ++ [':', '%', '2'] := by
  have hp : argPieces ArgScan.text ['%', '1', ':', '%', '2']
      = [ArgPiece.marker 1 ['%', '1'], ArgPiece.char ':', ArgPiece.marker 2 ['%', '2']] := by
    decide
  simp [arg, hp, argMinEscape, argReplace]

/-- For an address without `%`, `formatAddress` joins address and port by a colon. -/
theorem formatAddress_eq (address port : QString) (h : '%' ∉ address) :
    formatAddress address port = address ++ [':'] ++ port := by
  have hp : argPieces ArgScan.text [':', '%', '2']
      = [ArgPiece.char ':', ArgPiece.marker 2 ['%', '2']] := by decide
  unfold formatAddress
  rw [arg_template]
  unfold arg
  simp only [argPieces_no_percent address _ h, hp, argMinEscape_chars, argReplace_chars,
    argMinEscape, argReplace]
  simp

theorem formatAddress_marker_example :
    formatAddress "%1".toList "8101".toList = "8101:%2".toList := by decide

/-- Counterexample to C8 as stated: with the local node switched on, the node
address "%1" and the remote port "8101", `applyChanges()` stores "8101:%2" and
not "%1:8101": `QString("%1:%2").arg(address)` is "%1:%2" again, in which
`arg(port)` replaces the lowest place marker, the one that came with the
address. -/
theorem applyChanges_counterexample :
    (markerAddressModel.m_localNodeRun = true
        ∧ markerAddressModel.m_nodeAddress = "%1".toList
        ∧ markerAddressModel.m_remoteNodePort = "8101".toList)
      ∧ (markerAddressModel.applyChanges).m_settings.nodeAddress = "8101:%2".toList
      ∧ (markerAddressModel.applyChanges).m_settings.nodeAddress
          ≠ markerAddressModel.m_nodeAddress ++ [':'] ++ markerAddressModel.m_remoteNodePort := by
  decide

/-- Claim C8, amended.  When the local node is enabled or no node-address check
is pending, `applyChanges()` writes the node address
`QString("%1:%2").arg(address).arg(remote port)`, which is address, colon,
remote port whenever the address text contains no '%', the run-local-node flag,
the local port text read as an integer, and the peers list; right afterwards
`isNodeChanged()` is false. -/
theorem applyChanges_writes_settings (s : SettingsViewModel)
    (h : s.m_localNodeRun = true ∨ s.m_isNeedToCheckAddress = false) :
    (s.applyChanges).m_settings.nodeAddress = formatAddress s.m_nodeAddress s.m_remoteNodePort
      ∧ ('%' ∉ s.m_nodeAddress →
          (s.applyChanges).m_settings.nodeAddress
            = s.m_nodeAddress ++ [':'] ++ s.m_remoteNodePort)
      ∧ (s.applyChanges).m_settings.runLocalNode = s.m_localNodeRun
      ∧ (s.applyChanges).m_settings.localNodePort = intToUInt (toInt s.m_localNodePort)
      ∧ (s.applyChanges).m_settings.localNodePeers = s.m_localNodePeers
      ∧ (s.applyChanges).isNodeChanged = false := by
  have hc : (!s.m_localNodeRun && s.m_isNeedToCheckAddress) = false := by
    rcases h with h | h <;> simp [h]
  have hall : (s.applyChanges).m_settings.nodeAddress
        = formatAddress s.m_nodeAddress s.m_remoteNodePort
      ∧ (s.applyChanges).m_settings.runLocalNode = s.m_localNodeRun
      ∧ (s.applyChanges).m_settings.localNodePort = intToUInt (toInt s.m_localNodePort)
      ∧ (s.applyChanges).m_settings.localNodePeers = s.m_localNodePeers
      ∧ (s.applyChanges).isNodeChanged = false := by
    unfold applyChanges
    simp only [hc, Bool.false_eq_true, if_false, SettingsViewModel.emit, isNodeChanged]
    simp
  obtain ⟨h1, h2, h3, h4, h5⟩ := hall
  exact ⟨h1, fun hp => by rw [h1, formatAddress_eq _ _ hp], h2, h3, h4, h5⟩

/-- Witness for C8: on a freshly constructed view-model with the local node
switched on, `applyChanges()` stores "localhost:8101" and leaves
`isNodeChanged()` false. -/
theorem applyChanges_writes_settings_witness :
    ((((SettingsViewModel.init (sampleSettings hostOnly 10005) []).setLocalNodeRun
          true).applyChanges).m_settings.nodeAddress
        = "localhost".toList ++ [':']
          ++ ((SettingsViewModel.init (sampleSettings hostOnly 10005) []).setLocalNodeRun
              true).m_remoteNodePort)
      ∧ (((SettingsViewModel.init (sampleSettings hostOnly 10005) []).setLocalNodeRun
          true).applyChanges).isNodeChanged = false :=
  ⟨(applyChanges_writes_settings
      ((SettingsViewModel.init (sampleSettings hostOnly 10005) []).setLocalNodeRun true)
      (Or.inl (by decide))).2.1 (by decide),
    (applyChanges_writes_settings
      ((SettingsViewModel.init (sampleSettings hostOnly 10005) []).setLocalNodeRun true)
      (Or.inl (by decide))).2.2.2.2.2⟩

/-! ### SettingsViewModel: undo -/

theorem indexOf_mem (l : List Char) (c : Char) (h : c ∈ l) :
    ∃ n : Nat, indexOf l c = (n : Int) ∧ l.take n ++ c :: l.drop (n + 1) = l := by
  induction l with
  | nil => simp at h
  | cons a t ih =>
    by_cases ha : a = c
    · exact ⟨0, by simp [indexOf, ha], by simp [ha]⟩
    · have ht : c ∈ t := by
        rcases List.mem_cons.mp h with e | e
        · exact absurd e.symm ha
        · exact e
      obtain ⟨n, hn, hsplit⟩ := ih ht
      refine ⟨n + 1, ?_, ?_⟩
      · have hneg : ¬ ((n : Int) < 0) := by omega
        simp [indexOf, ha, hn, hneg]
      · simp only [List.take_succ_cons, List.drop_succ_cons, List.cons_append, hsplit]

theorem parseAddress_format (addr : QString) (h : ':' ∈ addr)
    (hp : '%' ∉ (parseAddress addr).address) :
    formatAddress (parseAddress addr).address (parseAddress addr).port = addr := by
  rw [formatAddress_eq _ _ hp]
  obtain ⟨n, hn, hsplit⟩ := indexOf_mem addr ':' h
  have hgt : ((n : Int) > -1) := by omega
  unfold parseAddress
  simp only [hn, hgt, if_true, Int.toNat_ofNat]
  simpa using hsplit

theorem setNodeAddress_fields (s : SettingsViewModel) (v : QString) :
    (s.setNodeAddress v).m_nodeAddress = v
      ∧ (s.setNodeAddress v).m_remoteNodePort = s.m_remoteNodePort
      ∧ (s.setNodeAddress v).m_localNodeRun = s.m_localNodeRun
      ∧ (s.setNodeAddress v).m_localNodePort = s.m_localNodePort
      ∧ (s.setNodeAddress v).m_localNodePeers = s.m_localNodePeers
      ∧ (s.setNodeAddress v).m_settings = s.m_settings := by
  unfold setNodeAddress
  dsimp only [SettingsViewModel.emit]
  split_ifs with h1 h2
  · exact ⟨rfl, rfl, rfl, rfl, rfl, rfl⟩
  · exact ⟨rfl, rfl, rfl, rfl, rfl, rfl⟩
  · refine ⟨?_, rfl, rfl, rfl, rfl, rfl⟩
    exact Eq.symm (by simpa using h1)

theorem setRemoteNodePort_fields (s : SettingsViewModel) (v : QString) :
    (s.setRemoteNodePort v).m_nodeAddress = s.m_nodeAddress
      ∧ (s.setRemoteNodePort v).m_remoteNodePort = v
      ∧ (s.setRemoteNodePort v).m_localNodeRun = s.m_localNodeRun
      ∧ (s.setRemoteNodePort v).m_localNodePort = s.m_localNodePort
      ∧ (s.setRemoteNodePort v).m_localNodePeers = s.m_localNodePeers
      ∧ (s.setRemoteNodePort v).m_settings = s.m_settings := by
  unfold setRemoteNodePort
  dsimp only [SettingsViewModel.emit]
  split_ifs with h1
  · exact ⟨rfl, rfl, rfl, rfl, rfl, rfl⟩
  · refine ⟨rfl, ?_, rfl, rfl, rfl, rfl⟩
    exact Eq.symm (by simpa using h1)

theorem setLocalNodeRun_fields (s : SettingsViewModel) (v : Bool) :
    (s.setLocalNodeRun v).m_nodeAddress = s.m_nodeAddress
      ∧ (s.setLocalNodeRun v).m_remoteNodePort = s.m_remoteNodePort
      ∧ (s.setLocalNodeRun v).m_localNodeRun = v
      ∧ (s.setLocalNodeRun v).m_localNodePort = s.m_localNodePort
      ∧ (s.setLocalNodeRun v).m_localNodePeers = s.m_localNodePeers
      ∧ (s.setLocalNodeRun v).m_settings = s.m_settings := by
  unfold setLocalNodeRun
  dsimp only [SettingsViewModel.emit]
  split_ifs with h1 h2
  · exact ⟨rfl, rfl, rfl, rfl, rfl, rfl⟩
  · exact ⟨rfl, rfl, rfl, rfl, rfl, rfl⟩
  · refine ⟨rfl, rfl, ?_, rfl, rfl, rfl⟩
    exact Eq.symm (by simpa using h1)

theorem setLocalNodePort_fields (s : SettingsViewModel) (v : QString) :
    (s.setLocalNodePort v).m_nodeAddress = s.m_nodeAddress
      ∧ (s.setLocalNodePort v).m_remoteNodePort = s.m_remoteNodePort
      ∧ (s.setLocalNodePort v).m_localNodeRun = s.m_localNodeRun
      ∧ (s.setLocalNodePort v).m_localNodePort = v
      ∧ (s.setLocalNodePort v).m_localNodePeers = s.m_localNodePeers
      ∧ (s.setLocalNodePort v).m_settings = s.m_settings := by
  unfold setLocalNodePort
  dsimp only [SettingsViewModel.emit]
  split_ifs with h1
  · exact ⟨rfl, rfl, rfl, rfl, rfl, rfl⟩
  · refine ⟨rfl, rfl, rfl, ?_, rfl, rfl⟩
    exact Eq.symm (by simpa using h1)

theorem setLocalNodePeers_fields (s : SettingsViewModel) (v : List QString) :
    (s.setLocalNodePeers v).m_nodeAddress = s.m_nodeAddress
      ∧ (s.setLocalNodePeers v).m_remoteNodePort = s.m_remoteNodePort
      ∧ (s.setLocalNodePeers v).m_localNodeRun = s.m_localNodeRun
      ∧ (s.setLocalNodePeers v).m_localNodePort = s.m_localNodePort
      ∧ (s.setLocalNodePeers v).m_localNodePeers = v
      ∧ (s.setLocalNodePeers v).m_settings = s.m_settings :=
  ⟨rfl, rfl, rfl, rfl, rfl, rfl⟩

theorem undoChanges_fields (s : SettingsViewModel) :
    (s.undoChanges).m_nodeAddress = (parseAddress s.m_settings.nodeAddress).address
      ∧ (s.undoChanges).m_remoteNodePort
          = (if portGreaterZero (parseAddress s.m_settings.nodeAddress).port then
              (parseAddress s.m_settings.nodeAddress).port
             else s.m_remoteNodePort)
      ∧ (s.undoChanges).m_localNodeRun = s.m_settings.runLocalNode
      ∧ (s.undoChanges).m_localNodePort = formatPort s.m_settings.localNodePort
      ∧ (s.undoChanges).m_localNodePeers = s.m_settings.localNodePeers
      ∧ (s.undoChanges).m_settings = s.m_settings := by
  unfold undoChanges
  dsimp only []
  split_ifs <;>
  simp only [fun s v => (setLocalNodePeers_fields s v).1,
    fun s v => (setLocalNodePeers_fields s v).2.1,
    fun s v => (setLocalNodePeers_fields s v).2.2.1,
    fun s v => (setLocalNodePeers_fields s v).2.2.2.1,
    fun s v => (setLocalNodePeers_fields s v).2.2.2.2.1,
    fun s v => (setLocalNodePeers_fields s v).2.2.2.2.2,
    fun s v => (setLocalNodePort_fields s v).1,
    fun s v => (setLocalNodePort_fields s v).2.1,
    fun s v => (setLocalNodePort_fields s v).2.2.1,
    fun s v => (setLocalNodePort_fields s v).2.2.2.1,
    fun s v => (setLocalNodePort_fields s v).2.2.2.2.2,
    fun s v => (setLocalNodeRun_fields s v).1,
    fun s v => (setLocalNodeRun_fields s v).2.1,
    fun s v => (setLocalNodeRun_fields s v).2.2.1,
    fun s v => (setLocalNodeRun_fields s v).2.2.2.2.2,
    fun s v => (setRemoteNodePort_fields s v).1,
    fun s v => (setRemoteNodePort_fields s v).2.1,
    fun s v => (setRemoteNodePort_fields s v).2.2.2.2.2,
    fun s v => (setNodeAddress_fields s v).1,
    fun s v => (setNodeAddress_fields s v).2.1,
    fun s v => (setNodeAddress_fields s v).2.2.2.2.2, and_self]

/-- Counterexample to C9 as stated: for the stored node address "localhost"
(no port part), for the stored local node port 70000 (which does not fit the
16 bits of `formatPort`), and for the stored node address "%1:8101" (whose
address part is a place marker of `formatAddress`, which then gives
"8101:%2"), `isNodeChanged()` is still true after `undoChanges()`. -/
theorem undoChanges_counterexample :
    ((SettingsViewModel.init (sampleSettings hostOnly 10005) []).undoChanges).isNodeChanged
        = true
      ∧ ((SettingsViewModel.init (sampleSettings hostAndPort 70000) []).undoChanges).isNodeChanged
        = true
      ∧ ((SettingsViewModel.init (sampleSettings markerHostAndPort 10005)
          []).undoChanges).isNodeChanged = true := by
  decide

/-- Claim C9, amended.  When the stored node address contains a colon followed
by a non-empty port text, its address part (the text before the first colon)
contains no '%', and the stored local node port is below 2^16, then after
`undoChanges()` the view-model mirrors the stored settings and
`isNodeChanged()` is false, for every stored flag and peers list and every
prior state of the view-model. -/
theorem undoChanges_mirrors_stored (s : SettingsViewModel)
    (hsep : ':' ∈ s.m_settings.nodeAddress)
    (hport : (parseAddress s.m_settings.nodeAddress).port ≠ [])
    (hmarker : '%' ∉ (parseAddress s.m_settings.nodeAddress).address)
    (hlocal : s.m_settings.localNodePort < 2 ^ 16) :
    (s.undoChanges).isNodeChanged = false := by
  obtain ⟨h1, h2, h3, h4, h5, h6⟩ := undoChanges_fields s
  have hp : portGreaterZero (parseAddress s.m_settings.nodeAddress).port = true := by
    cases hq : (parseAddress s.m_settings.nodeAddress).port with
    | nil => exact absurd hq hport
    | cons a t => rfl
  rw [if_pos hp] at h2
  unfold isNodeChanged
  rw [h1, h2, h3, h4, h5, h6, parseAddress_format _ hsep hmarker, formatPort_toInt hlocal]
  simp

/-- Witness for C9: stored address "localhost:8101" and local port 10005. -/
theorem undoChanges_mirrors_stored_witness :
    ((SettingsViewModel.init (sampleSettings hostAndPort 10005) []).undoChanges).isNodeChanged
      = false :=
  undoChanges_mirrors_stored (SettingsViewModel.init (sampleSettings hostAndPort 10005) [])
    (by decide) (by decide) (by decide) (by decide)

/-! ### SwapCoinSettingsItem: connection error messages -/

/-- Claim C10.  `getConnectionErrorMsg()` maps InvalidCredentials, IOError and
InvalidGenesisBlock to the messages of the ids swap-invalid-credentials-error,
swap-connection-error and swap-invalid-genesis-block-error, which are pairwise
distinct (as ids, and as messages whenever the translation keeps the three
apart, for instance when it returns the id itself), and every other error to
the empty string. -/
theorem getConnectionErrorMsg_map (qtTrId : String → QString) :
    SwapCoinSettingsItem.getConnectionErrorMsg qtTrId ErrorType.InvalidCredentials
        = qtTrId "swap-invalid-credentials-error"
      ∧ SwapCoinSettingsItem.getConnectionErrorMsg qtTrId ErrorType.IOError
        = qtTrId "swap-connection-error"
      ∧ SwapCoinSettingsItem.getConnectionErrorMsg qtTrId ErrorType.InvalidGenesisBlock
        = qtTrId "swap-invalid-genesis-block-error"
      ∧ (∀ code, SwapCoinSettingsItem.getConnectionErrorMsg qtTrId (ErrorType.other code) = [])
      ∧ ("swap-invalid-credentials-error" ≠ "swap-connection-error"
          ∧ "swap-invalid-credentials-error" ≠ "swap-invalid-genesis-block-error"
          ∧ "swap-connection-error" ≠ "swap-invalid-genesis-block-error")
      ∧ (SwapCoinSettingsItem.getConnectionErrorMsg String.toList ErrorType.InvalidCredentials
            ≠ SwapCoinSettingsItem.getConnectionErrorMsg String.toList ErrorType.IOError
          ∧ SwapCoinSettingsItem.getConnectionErrorMsg String.toList ErrorType.InvalidCredentials
            ≠ SwapCoinSettingsItem.getConnectionErrorMsg String.toList
                ErrorType.InvalidGenesisBlock
          ∧ SwapCoinSettingsItem.getConnectionErrorMsg String.toList ErrorType.IOError
            ≠ SwapCoinSettingsItem.getConnectionErrorMsg String.toList
                ErrorType.InvalidGenesisBlock) := by
  refine ⟨rfl, rfl, rfl, fun _ => rfl, by decide, by decide⟩

/-! ### SwapCoinSettingsItem: connection status -/

/-- Claim C11.  `getConnectionStatus()` is a total map from the client status
to one of four strings: Uninitialized gives "uninitialized", Initialized and
Connecting give "disconnected", Connected gives "connected", Failed, Unknown
and every other value give "error"; it returns "connected" exactly when the
status is Connected. -/
theorem getConnectionStatus_map :
    SwapCoinSettingsItem.getConnectionStatus ClientStatus.Uninitialized = "uninitialized".toList
      ∧ SwapCoinSettingsItem.getConnectionStatus ClientStatus.Initialized = "disconnected".toList
      ∧ SwapCoinSettingsItem.getConnectionStatus ClientStatus.Connecting = "disconnected".toList
      ∧ SwapCoinSettingsItem.getConnectionStatus ClientStatus.Connected = "connected".toList
      ∧ SwapCoinSettingsItem.getConnectionStatus ClientStatus.Failed = "error".toList
      ∧ SwapCoinSettingsItem.getConnectionStatus ClientStatus.Unknown = "error".toList
      ∧ (∀ code, SwapCoinSettingsItem.getConnectionStatus (ClientStatus.other code)
          = "error".toList)
      ∧ (∀ status, SwapCoinSettingsItem.getConnectionStatus status
          ∈ ["uninitialized".toList, "disconnected".toList, "connected".toList, "error".toList])
      ∧ (∀ status, SwapCoinSettingsItem.getConnectionStatus status = "connected".toList
          ↔ status = ClientStatus.Connected) := by
  refine ⟨rfl, rfl, rfl, rfl, rfl, rfl, fun _ => rfl, ?_, ?_⟩
  · intro status
    cases status <;> simp [SwapCoinSettingsItem.getConnectionStatus]
  · intro status
    cases status <;> simp [SwapCoinSettingsItem.getConnectionStatus]

/-! ### QMLGlobals: swap clients -/

/-- An activated client of one of the six swap currencies makes `canSwap()` true. -/
theorem haveSwapClient_canSwap (clients : SwapCoinClients) (c : Currency)
    (hc : c ∈ [Currency.CurrBitcoin, Currency.CurrLitecoin, Currency.CurrQtum,
      Currency.CurrBitcoinCash, Currency.CurrDash, Currency.CurrDogecoin])
    (h : QMLGlobals.haveSwapClient clients c = true) : QMLGlobals.canSwap clients = true := by
  simp only [List.mem_cons, List.mem_singleton, List.not_mem_nil, or_false] at hc
  unfold QMLGlobals.canSwap
  rcases hc with hc | hc | hc | hc | hc | hc <;> subst hc <;> simp [h]

/-- Claim C12.  `canReceive(CurrBeam)` is true whatever the swap clients are; for
each of the six swap currencies c, `canReceive(c)` holds exactly when the client
of `convertCurrencyToSwapCoin(c)` is activated and its status is Connected, and
then `haveSwapClient(c)` and `canSwap()` hold too. -/
theorem canReceive_spec (clients : SwapCoinClients) :
    QMLGlobals.canReceive clients Currency.CurrBeam = true
      ∧ ∀ c ∈ [Currency.CurrBitcoin, Currency.CurrLitecoin, Currency.CurrQtum,
          Currency.CurrBitcoinCash, Currency.CurrDash, Currency.CurrDogecoin],
        (QMLGlobals.canReceive clients c = true ↔
            (clients (convertCurrencyToSwapCoin c)).IsActivated = true
              ∧ (clients (convertCurrencyToSwapCoin c)).status = ClientStatus.Connected)
          ∧ (QMLGlobals.canReceive clients c = true →
              QMLGlobals.haveSwapClient clients c = true
                ∧ QMLGlobals.canSwap clients = true) := by
  refine ⟨rfl, ?_⟩
  intro c hc
  have hne : ¬ Currency.CurrBeam = c := by
    intro h
    subst h
    simp at hc
  have hiff : QMLGlobals.canReceive clients c = true ↔
      (clients (convertCurrencyToSwapCoin c)).IsActivated = true
        ∧ (clients (convertCurrencyToSwapCoin c)).status = ClientStatus.Connected := by
    unfold QMLGlobals.canReceive
    simp [hne]
  refine ⟨hiff, fun h => ?_⟩
  have hact : QMLGlobals.haveSwapClient clients c = true := (hiff.mp h).1
  exact ⟨hact, haveSwapClient_canSwap clients c hc hact⟩

/-! ### QMLGlobals: validation -/

/-- Claim C13.  `isTAValid(t)` equals `isTransactionToken(t) || isAddress(t)` for
every text; `isTransactionToken("")` is false whatever the engine's parser
would answer; for a non-empty text it is true exactly when the engine parses
the text into parameters that hold a TransactionType. -/
theorem isTAValid_spec (e : Engine) :
    (∀ t, QMLGlobals.isTAValid e t
        = (QMLGlobals.isTransactionToken e t || QMLGlobals.isAddress e t))
      ∧ (∀ e2 : Engine, QMLGlobals.isTransactionToken e2 [] = false)
      ∧ (∀ t, t ≠ [] →
          (QMLGlobals.isTransactionToken e t = true ↔
            ∃ params, e.ParseParameters t = some params
              ∧ (params.getTxType TxParameterID.TransactionType).isSome = true)) := by
  refine ⟨fun _ => rfl, fun _ => rfl, ?_⟩
  intro t ht
  have hne : t.isEmpty = false := by
    cases t with
    | nil => exact absurd rfl ht
    | cons a l => rfl
  unfold QMLGlobals.isTransactionToken
  simp only [hne, Bool.false_eq_true, if_false]
  cases hp : e.ParseParameters t with
  | none => simp
  | some params => simp

/-! ### SendViewModel: simple property setters -/

theorem effects_append_nil_eta (s : SendViewModel) :
    { s with effects := s.effects ++ [] } = s := by
  cases s
  simp

/-- Claim C14.  For each simple property setter of SendViewModel (setComment,
setIsPermanentAddress, setOfflinePayments, setIsOffline, setIsMaxPrivacy,
setIsPublicOffline, setIsToken): after set(v) the getter returns v; the
property's change signal is appended to the effects exactly when v differs from
the stored value (setOfflinePayments then also emits canSendChanged); and the
new state differs from the old one in that property and the effects only. -/
theorem simple_setters_spec (s : SendViewModel) :
    (∀ v, (s.setComment v).getComment = v
        ∧ s.setComment v = { s with
            _comment := v
            effects := s.effects
              ++ (if s._comment ≠ v then [Effect.signal Signal.commentChanged] else []) })
      ∧ (∀ v, (s.setIsPermanentAddress v).isPermanentAddress = v
        ∧ s.setIsPermanentAddress v = { s with
            _isPermanentAddress := v
            effects := s.effects
              ++ (if s._isPermanentAddress ≠ v then
                    [Effect.signal Signal.isPermanentAddressChanged] else []) })
      ∧ (∀ v, (s.setOfflinePayments v).getOfflinePayments = v
        ∧ s.setOfflinePayments v = { s with
            _offlinePayments := v
            effects := s.effects
              ++ (if s._offlinePayments ≠ v then
                    [Effect.signal Signal.offlinePaymentsChanged,
                     Effect.signal Signal.canSendChanged] else []) })
      ∧ (∀ v, (s.setIsOffline v).isOffline = v
        ∧ s.setIsOffline v = { s with
            _isOffline := v
            effects := s.effects
              ++ (if s._isOffline ≠ v then [Effect.signal Signal.isOfflineChanged] else []) })
      ∧ (∀ v, (s.setIsMaxPrivacy v).isMaxPrivacy = v
        ∧ s.setIsMaxPrivacy v = { s with
            _isMaxPrivacy := v
            effects := s.effects
              ++ (if s._isMaxPrivacy ≠ v then [Effect.signal Signal.isMaxPrivacyChanged]
                  else []) })
      ∧ (∀ v, (s.setIsPublicOffline v).isPublicOffline = v
        ∧ s.setIsPublicOffline v = { s with
            _isPublicOffline := v
            effects := s.effects
              ++ (if s._isPublicOffline ≠ v then [Effect.signal Signal.isPublicOfflineChanged]
                  else []) })
      ∧ (∀ v, (s.setIsToken v).isToken = v
        ∧ s.setIsToken v = { s with
            _isToken := v
            effects := s.effects
              ++ (if s._isToken ≠ v then [Effect.signal Signal.tokenChanged] else []) }) := by
  refine ⟨?_, ?_, ?_, ?_, ?_, ?_, ?_⟩ <;> intro v
  · by_cases h : s._comment = v
    · subst h
      simp [setComment, getComment, effects_append_nil_eta]
    · simp [setComment, getComment, h, SendViewModel.emit]
  · by_cases h : s._isPermanentAddress = v
    · subst h
      simp [setIsPermanentAddress, isPermanentAddress, effects_append_nil_eta]
    · simp [setIsPermanentAddress, isPermanentAddress, h, SendViewModel.emit]
  · by_cases h : s._offlinePayments = v
    · subst h
      simp [setOfflinePayments, getOfflinePayments, effects_append_nil_eta]
    · simp [setOfflinePayments, getOfflinePayments, h, SendViewModel.emit]
  · by_cases h : s._isOffline = v
    · subst h
      simp [setIsOffline, isOffline, effects_append_nil_eta]
    · simp [setIsOffline, isOffline, h, SendViewModel.emit]
  · by_cases h : s._isMaxPrivacy = v
    · subst h
      simp [setIsMaxPrivacy, isMaxPrivacy, effects_append_nil_eta]
    · simp [setIsMaxPrivacy, isMaxPrivacy, h, SendViewModel.emit]
  · by_cases h : s._isPublicOffline = v
    · subst h
      simp [setIsPublicOffline, isPublicOffline, effects_append_nil_eta]
    · simp [setIsPublicOffline, isPublicOffline, h, SendViewModel.emit]
  · by_cases h : s._isToken = v
    · subst h
      simp [setIsToken, isToken, effects_append_nil_eta]
    · simp [setIsToken, isToken, h, SendViewModel.emit]

/-! ### UTXO display records -/

/-- Claim C15.  `UtxoItem::status()` and `ShieldedCoinItem::status()` map the six
coin states Available, Maturing, Unavailable, Outgoing, Incoming, Spent to the
view state of the same name, except that a shielded coin's Maturing gives
MaturingMP; on these six states each map is injective and never gives
Undefined. -/
theorem status_maps :
    UtxoItem.status CoinStatus.Available = UtxoViewStatus.Available
      ∧ UtxoItem.status CoinStatus.Maturing = UtxoViewStatus.Maturing
      ∧ UtxoItem.status CoinStatus.Unavailable = UtxoViewStatus.Unavailable
      ∧ UtxoItem.status CoinStatus.Outgoing = UtxoViewStatus.Outgoing
      ∧ UtxoItem.status CoinStatus.Incoming = UtxoViewStatus.Incoming
      ∧ UtxoItem.status CoinStatus.Spent = UtxoViewStatus.Spent
      ∧ ShieldedCoinItem.status CoinStatus.Available = UtxoViewStatus.Available
      ∧ ShieldedCoinItem.status CoinStatus.Maturing = UtxoViewStatus.MaturingMP
      ∧ ShieldedCoinItem.status CoinStatus.Unavailable = UtxoViewStatus.Unavailable
      ∧ ShieldedCoinItem.status CoinStatus.Outgoing = UtxoViewStatus.Outgoing
      ∧ ShieldedCoinItem.status CoinStatus.Incoming = UtxoViewStatus.Incoming
      ∧ ShieldedCoinItem.status CoinStatus.Spent = UtxoViewStatus.Spent
      ∧ (∀ a ∈ [CoinStatus.Available, CoinStatus.Maturing, CoinStatus.Unavailable,
            CoinStatus.Outgoing, CoinStatus.Incoming, CoinStatus.Spent],
          UtxoItem.status a ≠ UtxoViewStatus.Undefined
            ∧ ShieldedCoinItem.status a ≠ UtxoViewStatus.Undefined
            ∧ ∀ b ∈ [CoinStatus.Available, CoinStatus.Maturing, CoinStatus.Unavailable,
                CoinStatus.Outgoing, CoinStatus.Incoming, CoinStatus.Spent],
              (UtxoItem.status a = UtxoItem.status b → a = b)
                ∧ (ShieldedCoinItem.status a = ShieldedCoinItem.status b → a = b)) := by
  refine ⟨rfl, rfl, rfl, rfl, rfl, rfl, rfl, rfl, rfl, rfl, rfl, rfl, ?_⟩
  decide

/-- Counterexample to C16 as stated: a coin that matures 3932160 blocks (65536
hours) after the current height 0 has `rawMaturityTimeLeft()` = 0, not 65536;
the quotient does not fit the `uint16_t` result. -/
theorem rawMaturityTimeLeft_counterexample :
    UtxoItem.rawMaturityTimeLeft 0 3932160 = 0 ∧ (3932160 - 0) / 60 = 65536 := by
  decide

/-- Claim C16, amended.  `rawMaturityTimeLeft()` is 0 when the current height is
at or above the coin's maturity height, and otherwise
floor((maturity - currentHeight) / 60) reduced modulo 2^16; it is
floor((maturity - currentHeight) / 60) itself whenever that quotient is below
2^16. -/
theorem rawMaturityTimeLeft_spec (currentHeight maturity : Nat) :
    (maturity ≤ currentHeight → UtxoItem.rawMaturityTimeLeft currentHeight maturity = 0)
      ∧ (currentHeight < maturity → maturity < AMOUNT_RANGE →
          UtxoItem.rawMaturityTimeLeft currentHeight maturity
            = ((maturity - currentHeight) / 60) % 2 ^ 16)
      ∧ (currentHeight < maturity → maturity < AMOUNT_RANGE →
          (maturity - currentHeight) / 60 < 2 ^ 16 →
          UtxoItem.rawMaturityTimeLeft currentHeight maturity
            = (maturity - currentHeight) / 60) := by
  have hsub : currentHeight < maturity → maturity < AMOUNT_RANGE →
      amountSub maturity currentHeight = maturity - currentHeight := by
    intro h1 h2
    unfold amountSub AMOUNT_RANGE at *
    omega
  refine ⟨?_, ?_, ?_⟩
  · intro h
    simp [UtxoItem.rawMaturityTimeLeft, Nat.not_lt.mpr h]
  · intro h1 h2
    simp [UtxoItem.rawMaturityTimeLeft, h1, hsub h1 h2]
  · intro h1 h2 h3
    simp only [UtxoItem.rawMaturityTimeLeft, h1, if_true, hsub h1 h2]
    exact Nat.mod_eq_of_lt h3

/-! ### QMLGlobals: rounding decimal texts -/

theorem splitAux_no_delim (delim : Char) (s : List Char) (h : delim ∉ s) (cur : List Char) :
    splitAux delim s cur
      = if (cur.reverse ++ s).isEmpty then [] else [cur.reverse ++ s] := by
  induction s generalizing cur with
  | nil =>
    cases cur with
    | nil => rfl
    | cons a t => simp [splitAux]
  | cons a t ih =>
    have ha : (a == delim) = false := by
      rw [beq_eq_false_iff_ne]
      exact fun e => h (by simp [e])
    have ht : delim ∉ t := fun e => h (List.mem_cons_of_mem a e)
    simp only [splitAux, ha, Bool.false_eq_true, if_false]
    rw [ih ht]
    simp

theorem splitAux_at_delim (delim : Char) (A rest : List Char) (h : delim ∉ A)
    (cur : List Char) :
    splitAux delim (A ++ delim :: rest) cur = (cur.reverse ++ A) :: splitAux delim rest [] := by
  induction A generalizing cur with
  | nil => simp [splitAux]
  | cons a t ih =>
    have ha : (a == delim) = false := by
      rw [beq_eq_false_iff_ne]
      exact fun e => h (by simp [e])
    have ht : delim ∉ t := fun e => h (List.mem_cons_of_mem a e)
    rw [List.cons_append]
    simp only [splitAux, ha, Bool.false_eq_true, if_false]
    rw [ih ht]
    simp

theorem split_no_delim (delim : Char) (s : List Char) (h : delim ∉ s) (hs : s ≠ []) :
    split s delim = [s] := by
  unfold split
  rw [splitAux_no_delim delim s h []]
  cases s with
  | nil => exact absurd rfl hs
  | cons a t => simp

theorem split_two (delim : Char) (A B : List Char) (hA : delim ∉ A) (hB : delim ∉ B) :
    split (A ++ delim :: B) delim = if B.isEmpty then [A] else [A, B] := by
  unfold split
  rw [splitAux_at_delim delim A B hA [], splitAux_no_delim delim B hB []]
  cases B with
  | nil => simp
  | cons a t => simp

theorem rdropWhile_of_all_false (p : Char → Bool) (l : List Char)
    (h : ∀ c ∈ l, p c = false) : l.rdropWhile p = l := by
  rw [List.rdropWhile_eq_self_iff]
  intro hl
  have := h (l.getLast hl) (List.getLast_mem hl)
  simp [this]

theorem rdropWhile_append_cons (p : Char → Bool) (X F : List Char) (d : Char)
    (hd : p d = false) :
    (X ++ d :: F).rdropWhile p = X ++ d :: F.rdropWhile p := by
  induction F using List.reverseRecOn with
  | nil =>
    have : X ++ [d] = (X ++ [d]) := rfl
    rw [List.rdropWhile_nil, List.rdropWhile_concat_neg _ _ _ (by simp [hd])]
  | append_singleton F a ih =>
    have hassoc : X ++ d :: (F ++ [a]) = (X ++ d :: F) ++ [a] := by simp
    rw [hassoc, List.rdropWhile_concat, List.rdropWhile_concat, ih]
    split_ifs <;> simp

theorem decimalChars_not_point : ∀ c ∈ decimalChars, c ≠ '.' := by decide

theorem point_not_mem_decimal (l : List Char) (h : ∀ c ∈ l, c ∈ decimalChars) : '.' ∉ l :=
  fun hm => decimalChars_not_point '.' (h '.' hm) rfl

/-- The two trimming steps of `roundWithPrecision` on a text `A.F` whose
fraction `F` is made of digits and whose part `A` has no point. -/
theorem trim_fraction (A F : List Char) (hA : '.' ∉ A)
    (hF : ∀ c ∈ F, c ∈ decimalChars) :
    trim_right_if (trim_right_if (A ++ ['.'] ++ F) (char_is '0')) (char_is '.') = A
      ∨ ∃ G, trim_right_if (trim_right_if (A ++ ['.'] ++ F) (char_is '0')) (char_is '.')
            = A ++ '.' :: G
          ∧ G ≠ [] ∧ G.length ≤ F.length ∧ (∀ c ∈ G, c ∈ decimalChars)
          ∧ G.getLast? ≠ some '0' := by
  have hpoint0 : char_is '0' '.' = false := by decide
  have hstep : trim_right_if (A ++ ['.'] ++ F) (char_is '0')
      = A ++ '.' :: F.rdropWhile (char_is '0') := by
    unfold trim_right_if
    rw [List.append_assoc]
    exact rdropWhile_append_cons _ A F '.' hpoint0
  rw [hstep]
  have hpre : F.rdropWhile (char_is '0') <+: F := List.rdropWhile_prefix _ _
  have hGd : ∀ c ∈ F.rdropWhile (char_is '0'), c ∈ decimalChars :=
    fun c hc => hF c (hpre.subset hc)
  by_cases hG : F.rdropWhile (char_is '0') = []
  · left
    rw [hG]
    unfold trim_right_if
    have : A ++ ['.'] = A ++ ['.'] := rfl
    rw [List.rdropWhile_concat_pos _ _ _ (by decide)]
    exact rdropWhile_of_all_false _ A (fun c hc => by
      have : c ≠ '.' := fun e => hA (e ▸ hc)
      simpa [char_is] using this)
  · right
    refine ⟨F.rdropWhile (char_is '0'), ?_, hG, hpre.length_le, hGd, ?_⟩
    · unfold trim_right_if
      rw [List.rdropWhile_eq_self_iff]
      intro hl
      have hlast : (A ++ '.' :: F.rdropWhile (char_is '0')).getLast hl
          = (F.rdropWhile (char_is '0')).getLast hG := by
        rw [List.getLast_append' _ _ (by simp)]
        exact List.getLast_cons hG
      rw [hlast]
      have hmem := hGd _ (List.getLast_mem hG)
      have := decimalChars_not_point _ hmem
      simpa [char_is] using this
    · intro hlast
      have hnot := List.rdropWhile_last_not (char_is '0') F hG
      rw [List.getLast?_eq_getLast _ hG] at hlast
      have heq : (F.rdropWhile (char_is '0')).getLast hG = '0' := Option.some.inj hlast
      rw [heq] at hnot
      exact hnot (by decide)

/-- Counterexample to C17 as stated: the empty text contains no '.', yet
`roundWithPrecision8` does not return it, whatever the decimal library:
`split` finds no part in it and `parts[0]` is read from an empty vector. -/
theorem roundWithPrecision8_counterexample :
    '.' ∉ ([] : List Char)
      ∧ QMLGlobals.roundWithPrecision8 exactDecimal [] = none
      ∧ ¬ ∃ lib : DecFloat, QMLGlobals.roundWithPrecision8 lib [] = some [] := by
  refine ⟨by simp, rfl, ?_⟩
  rintro ⟨lib, h⟩
  simp [QMLGlobals.roundWithPrecision8, roundWithPrecision, split, splitAux] at h

/-- Claim C17, amended.  Provided the decimal library prints a fraction `0.B`
with fixed precision 8 as a text with a point followed by exactly 8 digits:
for every text `A.B` with exactly one point and digits `B` after it,
`roundWithPrecision8` returns either `A` (no point at all) or `A.G` where `G`
has between 1 and 8 digits and does not end in '0', so the result never ends in
'0' after the point nor in '.'; and a non-empty text without a point is
returned unchanged. -/
theorem roundWithPrecision8_format (lib : DecFloat)
    (hfixed : ∀ B : List Char, B ≠ [] → (∀ c ∈ B, c ∈ decimalChars) →
      ∃ x I F, lib.ofText (['0', '.'] ++ B) = some x ∧ lib.fixed x 8 = I ++ '.' :: F
        ∧ '.' ∉ I ∧ F.length = 8 ∧ ∀ c ∈ F, c ∈ decimalChars) :
    (∀ A B : List Char, '.' ∉ A → (∀ c ∈ B, c ∈ decimalChars) →
        ∃ r, QMLGlobals.roundWithPrecision8 lib (A ++ '.' :: B) = some r
          ∧ (r = A ∨ ∃ G, r = A ++ '.' :: G ∧ G ≠ [] ∧ G.length ≤ 8
              ∧ (∀ c ∈ G, c ∈ decimalChars) ∧ G.getLast? ≠ some '0'))
      ∧ (∀ s : List Char, s ≠ [] → '.' ∉ s →
          QMLGlobals.roundWithPrecision8 lib s = some s) := by
  constructor
  · intro A B hA hB
    have hAp := hA
    have hBp := point_not_mem_decimal B hB
    unfold QMLGlobals.roundWithPrecision8 roundWithPrecision kBTCDecimalPlaces
    simp only [split_two '.' A B hAp hBp]
    by_cases hBne : B = []
    · subst hBne
      exact ⟨A, by simp, Or.inl rfl⟩
    · obtain ⟨x, I, F, hx, hfx, hI, hlen, hFd⟩ := hfixed B hBne hB
      have hFp := point_not_mem_decimal F hFd
      have hFne : F ≠ [] := by
        intro h
        rw [h] at hlen
        simp at hlen
      have hsplit : split (I ++ '.' :: F) '.' = [I, F] := by
        rw [split_two '.' I F hI hFp]
        cases F with
        | nil => exact absurd rfl hFne
        | cons a l => rfl
      have hB2 : B.isEmpty = false := by
        cases B with
        | nil => exact absurd rfl hBne
        | cons a l => rfl
      simp only [hB2, Bool.false_eq_true, if_false, hx, hfx, hsplit]
      rcases trim_fraction A F hA hFd with h | ⟨G, hG, hGne, hGlen, hGd, hGlast⟩
      · exact ⟨_, rfl, Or.inl h⟩
      · exact ⟨_, rfl, Or.inr ⟨G, hG, hGne, by omega, hGd, hGlast⟩⟩
  · intro s hs hp
    unfold QMLGlobals.roundWithPrecision8 roundWithPrecision
    simp only [split_no_delim '.' s hp hs]

theorem decimalChars_digitValue : ∀ c ∈ decimalChars, (digitValue c).isSome = true := by
  decide

theorem parseDigits_decimal (l : List Char) (h : ∀ c ∈ l, c ∈ decimalChars) :
    ∀ acc, ∃ n, parseDigits l acc = some n := by
  induction l with
  | nil => exact fun acc => ⟨acc, rfl⟩
  | cons a t ih =>
    intro acc
    have ha := decimalChars_digitValue a (h a (List.mem_cons_self a t))
    obtain ⟨d, hd⟩ := Option.isSome_iff_exists.mp ha
    have ht : ∀ c ∈ t, c ∈ decimalChars := fun c hc => h c (List.mem_cons_of_mem a hc)
    obtain ⟨n, hn⟩ := ih ht (acc * 10 + d)
    exact ⟨n, by simp [parseDigits, hd, hn]⟩

theorem fracDigits_length (p v : Nat) : (fracDigits p v).length = p := by
  induction p generalizing v with
  | zero => rfl
  | succ p ih => simp [fracDigits, ih]

theorem fracDigits_mem (p v : Nat) : ∀ c ∈ fracDigits p v, c ∈ decimalChars := by
  induction p generalizing v with
  | zero => intro c hc; simp [fracDigits] at hc
  | succ p ih =>
    intro c hc
    simp only [fracDigits, List.mem_append, List.mem_singleton] at hc
    rcases hc with hc | hc
    · exact ih _ c hc
    · rw [hc]
      exact digitChar_mem_decimalChars (Nat.mod_lt _ (by decide))

/-- The sample decimal library prints every fraction `0.B` with exactly 8
digits after the point. -/
theorem exactDecimal_fixed_shape (B : List Char) (_hB : B ≠ [])
    (hd : ∀ c ∈ B, c ∈ decimalChars) :
    ∃ x I F, exactDecimal.ofText (['0', '.'] ++ B) = some x
      ∧ exactDecimal.fixed x 8 = I ++ '.' :: F
      ∧ '.' ∉ I ∧ F.length = 8 ∧ ∀ c ∈ F, c ∈ decimalChars := by
  have hall : ∀ c ∈ '0' :: B, c ∈ decimalChars := by
    intro c hc
    rcases List.mem_cons.mp hc with h | h
    · rw [h]; decide
    · exact hd c h
  obtain ⟨n, hn⟩ := parseDigits_decimal ('0' :: B) hall 0
  have hidx : indexOf (['0', '.'] ++ B) '.' = 1 := by
    simp [indexOf]
  have hparse : exactDecimal.ofText (['0', '.'] ++ B) = some (n, B.length) := by
    show parseDecimal (['0', '.'] ++ B) = some (n, B.length)
    unfold parseDecimal
    simp only [hidx]
    simp [hn]
  refine ⟨(n, B.length), _, _, hparse, rfl, ?_, fracDigits_length _ _, fracDigits_mem _ _⟩
  intro hmem
  have := toDigits_mem _ '.' hmem
  revert this
  decide

/-- Witness for C17: with the sample decimal library, "1.250" is rounded to a
text of the stated form and "12" is returned unchanged. -/
theorem roundWithPrecision8_format_witness :
    (∃ r, QMLGlobals.roundWithPrecision8 exactDecimal ("1".toList ++ '.' :: "250".toList) = some r
        ∧ (r = "1".toList ∨ ∃ G, r = "1".toList ++ '.' :: G ∧ G ≠ [] ∧ G.length ≤ 8
              ∧ (∀ c ∈ G, c ∈ decimalChars) ∧ G.getLast? ≠ some '0'))
      ∧ QMLGlobals.roundWithPrecision8 exactDecimal "12".toList = some "12".toList :=
  ⟨(roundWithPrecision8_format exactDecimal exactDecimal_fixed_shape).1 "1".toList "250".toList
      (by decide) (by decide),
   (roundWithPrecision8_format exactDecimal exactDecimal_fixed_shape).2 "12".toList
      (by decide) (by decide)⟩

/-! ### QMLGlobals: amounts in the second currency -/

/-- The cases of `calcAmountInSecondCurrency(amount, rate, label)`: the empty
text when the rate is empty or "0", and when no line of the currency table has
the short label `label`; otherwise `multiplyWithPrecision(amount, rate, dec)`
for the first line whose short label is `label`.
`calcFeeInSecondCurrency(fee, rate, label)` equals
`calcAmountInSecondCurrency(AmountToUIString(fee), rate, label)`. -/
theorem calcAmountInSecondCurrency_spec (ui : UiHelpers) (lib : DecFloat)
    (table : List CurrencyEntry) (amount rate label : QString) :
    ((rate = [] ∨ rate = ['0']) →
        QMLGlobals.calcAmountInSecondCurrency lib table amount rate label = some [])
      ∧ (rate ≠ [] → rate ≠ ['0'] → (∀ e ∈ table, e.slabel ≠ label) →
        QMLGlobals.calcAmountInSecondCurrency lib table amount rate label = some [])
      ∧ (rate ≠ [] → rate ≠ ['0'] →
        ∀ (before : List CurrencyEntry) (e : CurrencyEntry) (after : List CurrencyEntry),
          table = before ++ e :: after → (∀ b ∈ before, b.slabel ≠ label) →
          e.slabel = label →
          QMLGlobals.calcAmountInSecondCurrency lib table amount rate label
            = multiplyWithPrecision lib amount rate e.dec)
      ∧ (∀ fee : Int,
          QMLGlobals.calcFeeInSecondCurrency ui lib table fee rate label
            = QMLGlobals.calcAmountInSecondCurrency lib table
                (ui.AmountToUIString (intToAmount fee)) rate label) := by
  refine ⟨?_, ?_, ?_, fun _ => rfl⟩
  · intro h
    rcases h with h | h <;> simp [QMLGlobals.calcAmountInSecondCurrency, h]
  · intro h1 h2 hno
    have hfind : table.find? (fun e => e.slabel == label) = none := by
      rw [List.find?_eq_none]
      intro e he
      simpa using hno e he
    have hr : (rate.isEmpty || rate == ['0']) = false := by
      cases rate with
      | nil => exact absurd rfl h1
      | cons a l => simpa using h2
    simp only [QMLGlobals.calcAmountInSecondCurrency, hr, hfind, Bool.false_eq_true, if_false]
  · intro h1 h2 before e after htable hbefore he
    have hfind : table.find? (fun e => e.slabel == label) = some e := by
      rw [htable, List.find?_append]
      have hb : before.find? (fun e => e.slabel == label) = none := by
        rw [List.find?_eq_none]
        intro b hb
        simpa using hbefore b hb
      simp [hb, he]
    have hr : (rate.isEmpty || rate == ['0']) = false := by
      cases rate with
      | nil => exact absurd rfl h1
      | cons a l => simpa using h2
    simp only [QMLGlobals.calcAmountInSecondCurrency, hr, hfind, Bool.false_eq_true, if_false]

/-! ### QMLGlobals: the carry of a rounded product -/

/-- Claim C19 (fails when the fraction of the product rounds up to 1).  For a
currency table whose first line with the short label "USD" has 2 decimal
places, and a decimal library that reads "1" and "0.999", prints their product
with 50 fixed digits as "0.999" followed by 47 zeros, and prints that number
with 2 fixed digits as "1.00", `calcAmountInSecondCurrency("1", "0.999", "USD")`
is "0": the value of the result is 0, the product is 999 / 1000, and they
differ by more than 10^-2. -/
theorem calcAmountInSecondCurrency_drops_carry (lib : DecFloat) (table : List CurrencyEntry)
    (e : CurrencyEntry) (a b x : lib.Num)
    (hfind : table.find? (fun e => e.slabel == "USD".toList) = some e) (hdec : e.dec = 2)
    (ha : lib.ofText "1".toList = some a) (hb : lib.ofText "0.999".toList = some b)
    (hprod : lib.fixed (lib.mul a b) digits10 = "0.999".toList ++ List.replicate 47 '0')
    (hx : lib.ofText ("0.999".toList ++ List.replicate 47 '0') = some x)
    (hfixed : lib.fixed x 2 = "1.00".toList) :
    QMLGlobals.calcAmountInSecondCurrency lib table "1".toList "0.999".toList "USD".toList
        = some "0".toList
      ∧ decimalValue "0".toList = some 0
      ∧ (decimalValue "1".toList = some 1 ∧ decimalValue "0.999".toList = some (999 / 1000))
      ∧ ¬ (|(0 : ℚ) - 1 * (999 / 1000)| < 1 / 10 ^ 2) := by
  refine ⟨?_, ?_, ⟨?_, ?_⟩, ?_⟩
  · have hrate : (("0.999".toList).isEmpty || "0.999".toList == ['0']) = false := by decide
    have hsplit : split ("0.999".toList ++ List.replicate 47 '0') '.'
        = ["0".toList, "999".toList ++ List.replicate 47 '0'] := by decide
    have hjoin : ['0', '.'] ++ ("999".toList ++ List.replicate 47 '0')
        = "0.999".toList ++ List.replicate 47 '0' := by decide
    have hsplit2 : split "1.00".toList '.' = ["1".toList, "00".toList] := by decide
    have htrim : (("0".toList ++ ['.'] ++ "00".toList).rdropWhile (char_is '0')).rdropWhile
        (char_is '.') = "0".toList := by decide
    simp only [QMLGlobals.calcAmountInSecondCurrency, hrate, Bool.false_eq_true, if_false, hfind,
      multiplyWithPrecision, ha, hb, hprod, roundWithPrecision, hsplit, hjoin, hx, hdec, hfixed,
      hsplit2, trim_right_if, htrim]
  · have h : parseDecimal "0".toList = some (0, 0) := by decide
    simp only [decimalValue, h, Option.map_some']
    norm_num
  · have h : parseDecimal "1".toList = some (1, 0) := by decide
    simp only [decimalValue, h, Option.map_some']
    norm_num
  · have h : parseDecimal "0.999".toList = some (999, 3) := by decide
    simp only [decimalValue, h, Option.map_some']
    norm_num
  · norm_num [abs_of_nonneg]

/-- Witness for C19: the sample decimal library and the sample currency table,
whose line "USD" has 2 decimal places. -/
theorem calcAmountInSecondCurrency_drops_carry_witness :
    QMLGlobals.calcAmountInSecondCurrency exactDecimal sampleCurrencies "1".toList
        "0.999".toList "USD".toList = some "0".toList :=
  (calcAmountInSecondCurrency_drops_carry exactDecimal sampleCurrencies
    { name := "Usd", label := "USD".toList, slabel := "USD".toList,
      subunit := "cent".toList, feeLabel := [], dec := 2 }
    (1, 0) (999, 3) (999 * 10 ^ 47, 50)
    (by decide) rfl
    (show parseDecimal "1".toList = some (1, 0) by decide)
    (show parseDecimal "0.999".toList = some (999, 3) by decide)
    (show printFixed (1 * 999, 0 + 3) digits10
      = "0.999".toList ++ List.replicate 47 '0' by decide)
    (show parseDecimal ("0.999".toList ++ List.replicate 47 '0')
      = some (999 * 10 ^ 47, 50) by decide)
    (show printFixed (999 * 10 ^ 47, 50) 2 = "1.00".toList by decide)).1

/-! ### QMLGlobals: rounding up at one digit fewer -/

/-- Claim C20, evaluated on the code.  In `pendingApplyTrace` the apply is
remembered while the check of the new address is pending; the address-valid
flag is already true, so when the engine reports the new address as valid
`onAddressChecked` does nothing: the stored settings are still the old ones,
the pending-apply flag is still set and `isNodeChanged()` is still true.  In
`pendingApplyTraceInvalidBefore`, where the flag was false before, the same
report writes the remembered changes and clears the flag. -/
theorem pending_apply_lost :
    pendingApplyTrace.m_isValidNodeAddress = true
      ∧ pendingApplyTrace.m_nodeAddress = otherHost
      ∧ pendingApplyTrace.m_settings = sampleSettings hostAndPort 10005
      ∧ pendingApplyTrace.m_isNeedToApplyChanges = true
      ∧ pendingApplyTrace.isNodeChanged = true
      ∧ pendingApplyTraceInvalidBefore.m_settings.nodeAddress = otherHost ++ ":8101".toList
      ∧ pendingApplyTraceInvalidBefore.m_isNeedToApplyChanges = false
      ∧ pendingApplyTraceInvalidBefore.isNodeChanged = false := by
  decide

/-! ### ElectrumPhraseItem: change notification -/

/-- Claim C21 (fails for `applyChanges`).  An item constructed with the phrase
"abandon" whose value was set to "ability" is modified; `applyChanges()` makes
it unmodified and emits nothing.  In general `applyChanges()` on a modified
item changes `isModified` without any signal, whereas `setValue` and
`revertChanges` emit `isModifiedChanged` whenever they change `isModified`. -/
theorem applyChanges_no_isModifiedChanged :
    (((ElectrumPhraseItem.init 0 "abandon".toList).setValue "ability".toList).isModified = true
        ∧ (((ElectrumPhraseItem.init 0 "abandon".toList).setValue
              "ability".toList).applyChanges).isModified = false
        ∧ (((ElectrumPhraseItem.init 0 "abandon".toList).setValue
              "ability".toList).applyChanges).effects
            = ((ElectrumPhraseItem.init 0 "abandon".toList).setValue "ability".toList).effects)
      ∧ (∀ item : ElectrumPhraseItem, item.isModified = true →
          item.applyChanges.isModified = false ∧ item.applyChanges.effects = item.effects)
      ∧ (∀ (item : ElectrumPhraseItem) (v : QString),
          (item.setValue v).isModified ≠ item.isModified →
          (item.setValue v).effects = item.effects ++ [PhraseSignal.valueChanged,
            PhraseSignal.isModifiedChanged, PhraseSignal.isAllowedChanged])
      ∧ (∀ item : ElectrumPhraseItem,
          item.revertChanges.isModified ≠ item.isModified →
          item.revertChanges.effects = item.effects ++ [PhraseSignal.valueChanged,
            PhraseSignal.isModifiedChanged, PhraseSignal.isAllowedChanged]) := by
  have hset : ∀ (item : ElectrumPhraseItem) (v : QString),
      (item.setValue v).isModified ≠ item.isModified →
      (item.setValue v).effects = item.effects ++ [PhraseSignal.valueChanged,
        PhraseSignal.isModifiedChanged, PhraseSignal.isAllowedChanged] := by
    intro item v h
    by_cases hv : item.m_userInput = v
    · exact absurd (by simp [ElectrumPhraseItem.setValue, hv]) h
    · simp [ElectrumPhraseItem.setValue, hv, ElectrumPhraseItem.emit]
  refine ⟨by decide, ?_, hset, fun item h => hset item item.m_phrase h⟩
  intro item h
  simp [ElectrumPhraseItem.applyChanges, ElectrumPhraseItem.isModified]

/-! ### SwapCoinSettingsItem: the seed phrase -/

theorem toStdString_nil : toStdString [] = [] := rfl

theorem collectSeedWords_eq (items : List ElectrumPhraseItem) (acc : List (List Nat)) :
    SwapCoinSettingsItem.collectSeedWords items acc
      = acc ++ (items.map (fun it => toStdString it.m_phrase)).filter (fun w => !w.isEmpty) := by
  induction items generalizing acc with
  | nil => simp [SwapCoinSettingsItem.collectSeedWords]
  | cons it rest ih =>
    unfold SwapCoinSettingsItem.collectSeedWords
    by_cases h : (toStdString it.m_phrase).isEmpty = true
    · simp [ElectrumPhraseItem.getPhrase, h, ih]
    · simp [ElectrumPhraseItem.getPhrase, h, ih]

theorem pushSeedWords_eq (env : SeedEnv) (w : List (List Nat)) :
    ∀ (k : Int) (items : List ElectrumPhraseItem),
      SwapCoinSettingsItem.pushSeedWords env w k items
        = items ++ List.zipWith
            (fun (i : Nat) x => ElectrumPhraseItem.init (k + i) (env.fromStdString x))
            (List.range w.length) w := by
  induction w with
  | nil =>
    intro k items
    simp [SwapCoinSettingsItem.pushSeedWords]
  | cons x rest ih =>
    intro k items
    have hf : (fun (i : Nat) y =>
          ElectrumPhraseItem.init (k + 1 + i) (env.fromStdString y))
        = (fun (i : Nat) y =>
          ElectrumPhraseItem.init (k + ((i + 1 : Nat) : Int)) (env.fromStdString y)) := by
      funext i y
      have : k + 1 + (i : Int) = k + ((i + 1 : Nat) : Int) := by push_cast; ring
      rw [this]
    simp only [SwapCoinSettingsItem.pushSeedWords, ih, List.length_cons, List.range_succ_eq_map,
      List.zipWith_cons_cons, List.zipWith_map_left, List.append_assoc, List.singleton_append,
      hf, Nat.cast_zero, add_zero]

theorem pushEmptyWords_eq (n : Nat) :
    ∀ (k : Int) (items : List ElectrumPhraseItem),
      SwapCoinSettingsItem.pushEmptyWords n k items
        = items ++ (List.range n).map (fun (i : Nat) => ElectrumPhraseItem.init (k + i) []) := by
  induction n with
  | zero =>
    intro k items
    simp [SwapCoinSettingsItem.pushEmptyWords]
  | succ n ih =>
    intro k items
    have hf : (fun (i : Nat) => ElectrumPhraseItem.init (k + 1 + i) [])
        = (fun (i : Nat) => ElectrumPhraseItem.init (k + ((i + 1 : Nat) : Int)) []) := by
      funext i
      have : k + 1 + (i : Int) = k + ((i + 1 : Nat) : Int) := by push_cast; ring
      rw [this]
    simp only [SwapCoinSettingsItem.pushEmptyWords, ih, List.range_succ_eq_map, List.map_cons,
      List.map_map, List.append_assoc, List.singleton_append, hf, Nat.cast_zero, add_zero]
    rfl

theorem setSeedFlags_items (s : SwapCoinSettingsItem) (a b : Bool) :
    (((s.setIsCurrentSeedValid a).setIsCurrentSeedSegwit b).emit
        SeedSignal.electrumSeedPhrasesChanged).m_seedPhraseItems = s.m_seedPhraseItems := by
  unfold SwapCoinSettingsItem.setIsCurrentSeedSegwit SwapCoinSettingsItem.setIsCurrentSeedValid
  simp only [SwapCoinSettingsItem.emit, apply_ite SwapCoinSettingsItem.m_seedPhraseItems,
    ite_self]

theorem SetSeedElectrum_items (env : SeedEnv) (s : SwapCoinSettingsItem)
    (w : List (List Nat)) (h : w = [] ∨ w.length = env.WORD_COUNT) :
    ∃ s', SwapCoinSettingsItem.SetSeedElectrum env s w = some s'
      ∧ s'.m_seedPhraseItems
          = (if w = [] then SwapCoinSettingsItem.pushEmptyWords env.WORD_COUNT 0 []
             else SwapCoinSettingsItem.pushSeedWords env w 0 []) := by
  have hclear : (if (!s.m_seedPhraseItems.isEmpty) = true then { s with m_seedPhraseItems := [] }
      else s).m_seedPhraseItems = [] := by
    cases hs : s.m_seedPhraseItems with
    | nil => simp [hs]
    | cons a t => simp
  by_cases hw : w = []
  · subst hw
    unfold SwapCoinSettingsItem.SetSeedElectrum
    simp only [List.isEmpty_nil, if_true]
    exact ⟨_, rfl, by simp only [setSeedFlags_items, hclear, if_true]⟩
  · have hlen : w.length = env.WORD_COUNT := h.resolve_left hw
    have hne : w.isEmpty = false := by
      cases w with
      | nil => exact absurd rfl hw
      | cons a t => rfl
    unfold SwapCoinSettingsItem.SetSeedElectrum
    simp only [hne, Bool.false_eq_true, if_false, hlen, if_true]
    exact ⟨_, rfl, by simp only [setSeedFlags_items, hclear, hw, if_false]⟩

theorem pushSeedWords_phrases (env : SeedEnv) (w : List (List Nat)) :
    ∀ (k : Int) (items : List ElectrumPhraseItem),
      (SwapCoinSettingsItem.pushSeedWords env w k items).map (fun it => it.m_phrase)
        = items.map (fun it => it.m_phrase) ++ w.map env.fromStdString := by
  induction w with
  | nil =>
    intro k items
    simp [SwapCoinSettingsItem.pushSeedWords]
  | cons x rest ih =>
    intro k items
    simp [SwapCoinSettingsItem.pushSeedWords, ih, ElectrumPhraseItem.init]

theorem pushEmptyWords_phrases (n : Nat) :
    ∀ (k : Int) (items : List ElectrumPhraseItem),
      (SwapCoinSettingsItem.pushEmptyWords n k items).map (fun it => it.m_phrase)
        = items.map (fun it => it.m_phrase) ++ List.replicate n [] := by
  induction n with
  | zero =>
    intro k items
    simp [SwapCoinSettingsItem.pushEmptyWords]
  | succ n ih =>
    intro k items
    simp [SwapCoinSettingsItem.pushEmptyWords, ih, ElectrumPhraseItem.init,
      List.replicate_succ]

theorem GetSeedPhraseFromSeedItems_eq (env : SeedEnv) (s : SwapCoinSettingsItem)
    (hlen : s.m_seedPhraseItems.length = env.WORD_COUNT) :
    s.GetSeedPhraseFromSeedItems env
      = some (((s.m_seedPhraseItems.map (fun it => it.m_phrase)).map toStdString).filter
          (fun w => !w.isEmpty)) := by
  unfold SwapCoinSettingsItem.GetSeedPhraseFromSeedItems
  simp only [hlen, if_true, collectSeedWords_eq, List.nil_append, List.map_map]
  rfl

theorem modify_map_m_phrase (items : List ElectrumPhraseItem)
    (f : ElectrumPhraseItem → ElectrumPhraseItem) (hf : ∀ it, (f it).m_phrase = it.m_phrase) :
    ∀ i : Nat, (items.modify f i).map (fun it => it.m_phrase)
      = items.map (fun it => it.m_phrase) := by
  induction items with
  | nil => intro i; simp
  | cons a t ih =>
    intro i
    cases i with
    | zero => simp [hf]
    | succ n => simp [ih n]

theorem setValue_m_phrase (it : ElectrumPhraseItem) (v : QString) :
    (it.setValue v).m_phrase = it.m_phrase := by
  unfold ElectrumPhraseItem.setValue
  simp only [ElectrumPhraseItem.emit, apply_ite ElectrumPhraseItem.m_phrase, ite_self]

theorem setValue_applyChanges_m_phrase (it : ElectrumPhraseItem) (v : QString) :
    ((it.setValue v).applyChanges).m_phrase = v := by
  unfold ElectrumPhraseItem.applyChanges ElectrumPhraseItem.setValue
  by_cases h : it.m_userInput = v
  · simp [h]
  · simp [h, ElectrumPhraseItem.emit]

theorem modify_map_set (items : List ElectrumPhraseItem)
    (f : ElectrumPhraseItem → ElectrumPhraseItem) (v : QString)
    (hf : ∀ it, (f it).m_phrase = v) :
    ∀ i : Nat, (items.modify f i).map (fun it => it.m_phrase)
      = (items.map (fun it => it.m_phrase)).set i v := by
  induction items with
  | nil => intro i; simp
  | cons a t ih =>
    intro i
    cases i with
    | zero => simp [hf]
    | succ n => simp [ih n]

/-- The edits `setValue(v)` of a list, each on the item at the given position. -/
theorem edits_keep_phrases (edits : List (Nat × QString)) :
    ∀ s : SwapCoinSettingsItem,
      (edits.foldl (fun s e => s.onSeedItem e.1 (fun it => it.setValue e.2)) s)
          = { s with m_seedPhraseItems :=
                (edits.foldl (fun s e => s.onSeedItem e.1 (fun it => it.setValue e.2))
                  s).m_seedPhraseItems }
        ∧ (edits.foldl (fun s e => s.onSeedItem e.1 (fun it => it.setValue e.2))
              s).m_seedPhraseItems.map (fun it => it.m_phrase)
            = s.m_seedPhraseItems.map (fun it => it.m_phrase) := by
  induction edits with
  | nil => intro s; exact ⟨rfl, rfl⟩
  | cons e rest ih =>
    intro s
    obtain ⟨h1, h2⟩ := ih (s.onSeedItem e.1 (fun it => it.setValue e.2))
    refine ⟨?_, ?_⟩
    · simp only [List.foldl_cons]
      rw [h1]
      rfl
    · rw [List.foldl_cons, h2]
      exact modify_map_m_phrase _ _ (fun it => setValue_m_phrase it e.2) e.1

theorem applyElectrumSettings_words (env : SeedEnv) (s : SwapCoinSettingsItem)
    (hlen : s.m_seedPhraseItems.length = env.WORD_COUNT) :
    ∃ s', s.applyElectrumSettings env = some s'
      ∧ s'.coinClient.m_secretWords
          = ((s.m_seedPhraseItems.map (fun it => it.m_phrase)).map toStdString).filter
              (fun w => !w.isEmpty)
      ∧ s'.m_settings = s'.coinClient
      ∧ s'.m_seedPhraseItems = s.m_seedPhraseItems := by
  unfold SwapCoinSettingsItem.applyElectrumSettings
    SwapCoinSettingsItem.GetSeedPhraseFromSeedItems
  simp only [hlen, if_true, collectSeedWords_eq, List.nil_append, List.map_map]
  exact ⟨_, rfl, rfl, rfl, rfl⟩

/-- Claim C22.  On an item holding WORD_COUNT seed phrase items, any number of
`setValue` calls on the items leaves the seed that `applyElectrumSettings()`
writes to the client settings unchanged: the words written are the committed
phrases (`m_phrase`) of the items in list order, empty words left out.  After
`setValue(v)` and `applyChanges()` on the item at position i the word written
for that item is v. -/
theorem seed_written_on_apply (env : SeedEnv) (s : SwapCoinSettingsItem)
    (edits : List (Nat × QString)) (i : Nat) (v : QString)
    (hlen : s.m_seedPhraseItems.length = env.WORD_COUNT) :
    (∃ s1 s2, s.applyElectrumSettings env = some s1
        ∧ (edits.foldl (fun s e => s.onSeedItem e.1 (fun it => it.setValue e.2))
            s).applyElectrumSettings env = some s2
        ∧ s2.coinClient.m_secretWords = s1.coinClient.m_secretWords
        ∧ s2.m_settings.m_secretWords = s1.m_settings.m_secretWords
        ∧ s1.m_settings.m_secretWords = s1.coinClient.m_secretWords
        ∧ s1.coinClient.m_secretWords
            = ((s.m_seedPhraseItems.map (fun it => it.m_phrase)).map toStdString).filter
                (fun w => !w.isEmpty))
      ∧ (∃ s3, (s.onSeedItem i (fun it => (it.setValue v).applyChanges)).applyElectrumSettings
            env = some s3
          ∧ s3.coinClient.m_secretWords
              = (((s.m_seedPhraseItems.map (fun it => it.m_phrase)).set i v).map
                  toStdString).filter (fun w => !w.isEmpty)) := by
  obtain ⟨_, hphr⟩ := edits_keep_phrases edits s
  have hlen2 : (edits.foldl (fun s e => s.onSeedItem e.1 (fun it => it.setValue e.2))
      s).m_seedPhraseItems.length = env.WORD_COUNT := by
    have := congrArg List.length hphr
    simp only [List.length_map] at this
    rw [this, hlen]
  obtain ⟨s1, h1, w1, e1, _⟩ := applyElectrumSettings_words env s hlen
  obtain ⟨s2, h2, w2, e2, _⟩ := applyElectrumSettings_words env _ hlen2
  have hlen3 : (s.onSeedItem i (fun it => (it.setValue v).applyChanges)).m_seedPhraseItems.length
      = env.WORD_COUNT := by
    simp only [SwapCoinSettingsItem.onSeedItem, List.length_modify, hlen]
  obtain ⟨s3, h3, w3, _, _⟩ := applyElectrumSettings_words env _ hlen3
  refine ⟨⟨s1, s2, h1, h2, ?_, ?_, ?_, w1⟩, s3, h3, ?_⟩
  · rw [w2, w1, hphr]
  · rw [e2, e1, w2, w1, hphr]
  · rw [e1]
  · rw [w3]
    simp only [SwapCoinSettingsItem.onSeedItem]
    rw [modify_map_set _ _ v (fun it => setValue_applyChanges_m_phrase it v) i]

/-- Witness for C22: on the item holding the twelve sample words, typing two
new words does not change the seed written on apply. -/
theorem seed_written_on_apply_witness :
    ∃ s1 s2, sampleSeededItem.applyElectrumSettings sampleSeedEnv = some s1
      ∧ ((sampleSeededItem.onSeedItem 0 (fun it => it.setValue "zoo".toList)).onSeedItem 3
            (fun it => it.setValue "zone".toList)).applyElectrumSettings sampleSeedEnv = some s2
      ∧ s2.coinClient.m_secretWords = s1.coinClient.m_secretWords
      ∧ s1.coinClient.m_secretWords = sampleSeed := by
  obtain ⟨s1, s2, h1, h2, h3, _, _, h6⟩ :=
    (seed_written_on_apply sampleSeedEnv sampleSeededItem
      [(0, "zoo".toList), (3, "zone".toList)] 0 [] (by decide)).1
  exact ⟨s1, s2, h1, h2, h3, h6.trans (by decide)⟩

/-! ### QMLGlobals: the carry of a rounded fraction -/

/-- When the fraction `0.B` is printed as "1.00000000", `roundWithPrecision8`
keeps only the digits after the point of that text: the result for `A.B` is `A`. -/
theorem roundWithPrecision8_carry_lost (lib : DecFloat) (A B : List Char) (x : lib.Num)
    (hA : '.' ∉ A) (hB : '.' ∉ B) (hBne : B ≠ [])
    (hparse : lib.ofText (['0', '.'] ++ B) = some x)
    (hfixed : lib.fixed x 8 = "1.00000000".toList) :
    QMLGlobals.roundWithPrecision8 lib (A ++ '.' :: B) = some A := by
  have hB2 : B.isEmpty = false := by
    cases B with
    | nil => exact absurd rfl hBne
    | cons a l => rfl
  have hsplit : split "1.00000000".toList '.' = ["1".toList, "00000000".toList] := by decide
  have hzero : ("00000000".toList).rdropWhile (char_is '0') = [] := by decide
  unfold QMLGlobals.roundWithPrecision8 roundWithPrecision kBTCDecimalPlaces
  simp only [split_two '.' A B hA hB, hB2, Bool.false_eq_true, if_false, hparse, hfixed, hsplit,
    trim_right_if]
  have h1 : (A ++ ['.'] ++ "00000000".toList).rdropWhile (char_is '0') = A ++ ['.'] := by
    have := rdropWhile_append_cons (char_is '0') A "00000000".toList '.' (by decide)
    rw [hzero] at this
    simpa using this
  rw [h1, List.rdropWhile_concat_pos _ _ _ (by decide)]
  rw [rdropWhile_of_all_false (char_is '.') A]
  intro c hc
  have : c ≠ '.' := fun e => hA (e ▸ hc)
  simp [char_is, this]

/-- Claim C23 (fails when the fraction rounds up to 1).  For a decimal library
that reads "0.999999999" and prints it with 8 fixed digits as "1.00000000",
`roundWithPrecision8("0.999999999")` is "0": the value of the result is 0, the
value of the input is 999999999 / 10^9, and they differ by more than 10^-8. -/
theorem roundWithPrecision8_drops_carry (lib : DecFloat) (x : lib.Num)
    (hparse : lib.ofText "0.999999999".toList = some x)
    (hfixed : lib.fixed x 8 = "1.00000000".toList) :
    QMLGlobals.roundWithPrecision8 lib "0.999999999".toList = some "0".toList
      ∧ decimalValue "0".toList = some 0
      ∧ decimalValue "0.999999999".toList = some (999999999 / 1000000000)
      ∧ ¬ (|(0 : ℚ) - 999999999 / 1000000000| < 1 / 10 ^ 8) := by
  refine ⟨?_, ?_, ?_, ?_⟩
  · exact roundWithPrecision8_carry_lost lib "0".toList "999999999".toList x (by decide)
      (by decide) (by decide) hparse hfixed
  · have h : parseDecimal "0".toList = some (0, 0) := by decide
    simp only [decimalValue, h, Option.map_some']
    norm_num
  · have h : parseDecimal "0.999999999".toList = some (999999999, 9) := by decide
    simp only [decimalValue, h, Option.map_some']
    norm_num
  · norm_num [abs_of_nonneg]

/-- Witness for C23: the sample decimal library reads "0.999999999" and prints
it with 8 fixed digits as "1.00000000". -/
theorem roundWithPrecision8_drops_carry_witness :
    QMLGlobals.roundWithPrecision8 exactDecimal "0.999999999".toList = some "0".toList :=
  (roundWithPrecision8_drops_carry exactDecimal (999999999, 9)
    (show parseDecimal "0.999999999".toList = some (999999999, 9) by decide)
    (show printFixed (999999999, 9) 8 = "1.00000000".toList by decide)).1

/-! ### ShieldedCoinItem: hours left -/

/-- While the limit has not passed, the 64-bit difference of the code is the
number of blocks left. -/
theorem blocksLeft_no_wrap (c : MaturityInputs) (h0 : 0 ≤ ShieldedCoinItem.blocksLeft c)
    (hr : c.m_confirmHeight + c.timeLimit * 60 < AMOUNT_RANGE) :
    amountSub (amountAdd c.m_confirmHeight (c.timeLimit * 60)) c.currentHeight
      = (ShieldedCoinItem.blocksLeft c).toNat := by
  unfold ShieldedCoinItem.blocksLeft at *
  unfold amountSub amountAdd AMOUNT_RANGE at *
  omega

/-- While the coin is inside its window, the 64-bit difference of the code is
the number of outputs left. -/
theorem outputsLeft_no_wrap (c : MaturityInputs) (h0 : 0 ≤ ShieldedCoinItem.outputsLeft c)
    (hid : c.m_TxoID ≤ c.shieldedCount)
    (hmul : c.MaxWindowBacklog * c.mpAnonymitySet < UINT_RANGE)
    (hwin : c.MaxWindowBacklog < UINT_RANGE) :
    amountSub
        (if (c.mpAnonymitySet != 0) = true then
          toUInt (c.MaxWindowBacklog * c.mpAnonymitySet) / 64
         else c.MaxWindowBacklog)
        (amountSub c.shieldedCount c.m_TxoID)
      = (ShieldedCoinItem.outputsLeft c).toNat := by
  have hw : (if (c.mpAnonymitySet != 0) = true then
          toUInt (c.MaxWindowBacklog * c.mpAnonymitySet) / 64
         else c.MaxWindowBacklog) = ShieldedCoinItem.windowBacklog c := by
    unfold ShieldedCoinItem.windowBacklog toUInt
    by_cases hm : c.mpAnonymitySet = 0
    · simp [hm]
    · simp [hm, Nat.mod_eq_of_lt hmul]
  have hwlt : ShieldedCoinItem.windowBacklog c < UINT_RANGE := by
    unfold ShieldedCoinItem.windowBacklog
    split_ifs
    · exact hwin
    · exact lt_of_le_of_lt (Nat.div_le_self _ _) hmul
  rw [hw]
  unfold ShieldedCoinItem.outputsLeft at *
  generalize ShieldedCoinItem.windowBacklog c = w at *
  unfold amountSub AMOUNT_RANGE UINT_RANGE at *
  omega

/-- Counterexample to C24 as stated, on values that `double` holds exactly.
Without a time limit, with one shielded output per 24 hours and 65536 outputs
left, the anonymity-set estimate is 65536 / 1 * 24 = 1572864 hours; the result
is a `uint16_t` and is 0 here.  With a time limit of one hour and 30 blocks
left (half an hour) and no shielded output rate the result is 1 hour, above
the quotient 30 / 60.  For a coin whose limit of one hour passed 940 blocks
ago the formula confirmHeight + timeLimit*60 - currentHeight is negative, and
the result is 17460 hours, taken from the wrapped 64-bit difference. -/
theorem shieldedTimeLeft_counterexample :
    (ShieldedCoinItem.outputsLeft slowPoolMaturity = 65536
        ∧ ShieldedCoinItem.outputsLeft slowPoolMaturity / slowPoolMaturity.shieldedPer24h * 24
            = 1572864
        ∧ ShieldedCoinItem.rawMaturityTimeLeft exactHours slowPoolMaturity = 0)
      ∧ (ShieldedCoinItem.blocksLeft (sampleMaturity 1 0) = 30
        ∧ ShieldedCoinItem.rawMaturityTimeLeft exactHours (sampleMaturity 1 0) = 1)
      ∧ (ShieldedCoinItem.blocksLeft expiredMaturity = -940
        ∧ ShieldedCoinItem.rawMaturityTimeLeft exactHours expiredMaturity = 17460) := by
  decide

/-- Claim C24, amended.  `ShieldedCoinItem::rawMaturityTimeLeft()` never exceeds
65535.  While the lock time limit has not passed (confirmHeight + timeLimit*60
- currentHeight is not negative) and the coin is inside its window (the
outputs left are not negative), with heights and counts in their 64-bit and
32-bit ranges, it combines the two estimates after each has been turned into
whole hours in a `uint16_t` (rounded down above one hour, up otherwise): when
the time limit and shieldedPer24h are both nonzero the result is the minimum of
the two converted estimates, hence at most the converted block-based estimate;
when only the time limit is nonzero it is the converted block-based estimate;
when only shieldedPer24h is nonzero it is the converted anonymity-set estimate;
when both are zero it is 65535. -/
theorem rawMaturityTimeLeft_combines (fp : DoubleArith) (c : MaturityInputs) :
    ShieldedCoinItem.rawMaturityTimeLeft fp c ≤ 65535
      ∧ (c.timeLimit ≠ 0 → c.shieldedPer24h ≠ 0 →
          0 ≤ ShieldedCoinItem.blocksLeft c →
          c.m_confirmHeight + c.timeLimit * 60 < AMOUNT_RANGE →
          0 ≤ ShieldedCoinItem.outputsLeft c → c.m_TxoID ≤ c.shieldedCount →
          c.MaxWindowBacklog * c.mpAnonymitySet < UINT_RANGE →
          c.MaxWindowBacklog < UINT_RANGE →
          ShieldedCoinItem.rawMaturityTimeLeft fp c
              = min (ShieldedCoinItem.anonymitySetEstimate fp c)
                  (ShieldedCoinItem.blockEstimate fp c)
            ∧ ShieldedCoinItem.rawMaturityTimeLeft fp c ≤ ShieldedCoinItem.blockEstimate fp c)
      ∧ (c.timeLimit ≠ 0 → c.shieldedPer24h = 0 →
          0 ≤ ShieldedCoinItem.blocksLeft c →
          c.m_confirmHeight + c.timeLimit * 60 < AMOUNT_RANGE →
          ShieldedCoinItem.rawMaturityTimeLeft fp c = ShieldedCoinItem.blockEstimate fp c)
      ∧ (c.timeLimit = 0 → c.shieldedPer24h ≠ 0 →
          0 ≤ ShieldedCoinItem.outputsLeft c → c.m_TxoID ≤ c.shieldedCount →
          c.MaxWindowBacklog * c.mpAnonymitySet < UINT_RANGE →
          c.MaxWindowBacklog < UINT_RANGE →
          ShieldedCoinItem.rawMaturityTimeLeft fp c
            = ShieldedCoinItem.anonymitySetEstimate fp c)
      ∧ (c.timeLimit = 0 → c.shieldedPer24h = 0 →
          ShieldedCoinItem.rawMaturityTimeLeft fp c = 65535) := by
  have hb : ∀ x, fp.toUInt16 x ≤ 65535 := by
    intro x
    have := fp.toUInt16_lt x
    omega
  refine ⟨?_, ?_, ?_, ?_, ?_⟩
  · by_cases ht : c.timeLimit = 0 <;> by_cases hs : c.shieldedPer24h = 0 <;>
      simp only [ShieldedCoinItem.rawMaturityTimeLeft, bne_iff_ne, ne_eq, ht, hs,
        not_false_eq_true, if_true, not_true_eq_false, if_false, le_refl] <;>
      first
        | exact hb _
        | exact le_trans (min_le_left _ _) (hb _)
  · intro ht hs h0 hr ho hid hmul hwin
    have h : ShieldedCoinItem.rawMaturityTimeLeft fp c
        = min (ShieldedCoinItem.anonymitySetEstimate fp c)
            (ShieldedCoinItem.blockEstimate fp c) := by
      unfold ShieldedCoinItem.rawMaturityTimeLeft ShieldedCoinItem.anonymitySetEstimate
        ShieldedCoinItem.blockEstimate ShieldedCoinItem.hoursAsUInt16
      simp only [bne_iff_ne, ne_eq, ht, hs, not_false_eq_true, if_true]
      rw [← blocksLeft_no_wrap c h0 hr, ← outputsLeft_no_wrap c ho hid hmul hwin]
      simp only [bne_iff_ne, ne_eq]
    exact ⟨h, h ▸ min_le_right _ _⟩
  · intro ht hs h0 hr
    unfold ShieldedCoinItem.rawMaturityTimeLeft ShieldedCoinItem.blockEstimate
      ShieldedCoinItem.hoursAsUInt16
    simp only [bne_iff_ne, ne_eq, ht, hs, not_false_eq_true, if_true, not_true_eq_false,
      if_false]
    rw [← blocksLeft_no_wrap c h0 hr]
  · intro ht hs ho hid hmul hwin
    unfold ShieldedCoinItem.rawMaturityTimeLeft ShieldedCoinItem.anonymitySetEstimate
      ShieldedCoinItem.hoursAsUInt16
    simp only [bne_iff_ne, ne_eq, ht, hs, not_false_eq_true, if_true, not_true_eq_false,
      if_false]
    rw [← outputsLeft_no_wrap c ho hid hmul hwin]
    simp only [bne_iff_ne, ne_eq]
  · intro ht hs
    simp [ShieldedCoinItem.rawMaturityTimeLeft, ht, hs]

/-- Witness for C24: the sample coin, 4290 blocks before the end of its limit of
72 hours and with 25536 outputs left in its window, meets the range conditions;
with 40000 outputs per day the result is the smaller, anonymity-set estimate. -/
theorem rawMaturityTimeLeft_combines_witness :
    ShieldedCoinItem.rawMaturityTimeLeft exactHours (sampleMaturity 72 40000)
        = min (ShieldedCoinItem.anonymitySetEstimate exactHours (sampleMaturity 72 40000))
            (ShieldedCoinItem.blockEstimate exactHours (sampleMaturity 72 40000))
      ∧ ShieldedCoinItem.anonymitySetEstimate exactHours (sampleMaturity 72 40000) = 15
      ∧ ShieldedCoinItem.blockEstimate exactHours (sampleMaturity 72 40000) = 71 :=
  ⟨((rawMaturityTimeLeft_combines exactHours (sampleMaturity 72 40000)).2.1 (by decide)
      (by decide) (by decide) (by decide) (by decide) (by decide) (by decide)
      (by decide)).1, by decide, by decide⟩

/-- The hours left of the sample coin with exact arithmetic: 71 by blocks, 15
by a rate of 40000 outputs per day, 65535 without either estimate, and one hour
when 30 blocks are left. -/
theorem rawMaturityTimeLeft_sample :
    ShieldedCoinItem.rawMaturityTimeLeft exactHours (sampleMaturity 72 0) = 71
      ∧ ShieldedCoinItem.rawMaturityTimeLeft exactHours (sampleMaturity 0 40000) = 15
      ∧ ShieldedCoinItem.rawMaturityTimeLeft exactHours (sampleMaturity 72 40000) = 15
      ∧ ShieldedCoinItem.rawMaturityTimeLeft exactHours (sampleMaturity 72 4000) = 71
      ∧ ShieldedCoinItem.rawMaturityTimeLeft exactHours (sampleMaturity 0 0) = 65535
      ∧ ShieldedCoinItem.rawMaturityTimeLeft exactHours (sampleMaturity 1 0) = 1 := by
  decide

/-! ### SendViewModel: the recipient text -/

theorem setSendAmount_recipient (env : Env) (s : SendViewModel) (v : QString) :
    (s.setSendAmount env v)._isShielded = s._isShielded
      ∧ (s.setSendAmount env v)._isToken = s._isToken
      ∧ (s.setSendAmount env v)._receiverTA = s._receiverTA := by
  unfold setSendAmount resetMinimalFee onChangeCalculated
  simp only [SendViewModel.emit, SendViewModel.async, apply_ite SendViewModel._isShielded,
    apply_ite SendViewModel._isToken, apply_ite SendViewModel._receiverTA, ite_self, and_self]

theorem setFeeGrothes_recipient (env : Env) (s : SendViewModel) (v : Nat) :
    (s.setFeeGrothes env v)._isShielded = s._isShielded
      ∧ (s.setFeeGrothes env v)._isToken = s._isToken
      ∧ (s.setFeeGrothes env v)._receiverTA = s._receiverTA := by
  unfold setFeeGrothes resetMinimalFee
  simp only [SendViewModel.emit, SendViewModel.async, apply_ite SendViewModel._isShielded,
    apply_ite SendViewModel._isToken, apply_ite SendViewModel._receiverTA, ite_self, and_self]

theorem setIsShieldedTx_recipient (env : Env) (s : SendViewModel) (v : Bool) :
    (s.setIsShieldedTx env v)._isShielded = v
      ∧ (s.setIsShieldedTx env v)._isToken = s._isToken
      ∧ (s.setIsShieldedTx env v)._receiverTA = s._receiverTA := by
  unfold setIsShieldedTx
  by_cases h : s._isShielded = v
  · simp [h]
  · simp only [bne_iff_ne, ne_eq, h, not_false_eq_true, if_true]
    unfold setMaxAvailableAmount resetMinimalFee
    simp only [SendViewModel.emit, SendViewModel.async]
    split_ifs <;>
      simp only [(setSendAmount_recipient env _ _).1, (setSendAmount_recipient env _ _).2.1,
        (setSendAmount_recipient env _ _).2.2, (setFeeGrothes_recipient env _ _).1,
        (setFeeGrothes_recipient env _ _).2.1, (setFeeGrothes_recipient env _ _).2.2, and_self]

/-- What `resetAddress` leaves behind: the recipient-derived members are reset,
the shielded flag is off, and the recipient text is untouched. -/
theorem resetAddress_fields (env : Env) (s : SendViewModel) :
    (s.resetAddress env)._isToken = false
      ∧ (s.resetAddress env)._isShielded = false
      ∧ (s.resetAddress env)._isOffline = false
      ∧ (s.resetAddress env)._isMaxPrivacy = false
      ∧ (s.resetAddress env)._isPublicOffline = false
      ∧ (s.resetAddress env)._isPermanentAddress = false
      ∧ (s.resetAddress env)._isNeedExtractShieldedCoins = false
      ∧ (s.resetAddress env)._receiverWalletAddress = none
      ∧ (s.resetAddress env)._offlinePayments = 0
      ∧ (s.resetAddress env)._receiverAddress = []
      ∧ (s.resetAddress env)._receiverWalletID = 0
      ∧ (s.resetAddress env)._receiverIdentity = 0
      ∧ (s.resetAddress env)._receiverTA = s._receiverTA := by
  have hsh := setIsShieldedTx_recipient env (s.setIsToken false) false
  have htok : (s.setIsToken false)._isToken = false := by
    unfold setIsToken
    by_cases h : s._isToken = false
    · simp [h]
    · simp [h, SendViewModel.emit]
  have hta : (s.setIsToken false)._receiverTA = s._receiverTA := by
    unfold setIsToken
    split_ifs <;> rfl
  unfold resetAddress
  simp only [setIsOffline, setIsMaxPrivacy, setIsPublicOffline, setIsPermanentAddress,
    onNeedExtractShieldedCoins, setWalletAddress, setOfflinePayments, SendViewModel.emit]
  simp only [apply_ite SendViewModel._isToken, apply_ite SendViewModel._isShielded,
    apply_ite SendViewModel._isOffline, apply_ite SendViewModel._isMaxPrivacy,
    apply_ite SendViewModel._isPublicOffline, apply_ite SendViewModel._isPermanentAddress,
    apply_ite SendViewModel._isNeedExtractShieldedCoins,
    apply_ite SendViewModel._receiverWalletAddress, apply_ite SendViewModel._offlinePayments,
    apply_ite SendViewModel._receiverTA, ite_self, hsh.1, hsh.2.1, hsh.2.2, htok, hta,
    true_and, and_true, bne_iff_ne, ne_eq, ite_not, ite_eq_left_iff, imp_self, ite_eq_right_iff]

/-- Claim C25.  `setReceiverTA(v)` with the stored text changes nothing.  With a
different text that is a swap token it stores the text, clears the new-token
message and emits `receiverTAChanged`, and nothing else changes.  With a
different text that is neither a swap token nor valid (`isTAValid`) it stores
the text, clears the comment and resets the recipient-derived state: isToken,
isShieldedTx, isOffline, isMaxPrivacy, isPublicOffline and isPermanentAddress
are false, the offline payments are 0, the receiver address is empty, wallet id
and identity are zero and the wallet address is unset. -/
theorem setReceiverTA_spec (env : Env) (s : SendViewModel) (v : QString) :
    (s._receiverTA = v → s.setReceiverTA env v = s)
      ∧ (s._receiverTA ≠ v → QMLGlobals.isSwapToken env.engine v = true →
          s.setReceiverTA env v
            = { s with
                _newTokenMsg := []
                _receiverTA := v
                effects := s.effects ++ [Effect.signal Signal.receiverTAChanged] })
      ∧ (s._receiverTA ≠ v → QMLGlobals.isSwapToken env.engine v = false →
          QMLGlobals.isTAValid env.engine v = false →
          (s.setReceiverTA env v)._receiverTA = v
            ∧ (s.setReceiverTA env v).getComment = []
            ∧ (s.setReceiverTA env v).isToken = false
            ∧ (s.setReceiverTA env v).isShieldedTx = false
            ∧ (s.setReceiverTA env v).isOffline = false
            ∧ (s.setReceiverTA env v).isMaxPrivacy = false
            ∧ (s.setReceiverTA env v).isPublicOffline = false
            ∧ (s.setReceiverTA env v).isPermanentAddress = false
            ∧ (s.setReceiverTA env v).getOfflinePayments = 0
            ∧ (s.setReceiverTA env v)._receiverAddress = []
            ∧ (s.setReceiverTA env v)._receiverWalletID = 0
            ∧ (s.setReceiverTA env v)._receiverIdentity = 0
            ∧ (s.setReceiverTA env v)._receiverWalletAddress = none) := by
  refine ⟨?_, ?_, ?_⟩
  · intro h
    simp [setReceiverTA, h]
  · intro h hswap
    simp [setReceiverTA, h, hswap, SendViewModel.emit]
  · intro h hswap hvalid
    have hr := resetAddress_fields env
      ({ s with _newTokenMsg := [], _receiverTA := v }.emit Signal.receiverTAChanged)
    have hval : getRreceiverTAValid env
        ({ s with _newTokenMsg := [], _receiverTA := v }.emit Signal.receiverTAChanged)
          = false := hvalid
    unfold setReceiverTA
    simp only [bne_iff_ne, ne_eq, h, not_false_eq_true, if_true, hswap, Bool.false_eq_true,
      if_false, hval]
    obtain ⟨h1, h2, h3, h4, h5, h6, _, h8, h9, h10, h11, h12, h13⟩ := hr
    simp only [setComment, SendViewModel.emit, getComment, isToken, isShieldedTx, isOffline,
      isMaxPrivacy, isPublicOffline, isPermanentAddress, getOfflinePayments,
      apply_ite SendViewModel._receiverTA, apply_ite SendViewModel._comment,
      apply_ite SendViewModel._isToken, apply_ite SendViewModel._isShielded,
      apply_ite SendViewModel._isOffline, apply_ite SendViewModel._isMaxPrivacy,
      apply_ite SendViewModel._isPublicOffline, apply_ite SendViewModel._isPermanentAddress,
      apply_ite SendViewModel._offlinePayments, apply_ite SendViewModel._receiverAddress,
      apply_ite SendViewModel._receiverWalletID, apply_ite SendViewModel._receiverIdentity,
      apply_ite SendViewModel._receiverWalletAddress, ite_self]
    simp only [SendViewModel.emit] at h1 h2 h3 h4 h5 h6 h8 h9 h10 h11 h12 h13
    refine ⟨h13, ?_, h1, h2, h3, h4, h5, h6, h9, h10, h11, h12, h8⟩
    simp

/-! ### Currencies and swap coins -/

/-- Claim C26.  `convertSwapCoinToCurrency` and `convertCurrencyToSwapCoin` are
inverse to each other on the six swap coins (Bitcoin, Litecoin, Qtum, Bitcoin
Cash, Dash, Dogecoin) and their currencies; every other currency, Beam
included, is converted to `AtomicSwapCoin::Unknown`, and `Unknown` is
converted to `Currency::CurrEnd`. -/
theorem currency_swapCoin_inverse :
    (∀ c ∈ [Currency.CurrBitcoin, Currency.CurrLitecoin, Currency.CurrQtum,
          Currency.CurrBitcoinCash, Currency.CurrDash, Currency.CurrDogecoin],
        convertSwapCoinToCurrency (convertCurrencyToSwapCoin c) = c)
      ∧ (∀ s ∈ [AtomicSwapCoin.Bitcoin, AtomicSwapCoin.Litecoin, AtomicSwapCoin.Qtum,
          AtomicSwapCoin.Bitcoin_Cash, AtomicSwapCoin.Dash, AtomicSwapCoin.Dogecoin],
        convertCurrencyToSwapCoin (convertSwapCoinToCurrency s) = s)
      ∧ (∀ c : Currency,
          c ∉ [Currency.CurrBitcoin, Currency.CurrLitecoin, Currency.CurrQtum,
            Currency.CurrBitcoinCash, Currency.CurrDash, Currency.CurrDogecoin] →
          convertCurrencyToSwapCoin c = AtomicSwapCoin.Unknown)
      ∧ convertCurrencyToSwapCoin Currency.CurrBeam = AtomicSwapCoin.Unknown
      ∧ convertSwapCoinToCurrency AtomicSwapCoin.Unknown = Currency.CurrEnd := by
  refine ⟨by decide, by decide, ?_, rfl, rfl⟩
  intro c hc
  cases c <;> first | rfl | exact absurd (by decide) hc

/-! ### SendViewModel: the one-shot flag of "send max available" -/

/-- Claim C27 (fails at balance 0).  On an empty wallet without shielded coins
`setMaxAvailableAmount()` returns with `_maxAvailable` still true, and the
following `setSendAmount("5000")` stores 4900, the parsed amount less the fee
100.  In general the flag stays true whenever the text of the balance parses
to 0, because `setSendAmount` returns early for the amount 0; when it parses
to a nonzero amount the flag is false afterwards, and with the flag false and
no shielded coins `setSendAmount(v)` stores the parsed amount of v. -/
theorem setMaxAvailableAmount_flag_stays_at_zero :
    (((SendViewModel.init (sampleEnv false 0)).setMaxAvailableAmount
          (sampleEnv false 0))._maxAvailable = true
        ∧ (sampleEnv false 0).ui.UIStringToAmount "5000".toList = 5000
        ∧ (((SendViewModel.init (sampleEnv false 0)).setMaxAvailableAmount
              (sampleEnv false 0)).setSendAmount (sampleEnv false 0) "5000".toList)._sendAmount
            = 4900)
      ∧ (∀ (env : Env) (s : SendViewModel),
          env.ui.UIStringToAmount
              (env.ui.AmountToUIString (env.engine.getAvailable s._selectedAssetId)) = 0 →
          (s.setMaxAvailableAmount env)._maxAvailable = true)
      ∧ (∀ (env : Env) (s : SendViewModel),
          env.engine.hasShielded s._selectedAssetId = false →
          env.ui.UIStringToAmount
              (env.ui.AmountToUIString (env.engine.getAvailable s._selectedAssetId)) ≠ 0 →
          (s.setMaxAvailableAmount env)._maxAvailable = false)
      ∧ (∀ (env : Env) (s : SendViewModel) (v : QString),
          env.engine.hasShielded s._selectedAssetId = false → s._maxAvailable = false →
          (s.setSendAmount env v)._sendAmount = env.ui.UIStringToAmount v) := by
  refine ⟨by decide, ?_, ?_, ?_⟩
  · intro env s h
    unfold setMaxAvailableAmount setSendAmount resetMinimalFee onChangeCalculated
    simp only [h, SendViewModel.emit, Bool.or_true, if_true, beq_self_eq_true, ite_self,
      apply_ite SendViewModel._maxAvailable]
  · intro env s hns h
    unfold setMaxAvailableAmount setSendAmount
    simp only [beq_eq_false_iff_ne.mpr h, hns, SendViewModel.emit, SendViewModel.async,
      Bool.or_true, if_true, Bool.false_eq_true, if_false]
  · intro env s v hns hflag
    unfold setSendAmount resetMinimalFee onChangeCalculated
    simp only [hns, hflag, SendViewModel.emit, SendViewModel.async, Bool.or_false,
      Bool.false_eq_true, if_false, Bool.false_and, apply_ite SendViewModel._sendAmount,
      ite_self, bne_iff_ne, ne_eq, ite_not]
    split_ifs with h1 <;> first | rfl | exact h1.symm

/-! ### SendViewModel: the answer of the shielded coin selection -/

/-- Claim C28.  After `onShieldedCoinsSelectionCalculated(selection)` the minimal
fee is max(previous minimal fee, selection.minimalFee), hence not below the
previous one; the fee is selection.selectedFee when `_feeChangedByUi` was false
and is unchanged when it was true; and `_feeChangedByUi` is false. -/
theorem onShieldedCoinsSelectionCalculated_fees (s : SendViewModel)
    (selectionRes : ShieldedCoinsSelectionInfo) :
    (s.onShieldedCoinsSelectionCalculated selectionRes)._minFee
        = max s._minFee selectionRes.minimalFee
      ∧ s._minFee ≤ (s.onShieldedCoinsSelectionCalculated selectionRes)._minFee
      ∧ (s._feeChangedByUi = false →
          (s.onShieldedCoinsSelectionCalculated selectionRes)._fee = selectionRes.selectedFee)
      ∧ (s._feeChangedByUi = true →
          (s.onShieldedCoinsSelectionCalculated selectionRes)._fee = s._fee)
      ∧ (s.onShieldedCoinsSelectionCalculated selectionRes)._feeChangedByUi = false := by
  have hmin : (s.onShieldedCoinsSelectionCalculated selectionRes)._minFee
      = max s._minFee selectionRes.minimalFee := by
    unfold onShieldedCoinsSelectionCalculated onChangeCalculated
    simp only [SendViewModel.emit, apply_ite SendViewModel._minFee, ite_self]
  have hfee : (s.onShieldedCoinsSelectionCalculated selectionRes)._fee
        = (if s._feeChangedByUi then s._fee else selectionRes.selectedFee)
      ∧ (s.onShieldedCoinsSelectionCalculated selectionRes)._feeChangedByUi = false := by
    unfold onShieldedCoinsSelectionCalculated onChangeCalculated
    simp only [SendViewModel.emit, apply_ite SendViewModel._fee,
      apply_ite SendViewModel._feeChangedByUi, ite_self, Bool.not_eq_true', and_true]
    cases s._feeChangedByUi <;> simp
  refine ⟨hmin, ?_, ?_, ?_, hfee.2⟩
  · rw [hmin]; exact le_max_left _ _
  · intro h
    rw [hfee.1, h]
    rfl
  · intro h
    rw [hfee.1, h]
    rfl

/-! ### SettingsViewModel: the current language -/

theorem indexOf_eq_neg_one {α : Type} [DecidableEq α] (l : List α) (x : α) (h : x ∉ l) :
    indexOf l x = -1 := by
  induction l with
  | nil => rfl
  | cons a t ih =>
    have ha : ¬ a = x := fun e => h (by simp [e])
    have ht : x ∉ t := fun e => h (List.mem_cons_of_mem a e)
    simp [indexOf, ha, ih ht]

theorem indexOf_get {α : Type} [DecidableEq α] (l : List α) (x : α) (h : x ∈ l) :
    ∃ n : Nat, indexOf l x = (n : Int) ∧ n < l.length ∧ l.get? n = some x := by
  induction l with
  | nil => simp at h
  | cons a t ih =>
    by_cases ha : a = x
    · exact ⟨0, by simp [indexOf, ha], by simp, by simp [ha]⟩
    · have ht : x ∈ t := by
        rcases List.mem_cons.mp h with e | e
        · exact absurd e.symm ha
        · exact e
      obtain ⟨n, hn, hlt, hget⟩ := ih ht
      refine ⟨n + 1, ?_, by simpa using hlt, by simpa using hget⟩
      have hneg : ¬ ((n : Int) < 0) := by omega
      simp [indexOf, ha, hn, hneg]

theorem undoChanges_supportedLanguages (s : SettingsViewModel) :
    (s.undoChanges).m_supportedLanguages = s.m_supportedLanguages := by
  unfold undoChanges setNodeAddress setRemoteNodePort setLocalNodeRun setLocalNodePort
    setLocalNodePeers
  simp only [SettingsViewModel.emit, apply_ite SettingsViewModel.m_supportedLanguages, ite_self]

theorem init_language (settings : WalletSettings) (langs : List QString) :
    (SettingsViewModel.init settings langs).m_supportedLanguages = langs
      ∧ (SettingsViewModel.init settings langs).m_currentLanguageIndex
          = indexOf langs settings.languageName := by
  unfold SettingsViewModel.init
  simp only [SettingsViewModel.emit, undoChanges_supportedLanguages, undoChanges_m_settings,
    and_self]

theorem setCurrentLanguageIndex_some (s : SettingsViewModel) (v : Int)
    (h : 0 ≤ v ∧ v < s.m_supportedLanguages.length) :
    ∃ s' name, s.setCurrentLanguageIndex v = some s'
      ∧ s.m_supportedLanguages.get? v.toNat = some name
      ∧ s'.m_currentLanguageIndex = v
      ∧ s'.m_supportedLanguages = s.m_supportedLanguages
      ∧ s'.getCurrentLanguage = some name := by
  have hlt : v.toNat < s.m_supportedLanguages.length := by omega
  obtain ⟨name, hname⟩ : ∃ name, s.m_supportedLanguages.get? v.toNat = some name :=
    ⟨_, List.get?_eq_get hlt⟩
  have hset : s.setCurrentLanguageIndex v
      = some (({ s with
          m_currentLanguageIndex := v
          m_settings := { s.m_settings with languageName := name } } : SettingsViewModel).emit
            SettingsEffect.currentLanguageIndexChanged) := by
    unfold setCurrentLanguageIndex languageAt
    simp only [h, and_self, if_true, hname]
  refine ⟨_, name, hset, hname, rfl, rfl, ?_⟩
  simp only [getCurrentLanguage, languageAt, SettingsViewModel.emit, h, and_self, if_true, hname]

theorem setCurrentLanguageIndex_none (s : SettingsViewModel) (v : Int)
    (h : ¬ (0 ≤ v ∧ v < s.m_supportedLanguages.length)) :
    s.setCurrentLanguageIndex v = none := by
  unfold setCurrentLanguageIndex languageAt
  simp only [h, if_false]

theorem runLanguageCalls_valid (calls : List LanguageCall) :
    ∀ s : SettingsViewModel,
      (0 ≤ s.m_currentLanguageIndex
        ∧ s.m_currentLanguageIndex < s.m_supportedLanguages.length) →
      (∀ v, LanguageCall.setCurrentLanguageIndex v ∈ calls →
        0 ≤ v ∧ v < s.m_supportedLanguages.length) →
      ∃ s', runLanguageCalls calls s = some s'
        ∧ s'.m_supportedLanguages = s.m_supportedLanguages
        ∧ 0 ≤ s'.m_currentLanguageIndex
        ∧ s'.m_currentLanguageIndex < s'.m_supportedLanguages.length := by
  induction calls with
  | nil =>
    intro s hv _
    exact ⟨s, rfl, rfl, hv.1, hv.2⟩
  | cons op rest ih =>
    intro s hv hargs
    have hstep : ∃ s1, op.run s = some s1
        ∧ s1.m_supportedLanguages = s.m_supportedLanguages
        ∧ 0 ≤ s1.m_currentLanguageIndex
        ∧ s1.m_currentLanguageIndex < s1.m_supportedLanguages.length := by
      cases op with
      | setCurrentLanguage name =>
        by_cases hmem : name ∈ s.m_supportedLanguages
        · obtain ⟨n, hn, hlt, _⟩ := indexOf_get s.m_supportedLanguages name hmem
          have hr : (0 : Int) ≤ n ∧ (n : Int) < s.m_supportedLanguages.length := by omega
          obtain ⟨s1, _, h1, _, h3, h4, _⟩ := setCurrentLanguageIndex_some s n hr
          refine ⟨s1, ?_, h4, ?_, ?_⟩
          · have hne : ((n : Int) != -1) = true := by
              rw [bne_iff_ne]; omega
            simp only [LanguageCall.run, setCurrentLanguage, hn, hne, if_true, h1]
          · rw [h3]; exact hr.1
          · rw [h3, h4]; exact hr.2
        · refine ⟨s, ?_, rfl, hv.1, hv.2⟩
          simp [LanguageCall.run, setCurrentLanguage, indexOf_eq_neg_one _ _ hmem]
      | setCurrentLanguageIndex v =>
        have hr := hargs v (List.mem_cons_self _ _)
        obtain ⟨s1, _, h1, _, h3, h4, _⟩ := setCurrentLanguageIndex_some s v hr
        exact ⟨s1, h1, h4, by rw [h3]; exact hr.1, by rw [h3, h4]; exact hr.2⟩
    obtain ⟨s1, h1, hl, hv1⟩ := hstep
    have hargs1 : ∀ v, LanguageCall.setCurrentLanguageIndex v ∈ rest →
        0 ≤ v ∧ v < s1.m_supportedLanguages.length := by
      intro v hm
      rw [hl]
      exact hargs v (List.mem_cons_of_mem _ hm)
    obtain ⟨s2, h2, hl2, hv2⟩ := ih s1 hv1 hargs1
    exact ⟨s2, by simp only [runLanguageCalls, h1, h2], hl2.trans hl, hv2⟩

/-- Counterexample to C29 as stated: on a freshly constructed view-model with
two supported languages and the valid index 0, `setCurrentLanguageIndex(2)`
stores the index 2 and reads `m_supportedLanguages[2]`, outside the list; so
does `setCurrentLanguageIndex(-1)`. -/
theorem setCurrentLanguageIndex_counterexample :
    (SettingsViewModel.init sampleLanguageSettings sampleLanguages).m_currentLanguageIndex = 0
      ∧ ((SettingsViewModel.init sampleLanguageSettings
            sampleLanguages).m_supportedLanguages).length = 2
      ∧ (SettingsViewModel.init sampleLanguageSettings sampleLanguages).setCurrentLanguageIndex 2
          = none
      ∧ (SettingsViewModel.init sampleLanguageSettings sampleLanguages).setCurrentLanguageIndex
          (-1) = none
      ∧ runLanguageCalls [LanguageCall.setCurrentLanguageIndex 2]
          (SettingsViewModel.init sampleLanguageSettings sampleLanguages) = none := by
  decide

/-- Claim C29, amended.  The constructor sets the index to the position of the
stored language name in the supported list (in range when the name is in the
list, -1 otherwise).  `setCurrentLanguageIndex(v)` succeeds exactly when
0 <= v < number of supported languages, and then stores v;
`setCurrentLanguage(name)` changes nothing when the name is not in the list and
otherwise selects an index at which the list holds that name.  From a state
whose index is in range, every sequence of these calls in which each
`setCurrentLanguageIndex` argument is in range runs without an out-of-range
access and ends with the index in range, where `getCurrentLanguage()` reads an
element of the list. -/
theorem language_index_valid (s : SettingsViewModel) (calls : List LanguageCall)
    (hvalid : 0 ≤ s.m_currentLanguageIndex
      ∧ s.m_currentLanguageIndex < s.m_supportedLanguages.length)
    (hargs : ∀ v, LanguageCall.setCurrentLanguageIndex v ∈ calls →
      0 ≤ v ∧ v < s.m_supportedLanguages.length) :
    (∃ s', runLanguageCalls calls s = some s'
        ∧ 0 ≤ s'.m_currentLanguageIndex
        ∧ s'.m_currentLanguageIndex < s'.m_supportedLanguages.length
        ∧ s'.getCurrentLanguage.isSome = true)
      ∧ (∀ v : Int, (0 ≤ v ∧ v < s.m_supportedLanguages.length →
            ∃ s', s.setCurrentLanguageIndex v = some s' ∧ s'.m_currentLanguageIndex = v)
          ∧ (¬ (0 ≤ v ∧ v < s.m_supportedLanguages.length) →
            s.setCurrentLanguageIndex v = none))
      ∧ (∀ name : QString,
          (name ∉ s.m_supportedLanguages → s.setCurrentLanguage name = some s)
          ∧ (name ∈ s.m_supportedLanguages →
            ∃ s', s.setCurrentLanguage name = some s'
              ∧ s'.getCurrentLanguage = some name))
      ∧ (∀ (settings : WalletSettings) (langs : List QString),
          (SettingsViewModel.init settings langs).m_currentLanguageIndex
              = indexOf langs settings.languageName
            ∧ (settings.languageName ∈ langs →
                0 ≤ (SettingsViewModel.init settings langs).m_currentLanguageIndex
                  ∧ (SettingsViewModel.init settings langs).m_currentLanguageIndex
                      < (SettingsViewModel.init settings langs).m_supportedLanguages.length)
            ∧ (settings.languageName ∉ langs →
                (SettingsViewModel.init settings langs).m_currentLanguageIndex = -1)) := by
  refine ⟨?_, ?_, ?_, ?_⟩
  · obtain ⟨s', h1, _, h3, h4⟩ := runLanguageCalls_valid calls s hvalid hargs
    refine ⟨s', h1, h3, h4, ?_⟩
    have hlt : s'.m_currentLanguageIndex.toNat < s'.m_supportedLanguages.length := by omega
    simp [getCurrentLanguage, languageAt, h3, h4, List.get?_eq_get hlt]
  · intro v
    refine ⟨fun h => ?_, setCurrentLanguageIndex_none s v⟩
    obtain ⟨s', _, h1, _, h3, _⟩ := setCurrentLanguageIndex_some s v h
    exact ⟨s', h1, h3⟩
  · intro name
    refine ⟨fun h => ?_, fun h => ?_⟩
    · simp [setCurrentLanguage, indexOf_eq_neg_one _ _ h]
    · obtain ⟨n, hn, hlt, hget⟩ := indexOf_get s.m_supportedLanguages name h
      have hr : (0 : Int) ≤ n ∧ (n : Int) < s.m_supportedLanguages.length := by omega
      obtain ⟨s', nm, h1, h2, _, _, h5⟩ := setCurrentLanguageIndex_some s n hr
      have hnm : nm = name := by
        simp only [Int.toNat_ofNat, hget, Option.some.injEq] at h2
        exact h2.symm
      have hne : ((n : Int) != -1) = true := by
        rw [bne_iff_ne]; omega
      exact ⟨s', by simp only [setCurrentLanguage, hn, hne, if_true, h1], by rw [h5, hnm]⟩
  · intro settings langs
    obtain ⟨hl, hi⟩ := init_language settings langs
    refine ⟨hi, fun h => ?_, fun h => ?_⟩
    · obtain ⟨n, hn, hlt, _⟩ := indexOf_get langs settings.languageName h
      rw [hi, hl, hn]
      omega
    · rw [hi, indexOf_eq_neg_one _ _ h]

/-- Witness for C29: after `setCurrentLanguage("Deutsch")`, an unknown name and
`setCurrentLanguageIndex(0)` the freshly constructed view-model has an index in
range. -/
theorem language_index_valid_witness :
    ∃ s', runLanguageCalls
        [LanguageCall.setCurrentLanguage "Deutsch".toList,
         LanguageCall.setCurrentLanguage "Klingon".toList,
         LanguageCall.setCurrentLanguageIndex 0]
        (SettingsViewModel.init sampleLanguageSettings sampleLanguages) = some s'
      ∧ 0 ≤ s'.m_currentLanguageIndex
      ∧ s'.m_currentLanguageIndex < s'.m_supportedLanguages.length
      ∧ s'.getCurrentLanguage.isSome = true :=
  (language_index_valid (SettingsViewModel.init sampleLanguageSettings sampleLanguages)
    [LanguageCall.setCurrentLanguage "Deutsch".toList,
     LanguageCall.setCurrentLanguage "Klingon".toList,
     LanguageCall.setCurrentLanguageIndex 0]
    (by decide)
    (by
      intro v hv
      have hv0 : v = 0 := by simpa using hv
      subst hv0
      decide)).1

/-! ### SwapCoinSettingsItem: the seed phrase round trip -/

/-- Claim C30.  For a list w of exactly WORD_COUNT non-empty words, each a text
(UTF-8 bytes that the conversion to a `QString` and back gives again, as for
every word the callers pass), `SetSeedElectrum(w)` succeeds, replaces the
items by one item per word, item i with index i and phrase w[i], and
`GetSeedPhraseFromSeedItems()` then returns w.  `SetSeedElectrum` of the empty
list replaces the items by WORD_COUNT items with the indexes 0 .. WORD_COUNT - 1
and empty phrases, for which `GetSeedPhraseFromSeedItems()` returns the empty
list.  In both cases the new items do not depend on the items held before. -/
theorem seed_roundtrip (env : SeedEnv) (s : SwapCoinSettingsItem) (w : List (List Nat))
    (hlen : w.length = env.WORD_COUNT) (hne : ∀ x ∈ w, x ≠ [])
    (hrt : ∀ x ∈ w, toStdString (env.fromStdString x) = x) :
    (∃ s', s.SetSeedElectrum env w = some s'
        ∧ s'.m_seedPhraseItems
            = List.zipWith (fun (i : Nat) x => ElectrumPhraseItem.init i (env.fromStdString x))
                (List.range env.WORD_COUNT) w
        ∧ s'.GetSeedPhraseFromSeedItems env = some w)
      ∧ (∃ s0, s.SetSeedElectrum env [] = some s0
        ∧ s0.m_seedPhraseItems
            = (List.range env.WORD_COUNT).map (fun (i : Nat) => ElectrumPhraseItem.init i [])
        ∧ s0.GetSeedPhraseFromSeedItems env = some []) := by
  have hempty : ∃ s0, s.SetSeedElectrum env [] = some s0
      ∧ s0.m_seedPhraseItems
          = (List.range env.WORD_COUNT).map (fun (i : Nat) => ElectrumPhraseItem.init i [])
      ∧ s0.GetSeedPhraseFromSeedItems env = some [] := by
    obtain ⟨s0, h0, hi⟩ := SetSeedElectrum_items env s [] (Or.inl rfl)
    simp only [if_true] at hi
    have hl : s0.m_seedPhraseItems.length = env.WORD_COUNT := by
      rw [hi, pushEmptyWords_eq]
      simp
    refine ⟨s0, h0, ?_, ?_⟩
    · rw [hi, pushEmptyWords_eq]
      simp
    · rw [GetSeedPhraseFromSeedItems_eq env s0 hl, hi, pushEmptyWords_phrases]
      simp [toStdString_nil]
  refine ⟨?_, hempty⟩
  by_cases hw : w = []
  · subst hw
    obtain ⟨s0, h0, hi, hg⟩ := hempty
    have hz : env.WORD_COUNT = 0 := by simpa using hlen.symm
    refine ⟨s0, h0, ?_, hg⟩
    rw [hi, hz]
    rfl
  · obtain ⟨s1, h1, hi⟩ := SetSeedElectrum_items env s w (Or.inr hlen)
    simp only [hw, if_false] at hi
    have hl : s1.m_seedPhraseItems.length = env.WORD_COUNT := by
      have := congrArg List.length (pushSeedWords_phrases env w 0 [])
      simp only [List.length_map, List.map_nil, List.nil_append] at this
      rw [hi, this, hlen]
    refine ⟨s1, h1, ?_, ?_⟩
    · rw [hi, pushSeedWords_eq, ← hlen]
      simp
    · rw [GetSeedPhraseFromSeedItems_eq env s1 hl, hi, pushSeedWords_phrases]
      simp only [List.map_nil, List.nil_append, List.map_map]
      have hmap : w.map (toStdString ∘ env.fromStdString) = w := by
        conv_rhs => rw [← List.map_id w]
        exact List.map_congr_left (fun x hx => hrt x hx)
      rw [hmap]
      congr 1
      rw [List.filter_eq_self]
      intro x hx
      have := hne x hx
      cases x with
      | nil => exact absurd rfl this
      | cons a t => rfl

/-- Witness for C30: the twelve sample words are read back from the items
`SetSeedElectrum` creates. -/
theorem seed_roundtrip_witness :
    ∃ s', sampleSwapItem.SetSeedElectrum sampleSeedEnv sampleSeed = some s'
      ∧ s'.m_seedPhraseItems
          = List.zipWith
              (fun (i : Nat) x => ElectrumPhraseItem.init i (sampleSeedEnv.fromStdString x))
              (List.range sampleSeedEnv.WORD_COUNT) sampleSeed
      ∧ s'.GetSeedPhraseFromSeedItems sampleSeedEnv = some sampleSeed :=
  (seed_roundtrip sampleSeedEnv sampleSwapItem sampleSeed (by decide) (by decide)
    (by decide)).1

end BeamUI
